import Mathlib

/-!
# Order lifecycle orchestration of `projekuas`

A shallow embedding of the service modules `app/lib/orders.js`,
`app/lib/shipments.js` and `app/lib/payments.js`, of the rate limiter of
`app/middleware.js` and of the stock, expiry and pricing rules of the product
pages, together with the properties that are stated about them.

* JavaScript values are the inductive type `Val`; a document (and every plain
  object handed to the services) is an association list `Doc` of field names
  and values.  JavaScript numbers are doubles: a number value is given by an
  integer (`Val.num`) or a decimal fraction (`Val.dec`) and stands for the
  double nearest to it, and every arithmetic result is rounded to a double
  (`roundRatio`); `Val.nan` is `NaN`.
* The document database is not part of the sources (`app/lib/firebase.js` only
  configures the client library); it is modelled as the `Store` collaborator.
  Every store call is one round trip that may fail; a failed call throws in
  the JavaScript code and is caught by the `try`/`catch` of the service.
* An `async` service function becomes a function from the store before the
  call to its result object and the store after the call.  The result objects
  `{ success: true, ... }` and `{ success: false, error }` are `Except.ok` and
  `Except.error`.
* Arithmetic on the prices and instants of the product pages is exact:
  `Math.round` and `Math.ceil` are taken over the integers and the rationals.
-/

namespace Projekuas

/-! ## JavaScript numbers -/

/-- A JavaScript number: a finite value, `NaN`, or an infinity. Negative zero
is not told apart from zero. -/
inductive JSNum where
  | fin (q : ℚ)
  | nan
  | infinity (negative : Bool)
  deriving DecidableEq, Repr

/-- The number of binary digits of a natural number, `0` for `0`. -/
def bitLength (n : Nat) : Nat := if n = 0 then 0 else (Nat.toDigits 2 n).length

/-- The fraction `(num / den) / 2 ^ e` as a pair of naturals. -/
def shiftRatio (num den : Nat) (e : Int) : Nat × Nat :=
  if 0 ≤ e then (num, den * 2 ^ e.toNat) else (num * 2 ^ (-e).toNat, den)

/-- The integer `⌊log₂ (num / den)⌋`, for positive `num` and `den`. -/
def binaryExponent (num den : Nat) : Int :=
  let k : Int := (bitLength num : Int) - (bitLength den : Int)
  if (shiftRatio num den k).2 ≤ (shiftRatio num den k).1 then k else k - 1

/-- The integer nearest to `num / den`, a tie going to the even one. -/
def roundHalfEven (num den : Nat) : Nat :=
  if 2 * (num % den) < den then num / den
  else if den < 2 * (num % den) then num / den + 1
  else if (num / den) % 2 = 0 then num / den else num / den + 1

/-- The result of rounding a non-negative fraction to a double: the finite
double `mantissa * 2 ^ exponent`, or an overflow. -/
inductive Rounded where
  | finite (mantissa : Nat) (exponent : Int)
  | overflow
  deriving DecidableEq, Repr

/-- The double nearest to `num / den` (IEEE 754 binary64, round to nearest,
ties to even): 53 binary digits, exponents from `-1074`, an overflow when
the rounded value reaches `2 ^ 1024`. -/
def roundRatio (num den : Nat) : Rounded :=
  if num = 0 then .finite 0 0
  else
    let e : Int := max (binaryExponent num den - 52) (-1074)
    let m := roundHalfEven (shiftRatio num den e).1 (shiftRatio num den e).2
    if (1025 : Int) ≤ (bitLength m : Int) + e then .overflow else .finite m e

/-- The value of a finite double as a fraction of naturals. -/
def Rounded.ratio : Rounded → Nat × Nat
  | .finite m e => if 0 ≤ e then (m * 2 ^ e.toNat, 1) else (m, 2 ^ (-e).toNat)
  | .overflow => (0, 1)

/-- Whether rounding `num / den` gives the double of value `vnum / vden`. -/
def roundsTo (num den vnum vden : Nat) : Bool :=
  match roundRatio num den with
  | .overflow => false
  | .finite m e =>
    decide ((Rounded.ratio (.finite m e)).1 * vden = vnum * (Rounded.ratio (.finite m e)).2)

/-- The integer `n` with `10 ^ (n - 1) ≤ num / den < 10 ^ n`, for a positive
fraction below `10 ^ 400` and above `10 ^ (-400)`. -/
def decimalExponent (num den : Nat) : Int :=
  if den ≤ num then ((Nat.toDigits 10 (num / den)).length : Int)
  else
    1 - (((List.range 400).find? (fun i => decide (den ≤ num * 10 ^ (i + 1)))).getD 0 + 1 : Nat)

/-- The fraction `(num / den) / 10 ^ e` as a pair of naturals. -/
def shiftDecimal (num den : Nat) (e : Int) : Nat × Nat :=
  if 0 ≤ e then (num, den * 10 ^ e.toNat) else (num * 10 ^ (-e).toNat, den)

/-- The candidate with `k` significant digits for the double `num / den` of
decimal exponent `n`: the multiple `s * 10 ^ (n - k)` nearest to it that rounds
to it, if there is one (of two, the nearer; of two equally near, the even). -/
def digitsCandidate (num den : Nat) (n : Int) (k : Nat) : Option Nat :=
  let scaled := shiftDecimal num den (n - k)
  let low := scaled.1 / scaled.2
  let okLow := low ≠ 0 ∧
    roundsTo (shiftDecimal low 1 (-(n - k))).1 (shiftDecimal low 1 (-(n - k))).2 num den = true
  let okHigh :=
    roundsTo (shiftDecimal (low + 1) 1 (-(n - k))).1 (shiftDecimal (low + 1) 1 (-(n - k))).2
      num den = true
  if okLow ∧ okHigh then
    (if 2 * scaled.1 < (2 * low + 1) * scaled.2 then some low
     else if (2 * low + 1) * scaled.2 < 2 * scaled.1 then some (low + 1)
     else if low % 2 = 0 then some low else some (low + 1))
  else if okLow then some low
  else if okHigh then some (low + 1)
  else none

/-- The shortest digits for a double: the significand `s` of the candidate
with the fewest digits, searched from `k` digits on, with its digit count. -/
def shortestDigits (num den : Nat) (n : Int) : Nat → Nat → Nat × Nat
  | 0, k => ((shiftDecimal num den (n - k)).1 / (shiftDecimal num den (n - k)).2, k)
  | fuel + 1, k =>
    match digitsCandidate num den n k with
    | some s => (s, k)
    | none => shortestDigits num den n fuel (k + 1)

/-- A list of decimal digits without its trailing zeros. -/
def stripTrailingZeros (digits : List Char) : List Char :=
  (digits.reverse.dropWhile (fun c => c == '0')).reverse

/-- The text of `Number::toString` for the digits `digits` of a significand
and the decimal exponent `n` (the value is `0.digits * 10 ^ n`). -/
def formatDigits (digits : List Char) (n : Int) : String :=
  let k : Int := digits.length
  if k ≤ n ∧ n ≤ 21 then
    String.mk (digits ++ List.replicate (n - k).toNat '0')
  else if 0 < n ∧ n ≤ 21 then
    String.mk (digits.take n.toNat ++ ['.'] ++ digits.drop n.toNat)
  else if -6 < n ∧ n ≤ 0 then
    String.mk (['0', '.'] ++ List.replicate (-n).toNat '0' ++ digits)
  else
    let exponent : String :=
      (if 0 ≤ n - 1 then "e+" else "e-") ++ toString (n - 1).natAbs
    if digits.length = 1 then String.mk digits ++ exponent
    else String.mk (digits.take 1 ++ ['.'] ++ digits.drop 1) ++ exponent

/-- The text of `Number::toString` for the positive double `num / den`. -/
def doubleToString (num den : Nat) : String :=
  let n := decimalExponent num den
  let found := shortestDigits num den n 17 1
  let digits := Nat.toDigits 10 found.1
  -- a significand that reached `10 ^ k` has one digit more
  formatDigits (stripTrailingZeros digits) (n + ((digits.length : Int) - (found.2 : Int)))

/-- The text of `Number::toString` for the number `± num / den`, rounded to a
double first; an integer up to `2 ^ 53` is written in full. -/
def numberText (negative : Bool) (num den : Nat) : String :=
  if den = 1 ∧ num ≤ 2 ^ 53 then
    (if negative ∧ num ≠ 0 then "-" else "") ++ toString num
  else
    match roundRatio num den with
    | .overflow => if negative then "-Infinity" else "Infinity"
    | .finite m e =>
      if m = 0 then "0"
      else (if negative then "-" else "") ++
        doubleToString (Rounded.ratio (.finite m e)).1 (Rounded.ratio (.finite m e)).2

/-- The JavaScript number `± num / den`, rounded to a double; an integer up to
`2 ^ 53` is a double already. -/
def JSNum.ofRatio (negative : Bool) (num den : Nat) : JSNum :=
  if den = 1 ∧ num ≤ 2 ^ 53 then .fin (mkRat (if negative then -(num : Int) else (num : Int)) 1)
  else
    match roundRatio num den with
    | .overflow => .infinity negative
    | .finite m e =>
      .fin (mkRat
        (if negative then -((Rounded.ratio (.finite m e)).1 : Int)
          else ((Rounded.ratio (.finite m e)).1 : Int))
        (Rounded.ratio (.finite m e)).2)

/-- The double nearest to a rational number. -/
def roundDouble (q : ℚ) : JSNum := JSNum.ofRatio (decide (q.num < 0)) q.num.natAbs q.den

/-- Truthiness of a JavaScript number: `0` and `NaN` are falsy. -/
def JSNum.truthy : JSNum → Bool
  | .fin q => q.num != 0
  | .nan => false
  | .infinity _ => true

/-- Whether a JavaScript number is `NaN`. -/
def JSNum.isNaN : JSNum → Bool
  | .nan => true
  | _ => false

/-- The expression `x || 0` on a number. -/
def JSNum.orZero (x : JSNum) : JSNum := if x.truthy then x else .fin 0

/-- The sum `a + b` of two JavaScript numbers: the exact sum
`(a.num * b.den + b.num * a.den) / (a.den * b.den)` of two finite numbers,
rounded to a double. -/
def JSNum.add : JSNum → JSNum → JSNum
  | .fin a, .fin b => roundDouble (mkRat (a.num * b.den + b.num * a.den) (a.den * b.den))
  | .nan, _ => .nan
  | _, .nan => .nan
  | .infinity a, .infinity b => if a = b then .infinity a else .nan
  | .infinity a, .fin _ => .infinity a
  | .fin _, .infinity b => .infinity b

/-- The quotient `a / b` of a JavaScript number by a count. -/
def JSNum.divNat (a : JSNum) (b : Nat) : JSNum :=
  match a with
  | .nan => .nan
  | .infinity negative => .infinity negative
  | .fin q =>
    if b = 0 then (if q.num = 0 then .nan else .infinity (decide (q.num < 0)))
    else roundDouble (mkRat q.num (q.den * b))

/-- The text `Number::toString` gives for a JavaScript number. -/
def JSNum.text : JSNum → String
  | .nan => "NaN"
  | .infinity negative => if negative then "-Infinity" else "Infinity"
  | .fin q => numberText (decide (q.num < 0)) q.num.natAbs q.den

/-- The value of a list of decimal digits. -/
def digitsNat (digits : List Char) : Nat :=
  digits.foldl (fun n c => 10 * n + (c.toNat - 48)) 0

/-- The characters `parseFloat` skips at the start of a text: the white space
and line terminators of JavaScript (`StrWhiteSpaceChar`). -/
def isStrWhiteSpace (c : Char) : Bool :=
  [0x09, 0x0A, 0x0B, 0x0C, 0x0D, 0x20, 0xA0, 0x1680, 0x2000, 0x2001, 0x2002, 0x2003, 0x2004,
    0x2005, 0x2006, 0x2007, 0x2008, 0x2009, 0x200A, 0x2028, 0x2029, 0x202F, 0x205F, 0x3000,
    0xFEFF].contains c.toNat

/-- The exponent part of a decimal text (`e`, an optional sign, digits); `0`
when there is none. -/
def parseExponent (cs : List Char) : Int :=
  match cs with
  | c :: rest =>
    if c = 'e' ∨ c = 'E' then
      match rest with
      | '-' :: ds => -(digitsNat (ds.takeWhile Char.isDigit) : Int)
      | '+' :: ds => (digitsNat (ds.takeWhile Char.isDigit) : Int)
      | ds => (digitsNat (ds.takeWhile Char.isDigit) : Int)
    else 0
  | [] => 0

/-- The decimal literal at the head of a text, without its sign, as the
JavaScript number of the given sign; `NaN` when there is none. -/
def parseUnsigned (negative : Bool) (cs : List Char) : JSNum :=
  if "Infinity".data.isPrefixOf cs then .infinity negative
  else
    let intDigits := cs.takeWhile Char.isDigit
    let rest := cs.dropWhile Char.isDigit
    let fracDigits : List Char :=
      if rest.head? = some '.' then rest.tail.takeWhile Char.isDigit else []
    let afterFraction : List Char :=
      if rest.head? = some '.' then rest.tail.dropWhile Char.isDigit else rest
    if intDigits.isEmpty && fracDigits.isEmpty then .nan
    else
      JSNum.ofRatio negative
        (shiftDecimal (digitsNat (intDigits ++ fracDigits)) 1
          ((fracDigits.length : Int) - parseExponent afterFraction)).1
        (shiftDecimal (digitsNat (intDigits ++ fracDigits)) 1
          ((fracDigits.length : Int) - parseExponent afterFraction)).2

/-- The function `parseFloat` on a text: leading white space is skipped, then
an optional sign and the longest decimal literal are read; the value is
rounded to a double. -/
def parseFloatText (text : String) : JSNum :=
  if (text.data.dropWhile isStrWhiteSpace).head? = some '-' then
    parseUnsigned true (text.data.dropWhile isStrWhiteSpace).tail
  else if (text.data.dropWhile isStrWhiteSpace).head? = some '+' then
    parseUnsigned false (text.data.dropWhile isStrWhiteSpace).tail
  else parseUnsigned false (text.data.dropWhile isStrWhiteSpace)

/-- The text `x.toFixed(1)` of the non-negative double `num / den`: the tenths
nearest to it, the larger of two equally near; from `10 ^ 21` on the text of
`Number::toString`. -/
def toFixed1 (num den : Nat) : String :=
  if 10 ^ 21 * den ≤ num then doubleToString num den
  else
    toString ((20 * num + den) / (2 * den) / 10) ++ "." ++
      toString ((20 * num + den) / (2 * den) % 10)

/-! ## JavaScript values -/

/-- A JavaScript value as the services see it. `num n` is the number `n` and
`dec m s` the number `m / 10 ^ s` (the literal `10.5` is `dec 105 1`); both
stand for the double nearest to that value, an infinity where the value lies
beyond the doubles. `serverTimestamp` is the sentinel returned by
`serverTimestamp()`, `timestamp t` a stored server time. -/
inductive Val where
  | undefined
  | null
  | bool (b : Bool)
  | num (n : Int)
  | dec (mantissa : Int) (scale : Nat)
  | nan
  | str (s : String)
  | serverTimestamp
  | timestamp (t : Nat)
  | arr (items : List Val)
  | obj (fields : List (String × Val))
  deriving Repr, Inhabited

/-- A plain object or stored document: field names with their values. -/
abbrev Doc := List (String × Val)

/-- JavaScript truthiness, as used by `||`, `&&`, `!` and `if`. -/
def Val.truthy : Val → Bool
  | .undefined => false
  | .null => false
  | .nan => false
  | .bool b => b
  | .num n => n != 0
  | .dec m s => (JSNum.ofRatio (decide (m < 0)) m.natAbs (10 ^ s)).truthy
  | .str s => s != ""
  | _ => true

/-- The JavaScript expression `a || b`. -/
def Val.or (a b : Val) : Val := if a.truthy then a else b

/-- The comparison `v === 'text'` against a string. -/
def Val.isStr (v : Val) (text : String) : Bool :=
  match v with
  | .str s => s == text
  | _ => false

mutual
/-- String conversion of a value (`String(v)`, `v.toString()`, template
literals). -/
def Val.toJSString : Val → String
  | .undefined => "undefined"
  | .null => "null"
  | .bool b => if b then "true" else "false"
  | .num n => numberText (decide (n < 0)) n.natAbs 1
  | .dec m s => numberText (decide (m < 0)) m.natAbs (10 ^ s)
  | .nan => "NaN"
  | .str s => s
  | .serverTimestamp => "[object Object]"
  | .timestamp t => "Timestamp(seconds=" ++ toString t ++ ", nanoseconds=0)"
  | .arr items => joinVals items
  | .obj _ => "[object Object]"
termination_by structural v => v
/-- The text of `Array.prototype.join(',')`: `null` and `undefined` elements
are empty. -/
def joinVals : List Val → String
  | [] => ""
  | v :: rest =>
    (match v with
      | .undefined => ""
      | .null => ""
      | w => Val.toJSString w)
      ++ (if rest.isEmpty then "" else ",") ++ joinVals rest
termination_by structural l => l
end

/-- The operand of `+` after `ToPrimitive`: arrays, objects and timestamps
become their string form. -/
def Val.toPrimitive : Val → Val
  | .arr items => .str (Val.toJSString (.arr items))
  | .obj fields => .str (Val.toJSString (.obj fields))
  | .serverTimestamp => .str (Val.toJSString .serverTimestamp)
  | .timestamp t => .str (Val.toJSString (.timestamp t))
  | v => v

/-- The numeric reading `Number(v)` of a primitive that is not a string. -/
def Val.toNumber : Val → JSNum
  | .null => .fin 0
  | .bool b => .fin (if b then 1 else 0)
  | .num n => JSNum.ofRatio (decide (n < 0)) n.natAbs 1
  | .dec m s => JSNum.ofRatio (decide (m < 0)) m.natAbs (10 ^ s)
  | _ => .nan

/-- The value that stands for a JavaScript number: an integer is `num`, any
other finite double, whose denominator is a power of two, is `dec`, and an
infinity is the `num` of `2 ^ 1024`, which lies beyond the doubles. -/
def Val.ofNumber : JSNum → Val
  | .nan => .nan
  | .infinity negative => .num (if negative then -(2 ^ 1024 : Int) else (2 ^ 1024 : Int))
  | .fin q =>
    if q.den = 1 then .num q.num
    else .dec (q.num * 5 ^ (bitLength q.den - 1)) (bitLength q.den - 1)

/-- The JavaScript expression `a + b`: string concatenation as soon as one
operand is a string after `ToPrimitive`, numeric addition otherwise. -/
def jsAdd (a b : Val) : Val :=
  match a.toPrimitive, b.toPrimitive with
  | .str x, y => .str (x ++ y.toJSString)
  | x, .str y => .str (x.toJSString ++ y)
  | x, y => Val.ofNumber (JSNum.add x.toNumber y.toNumber)

/-! ## Documents -/

/-- The value stored under a field name, if the field is present. -/
def Doc.find? : Doc → String → Option Val
  | [], _ => none
  | (k, v) :: rest, key => if k = key then some v else Doc.find? rest key

/-- Property access `d.key`: a missing field reads as `undefined`. -/
def Doc.get (d : Doc) (key : String) : Val := (d.find? key).getD .undefined

/-- Assignment `d.key = v`: replaces the field or adds it at the end. -/
def Doc.set : Doc → String → Val → Doc
  | [], key, v => [(key, v)]
  | (k, w) :: rest, key, v =>
    if k = key then (k, v) :: rest else (k, w) :: Doc.set rest key v

/-- Object spread `{ ...base, ...extra }`: the fields of `extra` are assigned
over `base` one by one. -/
def Doc.spread (base extra : Doc) : Doc :=
  extra.foldl (fun acc kv => acc.set kv.1 kv.2) base

/-- The field names of a document, in order. -/
def Doc.keys (d : Doc) : List String := d.map Prod.fst

/-! ## The document store -/

/-- A collection: document ids with their documents, in insertion order. -/
abbrev Coll := List (String × Doc)

/-- The document stored under an id. -/
def Coll.find? : Coll → String → Option Doc
  | [], _ => none
  | (k, d) :: rest, id => if k = id then some d else Coll.find? rest id

/-- Replace the document stored under an id by its image under `f`. -/
def Coll.modify : Coll → String → (Doc → Doc) → Coll
  | [], _, _ => []
  | (k, d) :: rest, id, f =>
    if k = id then (k, f d) :: rest else (k, d) :: Coll.modify rest id f

/-- Remove the document stored under an id. -/
def Coll.erase (c : Coll) (id : String) : Coll := c.filter (fun e => e.1 != id)

/-- The four collections the services use. -/
inductive CollName where
  | orders
  | payments
  | shipments
  | orderStatusLogs
  deriving DecidableEq, Repr

/-- Modelled from the spec: the `Store` collaborator of section 6 (the Firestore
client configured in `app/lib/firebase.js`, which is not among the sources).
`clock` is the server's logical time, one tick per round trip; it stamps
`serverTimestamp()` fields and names inserted documents. `failing` lists the
ticks at which the store cannot be reached (`StoreUnavailable`). -/
structure Store where
  orders : Coll
  payments : Coll
  shipments : Coll
  orderStatusLogs : Coll
  clock : Nat
  failing : List Nat
  deriving Repr

/-- The contents of a collection. -/
def Store.coll (s : Store) : CollName → Coll
  | .orders => s.orders
  | .payments => s.payments
  | .shipments => s.shipments
  | .orderStatusLogs => s.orderStatusLogs

/-- Replace the contents of a collection. -/
def Store.setColl (s : Store) (c : CollName) (docs : Coll) : Store :=
  match c with
  | .orders => { s with orders := docs }
  | .payments => { s with payments := docs }
  | .shipments => { s with shipments := docs }
  | .orderStatusLogs => { s with orderStatusLogs := docs }

/-- The store after one round trip. -/
def Store.tick (s : Store) : Store := { s with clock := s.clock + 1 }

/-- Whether the round trip made now reaches the store. -/
def Store.reachable (s : Store) : Bool := !(s.failing.contains s.clock)

/-- Every store call from now on succeeds at the transport level. -/
def Store.reliable (s : Store) : Prop := s.failing = []

instance (s : Store) : Decidable s.reliable := by
  unfold Store.reliable; infer_instance

/-- The error of a store call that does not reach the store. -/
def errUnavailable : String := "StoreUnavailable"

/-- The error of an update whose document does not exist. -/
def errNotFound : String := "NotFound"

/-- Whether a value is `undefined`. -/
def Val.isUndefined : Val → Bool
  | .undefined => true
  | _ => false

/-- What the store keeps of a written value: the `serverTimestamp()` sentinel
becomes the server time of the write. -/
def Val.resolve (t : Nat) : Val → Val
  | .serverTimestamp => .timestamp t
  | v => v

/-- Modelled from the spec: the fields a write stores. Fields whose value is
`undefined` are not written, the sentinel is resolved to the server time. -/
def resolveWrite (t : Nat) (fields : Doc) : Doc :=
  (fields.filter (fun kv => !kv.2.isUndefined)).map (fun kv => (kv.1, kv.2.resolve t))

/-- Modelled from the spec: `get(collection, id)`, the call `getDoc(doc(db, c, id))`;
`none` is a snapshot for which `exists()` is false. -/
def getDoc (c : CollName) (id : String) (s : Store) : Except String (Option Doc) × Store :=
  if s.reachable then (.ok ((s.coll c).find? id), s.tick)
  else (.error errUnavailable, s.tick)

/-- Modelled from the spec: `insert(collection, document)`, the call
`addDoc(collection(db, c), document)`; returns the id of the new document. -/
def addDoc (c : CollName) (document : Doc) (s : Store) : Except String String × Store :=
  if s.reachable then
    let id := "auto" ++ toString s.clock
    (.ok id, (s.setColl c (s.coll c ++ [(id, resolveWrite s.clock document)])).tick)
  else (.error errUnavailable, s.tick)

/-- Modelled from the spec: `update(collection, id, partialDocument)`, the call
`updateDoc(doc(db, c, id), fields)`; fails with `NotFound` if the id is absent. -/
def updateDoc (c : CollName) (id : String) (fields : Doc) (s : Store) :
    Except String Unit × Store :=
  if s.reachable then
    match (s.coll c).find? id with
    | none => (.error errNotFound, s.tick)
    | some _ =>
      (.ok (),
        (s.setColl c ((s.coll c).modify id
          (fun d => Doc.spread d (resolveWrite s.clock fields)))).tick)
  else (.error errUnavailable, s.tick)

/-- Modelled from the spec: `delete(collection, id)`, the call
`deleteDoc(doc(db, c, id))`. -/
def deleteDoc (c : CollName) (id : String) (s : Store) : Except String Unit × Store :=
  if s.reachable then (.ok (), (s.setColl c ((s.coll c).erase id)).tick)
  else (.error errUnavailable, s.tick)

/-- Modelled from the spec: `query(collection, filters)`, the call
`getDocs(query(collection(db, c), where(...)))`; the documents that pass the
filter, with their ids. -/
def getDocs (c : CollName) (keep : Doc → Bool) (s : Store) :
    Except String (List (String × Doc)) × Store :=
  if s.reachable then (.ok ((s.coll c).filter (fun e => keep e.2)), s.tick)
  else (.error errUnavailable, s.tick)

/-! ## `app/lib/orders.js`: audit log, confirmation, deletion -/

/-- The function `createOrderStatusLog(orderId, status, message, actionBy)`. -/
def createOrderStatusLog (orderId status message actionBy : String) (s : Store) :
    Except String Unit × Store :=
  let logData : Doc :=
    [("orderId", .str orderId), ("status", .str status), ("message", .str message),
     ("actionBy", .str actionBy), ("timestamp", .serverTimestamp)]
  match addDoc .orderStatusLogs logData s with
  | (.ok _, s1) => (.ok (), s1)
  | (.error e, s1) => (.error e, s1)

/-- The function `confirmOrderReceived(orderId, resellerId, confirmationMessage)`. -/
def confirmOrderReceived (orderId resellerId : String) (confirmationMessage : String)
    (s : Store) : Except String Unit × Store :=
  match getDoc .orders orderId s with
  | (.error e, s1) => (.error e, s1)
  | (.ok none, s1) => (.error "Order not found", s1)
  | (.ok (some orderData), s1) =>
    if !(orderData.get "resellerId").isStr resellerId then
      (.error "Unauthorized access", s1)
    else
      match updateDoc .orders orderId
          [("status", .str "completed"),
           ("resellerConfirmation", .bool true),
           ("actualDelivery", .serverTimestamp),
           ("adminMessage", Val.or (.str confirmationMessage)
              (.str "Pesanan telah dikonfirmasi diterima oleh reseller")),
           ("updatedAt", .serverTimestamp)] s1 with
      | (.error e, s2) => (.error e, s2)
      | (.ok _, s2) =>
        let logged := createOrderStatusLog orderId "completed"
          "Order confirmed as received by reseller" ("reseller_" ++ resellerId) s2
        (.ok (), logged.2)

/-- The function `deleteOrder(orderId)`. -/
def deleteOrder (orderId : String) (s : Store) : Except String Unit × Store :=
  match getDoc .orders orderId s with
  | (.error e, s1) => (.error e, s1)
  | (.ok none, s1) => (.error "Order not found", s1)
  | (.ok (some orderData), s1) =>
    if !(["cancelled", "pending"].any (fun allowed => (orderData.get "status").isStr allowed)) then
      (.error "Only cancelled or pending orders can be deleted", s1)
    else
      match deleteDoc .orders orderId s1 with
      | (.error e, s2) => (.error e, s2)
      | (.ok _, s2) =>
        let logged := createOrderStatusLog orderId "deleted" "Order deleted by admin" "admin" s2
        (.ok (), logged.2)

/-! ## `app/lib/shipments.js` -/

/-- What a call reads from the browser: `Date.now()`, `new Date().getFullYear()`
and the text of `Math.random().toString(36)`. The reads of one service call are
taken at the same instant. -/
structure Client where
  nowMs : Nat
  year : Nat
  random36 : String
  deriving Repr

/-- The expression `text.slice(-k)`: the last `k` characters of a text. -/
def sliceLast (k : Nat) (text : String) : String :=
  String.mk (text.data.drop (text.data.length - k))

/-- The expression `text.substr(start, len)`. -/
def substr (start len : Nat) (text : String) : String :=
  String.mk ((text.data.drop start).take len)

/-- The expression `text.toUpperCase()` on ASCII text. -/
def toUpperCase (text : String) : String := String.mk (text.data.map Char.toUpper)

/-- The function `generateTrackingNumber()`. -/
def generateTrackingNumber (cl : Client) : String :=
  let timestamp := sliceLast 6 (toString cl.nowMs)
  let random := toUpperCase (substr 2 4 cl.random36)
  "SHIP" ++ toString cl.year ++ timestamp ++ random

/-- The success result of `createShipmentFromOrder`. -/
structure ShipmentResult where
  shipmentId : String
  trackingNumber : Val
  shipmentNumber : String
  deriving Repr

/-- The document `createShipmentFromOrder` assembles before it validates and
saves it. -/
def shipmentOf (cl : Client) (orderData shippingData : Doc) : Doc :=
  let trackingNumber :=
    Val.or (shippingData.get "trackingNumber") (.str (generateTrackingNumber cl))
  let shipmentNumber := "SHP" ++ sliceLast 6 (toString cl.nowMs)
  [("shipmentNumber", .str shipmentNumber),
   ("trackingNumber", trackingNumber),
   ("orderId", Val.or (Val.or (orderData.get "id") (orderData.get "_id")) (orderData.get "orderId")),
   ("orderNumber", orderData.get "orderNumber"),
   ("customerId", orderData.get "customerId"),
   ("customerName", orderData.get "customerName"),
   ("customerEmail", orderData.get "customerEmail"),
   ("customerPhone", orderData.get "customerPhone"),
   ("shippingAddress", orderData.get "shippingAddress"),
   ("resellerId", orderData.get "resellerId"),
   ("resellerName", orderData.get "resellerName"),
   ("resellerEmail", orderData.get "resellerEmail"),
   ("items", orderData.get "items"),
   ("totalWeight", Val.or (orderData.get "totalWeight") (.num 0)),
   ("shippingMethod", orderData.get "shippingMethod"),
   ("courier", Val.or (Val.or (shippingData.get "courier") (orderData.get "courier")) (.str "JNE")),
   ("service", Val.or (shippingData.get "service") (.str "REG")),
   ("cost", Val.or (Val.or (shippingData.get "cost") (orderData.get "shippingCost")) (.num 0)),
   ("estimatedDays", Val.or (shippingData.get "estimatedDays") (.str "2-3 hari")),
   ("notes", Val.or (Val.or (shippingData.get "notes") (orderData.get "notes")) (.str "")),
   ("status", .str "preparing"),
   ("estimatedDelivery",
      Val.or (shippingData.get "estimatedDelivery") (orderData.get "estimatedDelivery")),
   ("actualDelivery", .null),
   ("adminNotes", .str ""),
   ("createdAt", .serverTimestamp),
   ("updatedAt", .serverTimestamp)]

/-- The function `createShipmentFromOrder(orderData, shippingData)`. -/
def createShipmentFromOrder (cl : Client) (orderData shippingData : Doc) (s : Store) :
    Except String ShipmentResult × Store :=
  let shipment := shipmentOf cl orderData shippingData
  if !(shipment.get "orderId").truthy then
    (.error "Order ID is required but not found in orderData", s)
  else
    match addDoc .shipments shipment s with
    | (.error e, s1) => (.error e, s1)
    | (.ok id, s1) =>
      (.ok { shipmentId := id
             trackingNumber := shipment.get "trackingNumber"
             shipmentNumber := "SHP" ++ sliceLast 6 (toString cl.nowMs) }, s1)

/-! ## `app/lib/orders.js`: status updates -/

/-- The order data `updateOrderStatus` hands to `createShipmentFromOrder`. -/
def shipmentOrderData (orderId : String) (orderData additionalData : Doc) : Doc :=
  [("id", .str orderId),
   ("orderNumber", orderData.get "orderNumber"),
   ("customerId", orderData.get "resellerId"),
   ("customerName", orderData.get "resellerName"),
   ("customerEmail", orderData.get "resellerEmail"),
   ("customerPhone", orderData.get "resellerPhone"),
   ("shippingAddress", orderData.get "shippingAddress"),
   ("resellerId", orderData.get "resellerId"),
   ("resellerName", orderData.get "resellerName"),
   ("resellerEmail", orderData.get "resellerEmail"),
   ("items", orderData.get "products"),
   ("totalWeight", Val.or (additionalData.get "totalWeight") (.num 1)),
   ("shippingMethod", Val.or (additionalData.get "shippingMethod") (.str "Regular")),
   ("shippingCost", Val.or (additionalData.get "shippingCost") (.num 0)),
   ("courier", Val.or (additionalData.get "courier") (.str "JNE")),
   ("estimatedDelivery", additionalData.get "estimatedDelivery"),
   ("notes", Val.or (additionalData.get "notes") (.str ""))]

/-- The shipping data `updateOrderStatus` hands to `createShipmentFromOrder`. -/
def shippingDataOf (additionalData : Doc) : Doc :=
  [("courier", Val.or (additionalData.get "courier") (.str "JNE")),
   ("service", Val.or (additionalData.get "service") (.str "REG")),
   ("cost", Val.or (additionalData.get "shippingCost") (.num 0)),
   ("estimatedDays", Val.or (additionalData.get "estimatedDays") (.str "2-3 hari")),
   ("notes", Val.or (additionalData.get "notes") (.str "")),
   ("estimatedDelivery", additionalData.get "estimatedDelivery")]

/-- The object `updateData` of `updateOrderStatus` before the shipment step:
the requested status and message, with `additionalData` spread over them, and
the reseller confirmation fields for a confirmed completion. -/
def statusUpdateData (status adminMessage : String) (additionalData : Doc) : Doc :=
  let updateData := Doc.spread
    [("status", .str status), ("adminMessage", .str adminMessage),
     ("updatedAt", .serverTimestamp)] additionalData
  if status == "completed" && (additionalData.get "confirmedByReseller").truthy then
    ((updateData.set "resellerConfirmation" (.bool true)).set "actualDelivery"
      .serverTimestamp).set "adminMessage"
        (Val.or (.str adminMessage) (.str "Pesanan telah dikonfirmasi diterima oleh reseller"))
  else updateData

/-- The last two steps of `updateOrderStatus`: write `updateData` to the order,
then log the requested status; the result of the log call is not looked at. -/
def writeAndLog (orderId status adminMessage : String) (updateData : Doc) (s : Store) :
    Except String Unit × Store :=
  match updateDoc .orders orderId updateData s with
  | (.error e, s1) => (.error e, s1)
  | (.ok _, s1) =>
    let logged := createOrderStatusLog orderId status adminMessage "system" s1
    (.ok (), logged.2)

/-- The function `updateOrderStatus(orderId, status, adminMessage, additionalData)`. -/
def updateOrderStatus (cl : Client) (orderId status adminMessage : String)
    (additionalData : Doc) (s : Store) : Except String Unit × Store :=
  let updateData := statusUpdateData status adminMessage additionalData
  if status == "shipped" && (additionalData.get "createShipment").truthy then
    match getDoc .orders orderId s with
    | (.error e, s1) => (.error e, s1)
    | (.ok none, s1) => writeAndLog orderId status adminMessage updateData s1
    | (.ok (some orderData), s1) =>
      match createShipmentFromOrder cl (shipmentOrderData orderId orderData additionalData)
          (shippingDataOf additionalData) s1 with
      | (.ok shipmentResult, s2) =>
        writeAndLog orderId status adminMessage
          (updateData.set "trackingNumber" shipmentResult.trackingNumber) s2
      | (.error _, s2) => writeAndLog orderId status adminMessage updateData s2
  else writeAndLog orderId status adminMessage updateData s

/-! ## `app/lib/orders.js`: statistics -/

/-- The `stats` object of `getOrderStatistics`. -/
structure OrderStats where
  total : Nat
  totalOrders : Nat
  pending : Nat
  pendingOrders : Nat
  confirmed : Nat
  confirmedOrders : Nat
  processing : Nat
  processingOrders : Nat
  shipped : Nat
  shippedOrders : Nat
  completed : Nat
  completedOrders : Nat
  cancelled : Nat
  cancelledOrders : Nat
  waitingPayment : Nat
  waitingVerification : Nat
  paid : Nat
  totalRevenue : Val
  totalCommission : Val
  deriving Repr

/-- The count `orders.filter(o => o[field] === text).length`. -/
def countWhere (orders : List Doc) (field text : String) : Nat :=
  (orders.filter (fun o => (o.get field).isStr text)).length

/-- The sum `orders.filter(o => o.paymentStatus === 'paid')
.reduce((sum, o) => sum + (o[field] || 0), 0)`. -/
def sumPaid (orders : List Doc) (field : String) : Val :=
  (orders.filter (fun o => (o.get "paymentStatus").isStr "paid")).foldl
    (fun sum o => jsAdd sum (Val.or (o.get field) (.num 0))) (.num 0)

/-- The aggregation of `getOrderStatistics` over the scanned orders. -/
def orderStatistics (orders : List Doc) : OrderStats :=
  { total := orders.length
    totalOrders := orders.length
    pending := countWhere orders "status" "pending"
    pendingOrders := countWhere orders "status" "pending"
    confirmed := countWhere orders "status" "confirmed"
    confirmedOrders := countWhere orders "status" "confirmed"
    processing := countWhere orders "status" "processing"
    processingOrders := countWhere orders "status" "processing"
    shipped := countWhere orders "status" "shipped"
    shippedOrders := countWhere orders "status" "shipped"
    completed := countWhere orders "status" "completed"
    completedOrders := countWhere orders "status" "completed"
    cancelled := countWhere orders "status" "cancelled"
    cancelledOrders := countWhere orders "status" "cancelled"
    waitingPayment := countWhere orders "paymentStatus" "waiting_payment"
    waitingVerification := countWhere orders "paymentStatus" "waiting_verification"
    paid := countWhere orders "paymentStatus" "paid"
    totalRevenue := sumPaid orders "totalAmount"
    totalCommission := sumPaid orders "totalCommission" }

/-- The function `getOrderStatistics(resellerId)`: a scan of the orders, of
one reseller when a non-empty `resellerId` is given, then the aggregation. -/
def getOrderStatistics (resellerId : Option String) (s : Store) :
    Except String OrderStats × Store :=
  let keep : Doc → Bool :=
    match resellerId with
    | some r => if r != "" then fun o => (o.get "resellerId").isStr r else fun _ => true
    | none => fun _ => true
  match getDocs .orders keep s with
  | (.error e, s1) => (.error e, s1)
  | (.ok found, s1) => (.ok (orderStatistics (found.map (fun e => e.2))), s1)

/-! ## `app/lib/payments.js`: statistics -/

/-- The expression `text.replace(/[^\d]/g, '')`: the decimal digits of a text. -/
def keepDigits (text : String) : String := String.mk (text.data.filter Char.isDigit)

/-- The value of a text of decimal digits. -/
def digitsValue (digits : String) : Nat :=
  digits.data.foldl (fun n c => 10 * n + (c.toNat - 48)) 0

/-- The expression `parseFloat(amount.toString().replace(/[^\d]/g, '')) || 0`;
the empty text parses to `NaN`, which `|| 0` turns into `0`.
`amount.toString()` throws on `undefined` and `null`. -/
def revenueOf (amount : Val) : Except String JSNum :=
  match amount with
  | .undefined => .error "Cannot read properties of undefined (reading 'toString')"
  | .null => .error "Cannot read properties of null (reading 'toString')"
  | v => .ok (parseFloatText (keepDigits v.toJSString)).orZero

/-- The counters of the scan loop of `getPaymentStats`. -/
structure PaymentTally where
  totalRevenue : JSNum
  totalTransactions : Nat
  successfulTransactions : Nat
  failedTransactions : Nat
  processingTransactions : Nat
  deriving DecidableEq, Repr

/-- The body of the scan loop of `getPaymentStats` for one transaction. -/
def tallyStep (acc : PaymentTally) (data : Doc) : Except String PaymentTally :=
  let acc1 := { acc with totalTransactions := acc.totalTransactions + 1 }
  if (data.get "status").isStr "success" && (data.get "type").isStr "payment" then
    match revenueOf (data.get "amount") with
    | .error e => .error e
    | .ok amount =>
      .ok { acc1 with totalRevenue := acc1.totalRevenue.add amount
                      successfulTransactions := acc1.successfulTransactions + 1 }
  else if (data.get "status").isStr "failed" then
    .ok { acc1 with failedTransactions := acc1.failedTransactions + 1 }
  else if (data.get "status").isStr "processing" then
    .ok { acc1 with processingTransactions := acc1.processingTransactions + 1 }
  else .ok acc1

/-- The scan loop of `getPaymentStats`, from given counters. -/
def tallyFrom : PaymentTally → List Doc → Except String PaymentTally
  | acc, [] => .ok acc
  | acc, data :: rest =>
    match tallyStep acc data with
    | .error e => .error e
    | .ok acc1 => tallyFrom acc1 rest

/-- The `stats` object of `getPaymentStats`. -/
structure PaymentStats where
  totalRevenue : JSNum
  totalTransactions : Nat
  averageTransaction : JSNum
  successRate : String
  successfulTransactions : Nat
  failedTransactions : Nat
  processingTransactions : Nat
  deriving DecidableEq, Repr

/-- The text `((successful / total) * 100).toFixed(1)`, for `total > 0`: the
quotient and the product are each rounded to a double, then `toFixed(1)` is
taken of the double. -/
def percentFixed1 (successful total : Nat) : String :=
  match roundRatio successful total with
  | .overflow => "Infinity"
  | .finite m e =>
    match roundRatio ((Rounded.ratio (.finite m e)).1 * 100)
        (Rounded.ratio (.finite m e)).2 with
    | .overflow => "Infinity"
    | .finite m1 e1 =>
      toFixed1 (Rounded.ratio (.finite m1 e1)).1 (Rounded.ratio (.finite m1 e1)).2

/-- The statistics `getPaymentStats` derives from the counters of its scan. -/
def statsOfTally (t : PaymentTally) : PaymentStats :=
  { totalRevenue := t.totalRevenue
    totalTransactions := t.totalTransactions
    averageTransaction :=
      if t.totalTransactions > 0 then t.totalRevenue.divNat t.successfulTransactions
      else .fin 0
    successRate :=
      if t.totalTransactions > 0 then percentFixed1 t.successfulTransactions t.totalTransactions
      else "0.0"
    successfulTransactions := t.successfulTransactions
    failedTransactions := t.failedTransactions
    processingTransactions := t.processingTransactions }

/-- The computation of `getPaymentStats` on the scanned transactions. -/
def paymentStats (payments : List Doc) : Except String PaymentStats :=
  match tallyFrom ⟨.fin 0, 0, 0, 0, 0⟩ payments with
  | .error e => .error e
  | .ok t => .ok (statsOfTally t)

/-- The function `getPaymentStats()`. -/
def getPaymentStats (s : Store) : Except String PaymentStats × Store :=
  match getDocs .payments (fun _ => true) s with
  | (.error e, s1) => (.error e, s1)
  | (.ok found, s1) => (paymentStats (found.map (fun e => e.2)), s1)

/-! ## `app/lib/payments.js`: transactions -/

/-- The function `generateTransactionNumber()`. -/
def generateTransactionNumber (cl : Client) : String :=
  let timestamp := sliceLast 6 (toString cl.nowMs)
  let random := toUpperCase (substr 2 3 cl.random36)
  "TXN" ++ toString cl.year ++ timestamp ++ random

/-- The document `createPaymentTransaction` saves. -/
def paymentOf (cl : Client) (paymentData : Doc) : Doc :=
  [("transactionId", .str (generateTransactionNumber cl)),
   ("orderId", paymentData.get "orderId"),
   ("orderNumber", paymentData.get "orderNumber"),
   ("customer", paymentData.get "customer"),
   ("customerEmail", paymentData.get "customerEmail"),
   ("resellerId", paymentData.get "resellerId"),
   ("amount", paymentData.get "amount"),
   ("method", paymentData.get "method"),
   ("reference", paymentData.get "reference"),
   ("status", Val.or (paymentData.get "status") (.str "processing")),
   ("type", Val.or (paymentData.get "type") (.str "payment")),
   ("description", Val.or (paymentData.get "description") (.str "")),
   ("adminNotes", .str ""),
   ("createdAt", .serverTimestamp),
   ("updatedAt", .serverTimestamp)]

/-- The success result of `createPaymentTransaction`. -/
structure PaymentResult where
  paymentId : String
  transactionNumber : String
  deriving Repr

/-- The function `createPaymentTransaction(paymentData)`. -/
def createPaymentTransaction (cl : Client) (paymentData : Doc) (s : Store) :
    Except String PaymentResult × Store :=
  match addDoc .payments (paymentOf cl paymentData) s with
  | (.error e, s1) => (.error e, s1)
  | (.ok id, s1) =>
    (.ok { paymentId := id, transactionNumber := generateTransactionNumber cl }, s1)

/-- The function `updatePaymentStatus(paymentId, status, adminNotes)` of
`payments.js`. -/
def Payments.updatePaymentStatus (paymentId status adminNotes : String) (s : Store) :
    Except String Unit × Store :=
  updateDoc .payments paymentId
    [("status", .str status), ("adminNotes", .str adminNotes),
     ("updatedAt", .serverTimestamp)] s

/-- The function `retryPayment(paymentId)`. -/
def retryPayment (paymentId : String) (s : Store) : Except String Unit × Store :=
  updateDoc .payments paymentId
    [("status", .str "processing"), ("adminNotes", .str "Payment retry initiated"),
     ("updatedAt", .serverTimestamp)] s

/-! ## `app/lib/orders.js`: creation, payment, tracking -/

/-- The function `generateOrderNumber()`. -/
def generateOrderNumber (cl : Client) : String :=
  let timestamp := sliceLast 6 (toString cl.nowMs)
  let random := toUpperCase (substr 2 3 cl.random36)
  "ORD" ++ timestamp ++ random

/-- The document `createOrder` saves. -/
def orderOf (cl : Client) (userId : String) (orderData : Doc) : Doc :=
  [("orderNumber", .str (generateOrderNumber cl)),
   ("resellerId", .str userId),
   ("resellerEmail", orderData.get "resellerEmail"),
   ("resellerName", orderData.get "resellerName"),
   ("resellerPhone", orderData.get "resellerPhone"),
   ("products", orderData.get "products"),
   ("totalAmount", orderData.get "totalAmount"),
   ("totalCommission", orderData.get "totalCommission"),
   ("shippingAddress", orderData.get "shippingAddress"),
   ("paymentStatus", Val.or (orderData.get "paymentStatus") (.str "waiting_payment")),
   ("status", Val.or (orderData.get "status") (.str "pending")),
   ("paymentMethod", .str ""),
   ("paymentProof", .str ""),
   ("paymentProofURL", .str ""),
   ("adminMessage", .str ""),
   ("trackingNumber", .str ""),
   ("estimatedDelivery", .null),
   ("actualDelivery", .null),
   ("resellerConfirmation", .bool false),
   ("createdAt", .serverTimestamp),
   ("updatedAt", .serverTimestamp)]

/-- The success result of `createOrder`. -/
structure OrderResult where
  orderId : String
  orderNumber : String
  deriving Repr

/-- The function `createOrder(userId, orderData)`. -/
def createOrder (cl : Client) (userId : String) (orderData : Doc) (s : Store) :
    Except String OrderResult × Store :=
  match addDoc .orders (orderOf cl userId orderData) s with
  | (.error e, s1) => (.error e, s1)
  | (.ok id, s1) => (.ok { orderId := id, orderNumber := generateOrderNumber cl }, s1)

/-- The object `updateData` of `updatePaymentStatus`; the order status is set
only for a truthy `orderStatus`. -/
def paymentUpdateData (paymentStatus : String) (orderStatus : Option String)
    (adminMessage : String) : Doc :=
  let updateData : Doc :=
    [("paymentStatus", .str paymentStatus), ("adminMessage", .str adminMessage),
     ("updatedAt", .serverTimestamp)]
  match orderStatus with
  | some st => if st != "" then updateData.set "status" (.str st) else updateData
  | none => updateData

/-- The object `paymentData` that `updatePaymentStatus` hands to
`createPaymentTransaction` for a verified payment. -/
def verifiedPaymentData (orderId : String) (orderData paymentDetails : Doc) : Doc :=
  [("orderId", .str orderId),
   ("orderNumber", orderData.get "orderNumber"),
   ("customer", orderData.get "resellerName"),
   ("customerEmail", orderData.get "resellerEmail"),
   ("resellerId", orderData.get "resellerId"),
   ("amount", orderData.get "totalAmount"),
   ("method", Val.or (paymentDetails.get "method") (.str "Manual")),
   ("reference", Val.or (paymentDetails.get "reference") (.str "")),
   ("status", .str "success"),
   ("type", .str "payment"),
   ("description", .str ("Payment for order " ++ (orderData.get "orderNumber").toJSString))]

/-- The function `updatePaymentStatus(orderId, paymentStatus, orderStatus,
adminMessage, paymentDetails)` of `orders.js`; `paymentDetails` is `none` for
`null`. The result of `createPaymentTransaction` is not looked at. -/
def updatePaymentStatus (cl : Client) (orderId paymentStatus : String)
    (orderStatus : Option String) (adminMessage : String) (paymentDetails : Option Doc)
    (s : Store) : Except String Unit × Store :=
  match getDoc .orders orderId s with
  | (.error e, s1) => (.error e, s1)
  | (.ok none, s1) => (.error "Order not found", s1)
  | (.ok (some orderData), s1) =>
    match updateDoc .orders orderId (paymentUpdateData paymentStatus orderStatus adminMessage)
        s1 with
    | (.error e, s2) => (.error e, s2)
    | (.ok _, s2) =>
      match paymentDetails with
      | some details =>
        if paymentStatus == "paid" then
          (.ok (), (createPaymentTransaction cl
            (verifiedPaymentData orderId orderData details) s2).2)
        else (.ok (), s2)
      | none => (.ok (), s2)

/-- The object `paymentData` that `updatePaymentProof` hands to
`createPaymentTransaction`. -/
def proofPaymentData (orderId paymentMethod paymentProof : String) (orderData : Doc) : Doc :=
  [("orderId", .str orderId),
   ("orderNumber", orderData.get "orderNumber"),
   ("customer", orderData.get "resellerName"),
   ("customerEmail", orderData.get "resellerEmail"),
   ("resellerId", orderData.get "resellerId"),
   ("amount", orderData.get "totalAmount"),
   ("method", .str paymentMethod),
   ("reference", .str paymentProof),
   ("status", .str "processing"),
   ("type", .str "payment"),
   ("description",
      .str ("Payment proof submitted for order " ++ (orderData.get "orderNumber").toJSString))]

/-- The function `updatePaymentProof(orderId, paymentMethod, paymentProof,
paymentProofURL)`. -/
def updatePaymentProof (cl : Client) (orderId paymentMethod paymentProof paymentProofURL : String)
    (s : Store) : Except String Unit × Store :=
  match getDoc .orders orderId s with
  | (.error e, s1) => (.error e, s1)
  | (.ok none, s1) => (.error "Order not found", s1)
  | (.ok (some orderData), s1) =>
    match updateDoc .orders orderId
        [("paymentMethod", .str paymentMethod),
         ("paymentProof", .str paymentProof),
         ("paymentProofURL", .str paymentProofURL),
         ("paymentStatus", .str "waiting_verification"),
         ("adminMessage",
            .str "Bukti pembayaran telah dikirim. Menunggu verifikasi dari admin."),
         ("updatedAt", .serverTimestamp)] s1 with
    | (.error e, s2) => (.error e, s2)
    | (.ok _, s2) =>
      (.ok (), (createPaymentTransaction cl
        (proofPaymentData orderId paymentMethod paymentProof orderData) s2).2)

/-- The function `updateTrackingInfo(orderId, trackingNumber, estimatedDelivery)`. -/
def updateTrackingInfo (orderId trackingNumber : String) (estimatedDelivery : Val)
    (s : Store) : Except String Unit × Store :=
  let updateData : Doc :=
    [("trackingNumber", .str trackingNumber), ("status", .str "shipped"),
     ("updatedAt", .serverTimestamp)]
  let updateData1 :=
    if estimatedDelivery.truthy then updateData.set "estimatedDelivery" estimatedDelivery
    else updateData
  match updateDoc .orders orderId updateData1 s with
  | (.error e, s1) => (.error e, s1)
  | (.ok _, s1) =>
    let logged := createOrderStatusLog orderId "shipped"
      ("Order shipped with tracking number: " ++ trackingNumber) "admin" s1
    (.ok (), logged.2)

/-! ## `app/lib/orders.js`: batch update and search -/

/-- Modelled from the spec: `batchUpdate(collection, [{id, partialDocument}])`,
the calls `writeBatch(db)`, `batch.update(...)` and `batch.commit()`: one round
trip; it fails with `NotFound` when a listed id is absent, and then writes
nothing. -/
def batchUpdate (c : CollName) (writes : List (String × Doc)) (s : Store) :
    Except String Unit × Store :=
  if s.reachable then
    if writes.all (fun w => ((s.coll c).find? w.1).isSome) then
      (.ok (),
        (s.setColl c (writes.foldl
          (fun docs w => docs.modify w.1 (fun d => Doc.spread d (resolveWrite s.clock w.2)))
          (s.coll c))).tick)
    else (.error errNotFound, s.tick)
  else (.error errUnavailable, s.tick)

/-- The function `createOrderStatusLog` called with a status that need not be
a string, as `batchUpdateOrders` does. -/
def createOrderStatusLogOf (orderId : String) (status : Val) (message actionBy : String)
    (s : Store) : Except String Unit × Store :=
  let logData : Doc :=
    [("orderId", .str orderId), ("status", status), ("message", .str message),
     ("actionBy", .str actionBy), ("timestamp", .serverTimestamp)]
  match addDoc .orderStatusLogs logData s with
  | (.ok _, s1) => (.ok (), s1)
  | (.error e, s1) => (.error e, s1)

/-- The log writes of `batchUpdateOrders`, one per listed id, in list order;
their results are not looked at. -/
def batchLogs (status : Val) : List String → Store → Store
  | [], s => s
  | orderId :: rest, s =>
    batchLogs status rest
      (createOrderStatusLogOf orderId status "Batch update by admin" "admin" s).2

/-- The function `batchUpdateOrders(orderIds, updateData)`. -/
def batchUpdateOrders (orderIds : List String) (updateData : Doc) (s : Store) :
    Except String Unit × Store :=
  match batchUpdate .orders
      (orderIds.map (fun orderId =>
        (orderId, Doc.spread updateData [("updatedAt", .serverTimestamp)]))) s with
  | (.error e, s1) => (.error e, s1)
  | (.ok _, s1) =>
    (.ok (), batchLogs (Val.or (updateData.get "status") (.str "batch_updated")) orderIds s1)

/-- The sort key of `orderBy(field, 'desc')`: the server time of a timestamp. -/
def sortKey (field : String) (d : Doc) : Nat :=
  match d.get field with
  | .timestamp t => t
  | _ => 0

/-- Modelled from the spec: `query(collection, filters, orderBy)`, the call
`getDocs(query(collection(db, c), where(...), orderBy(field, 'desc')))`: the
documents that pass the filter, latest first. -/
def getDocsOrdered (c : CollName) (keep : Doc → Bool) (field : String) (s : Store) :
    Except String (List (String × Doc)) × Store :=
  match getDocs c keep s with
  | (.error e, s1) => (.error e, s1)
  | (.ok found, s1) =>
    (.ok (found.insertionSort (fun a b => sortKey field b.2 ≤ sortKey field a.2)), s1)

/-- The expression `text.includes(part)`. -/
def includes (text part : String) : Bool := decide (part.data <:+: text.data)

/-- The expression `field?.toLowerCase().includes(searchTerm.toLowerCase())`:
`undefined` for a missing field, an exception for a field that is neither
missing nor a string. `toLowerCase` is the JavaScript builtin, a parameter. -/
def fieldIncludes (toLowerCase : String → String) (field : Val) (searchTerm : String) :
    Except String Bool :=
  match field with
  | .undefined => .ok false
  | .null => .ok false
  | .str text => .ok (includes (toLowerCase text) (toLowerCase searchTerm))
  | _ => .error "toLowerCase is not a function"

/-- The condition of the search loop: the three tests joined by `||`, from
left to right, stopping at the first that holds. -/
def orderMatches (toLowerCase : String → String) (orderData : Doc) (searchTerm : String) :
    Except String Bool :=
  match fieldIncludes toLowerCase (orderData.get "orderNumber") searchTerm with
  | .error e => .error e
  | .ok true => .ok true
  | .ok false =>
    match fieldIncludes toLowerCase (orderData.get "resellerName") searchTerm with
    | .error e => .error e
    | .ok true => .ok true
    | .ok false => fieldIncludes toLowerCase (orderData.get "resellerEmail") searchTerm

/-- The search loop of `searchOrders` over the fetched documents: a match is
pushed as `{ id: doc.id, ...orderData }`; an exception ends the search. -/
def searchLoop (toLowerCase : String → String) (searchTerm : String) :
    List (String × Doc) → Except String (List Doc)
  | [] => .ok []
  | (id, orderData) :: rest =>
    match orderMatches toLowerCase orderData searchTerm with
    | .error e => .error e
    | .ok hit =>
      match searchLoop toLowerCase searchTerm rest with
      | .error e => .error e
      | .ok found =>
        .ok (if hit then Doc.spread [("id", .str id)] orderData :: found else found)

/-- The filter `where('resellerId', '==', resellerId)`, applied only for a
truthy `resellerId`. -/
def resellerFilter (resellerId : Option String) : Doc → Bool :=
  match resellerId with
  | some r => if r != "" then fun o => (o.get "resellerId").isStr r else fun _ => true
  | none => fun _ => true

/-- The function `searchOrders(searchTerm, resellerId)`. -/
def searchOrders (toLowerCase : String → String) (searchTerm : String)
    (resellerId : Option String) (s : Store) : Except String (List Doc) × Store :=
  match getDocsOrdered .orders (resellerFilter resellerId) "createdAt" s with
  | (.error e, s1) => (.error e, s1)
  | (.ok fetched, s1) => (searchLoop toLowerCase searchTerm fetched, s1)

/-! ## `app/lib/shipments.js`: status and deletion -/

/-- The object `updateData` of `updateShipmentStatus`. -/
def shipmentUpdateData (status notes : String) : Doc :=
  let updateData : Doc :=
    [("status", .str status), ("adminNotes", .str notes), ("updatedAt", .serverTimestamp)]
  if status == "delivered" then updateData.set "actualDelivery" .serverTimestamp
  else updateData

/-- The function `updateShipmentStatus(shipmentId, status, notes)`. -/
def updateShipmentStatus (shipmentId status notes : String) (s : Store) :
    Except String Unit × Store :=
  match updateDoc .shipments shipmentId (shipmentUpdateData status notes) s with
  | (.error e, s1) => (.error e, s1)
  | (.ok _, s1) => (.ok (), s1)

/-- The function `deleteShipment(shipmentId)`. -/
def deleteShipment (shipmentId : String) (s : Store) : Except String Unit × Store :=
  match deleteDoc .shipments shipmentId s with
  | (.error e, s1) => (.error e, s1)
  | (.ok _, s1) => (.ok (), s1)

/-! ## The calls into the three service modules -/

/-- A call of one of the functions of `orders.js`, `payments.js` and
`shipments.js`. The functions that only read (`getAllOrders`,
`getOrderStatistics`, `searchOrders`, `getPaymentStats`, `getShipmentStats`
and the other getters) make one query each and are the call `read`. -/
inductive Call where
  | createOrder (userId : String) (orderData : Doc)
  | updateOrderStatus (orderId status adminMessage : String) (additionalData : Doc)
  | createOrderStatusLog (orderId status message actionBy : String)
  | updatePaymentStatus (orderId paymentStatus : String) (orderStatus : Option String)
      (adminMessage : String) (paymentDetails : Option Doc)
  | updatePaymentProof (orderId paymentMethod paymentProof paymentProofURL : String)
  | confirmOrderReceived (orderId resellerId confirmationMessage : String)
  | updateTrackingInfo (orderId trackingNumber : String) (estimatedDelivery : Val)
  | deleteOrder (orderId : String)
  | batchUpdateOrders (orderIds : List String) (updateData : Doc)
  | createPaymentTransaction (paymentData : Doc)
  | paymentsUpdatePaymentStatus (paymentId status adminNotes : String)
  | retryPayment (paymentId : String)
  | createShipmentFromOrder (orderData shippingData : Doc)
  | updateShipmentStatus (shipmentId status notes : String)
  | deleteShipment (shipmentId : String)
  | read (c : CollName)

/-- Whether a call returned `{ success: true, ... }`. -/
def succeeded {α : Type} (r : Except String α × Store) : Bool :=
  match r.1 with
  | .ok _ => true
  | .error _ => false

/-- The outcome of a call: whether it succeeded, and the store after it. -/
def Call.run (cl : Client) : Call → Store → Bool × Store
  | .createOrder userId orderData, s =>
    (succeeded (Projekuas.createOrder cl userId orderData s),
      (Projekuas.createOrder cl userId orderData s).2)
  | .updateOrderStatus orderId status adminMessage additionalData, s =>
    (succeeded (Projekuas.updateOrderStatus cl orderId status adminMessage additionalData s),
      (Projekuas.updateOrderStatus cl orderId status adminMessage additionalData s).2)
  | .createOrderStatusLog orderId status message actionBy, s =>
    (succeeded (Projekuas.createOrderStatusLog orderId status message actionBy s),
      (Projekuas.createOrderStatusLog orderId status message actionBy s).2)
  | .updatePaymentStatus orderId paymentStatus orderStatus adminMessage paymentDetails, s =>
    (succeeded (Projekuas.updatePaymentStatus cl orderId paymentStatus orderStatus adminMessage
        paymentDetails s),
      (Projekuas.updatePaymentStatus cl orderId paymentStatus orderStatus adminMessage
        paymentDetails s).2)
  | .updatePaymentProof orderId paymentMethod paymentProof paymentProofURL, s =>
    (succeeded (Projekuas.updatePaymentProof cl orderId paymentMethod paymentProof
        paymentProofURL s),
      (Projekuas.updatePaymentProof cl orderId paymentMethod paymentProof paymentProofURL s).2)
  | .confirmOrderReceived orderId resellerId confirmationMessage, s =>
    (succeeded (Projekuas.confirmOrderReceived orderId resellerId confirmationMessage s),
      (Projekuas.confirmOrderReceived orderId resellerId confirmationMessage s).2)
  | .updateTrackingInfo orderId trackingNumber estimatedDelivery, s =>
    (succeeded (Projekuas.updateTrackingInfo orderId trackingNumber estimatedDelivery s),
      (Projekuas.updateTrackingInfo orderId trackingNumber estimatedDelivery s).2)
  | .deleteOrder orderId, s =>
    (succeeded (Projekuas.deleteOrder orderId s), (Projekuas.deleteOrder orderId s).2)
  | .batchUpdateOrders orderIds updateData, s =>
    (succeeded (Projekuas.batchUpdateOrders orderIds updateData s),
      (Projekuas.batchUpdateOrders orderIds updateData s).2)
  | .createPaymentTransaction paymentData, s =>
    (succeeded (Projekuas.createPaymentTransaction cl paymentData s),
      (Projekuas.createPaymentTransaction cl paymentData s).2)
  | .paymentsUpdatePaymentStatus paymentId status adminNotes, s =>
    (succeeded (Payments.updatePaymentStatus paymentId status adminNotes s),
      (Payments.updatePaymentStatus paymentId status adminNotes s).2)
  | .retryPayment paymentId, s =>
    (succeeded (Projekuas.retryPayment paymentId s), (Projekuas.retryPayment paymentId s).2)
  | .createShipmentFromOrder orderData shippingData, s =>
    (succeeded (Projekuas.createShipmentFromOrder cl orderData shippingData s),
      (Projekuas.createShipmentFromOrder cl orderData shippingData s).2)
  | .updateShipmentStatus shipmentId status notes, s =>
    (succeeded (Projekuas.updateShipmentStatus shipmentId status notes s),
      (Projekuas.updateShipmentStatus shipmentId status notes s).2)
  | .deleteShipment shipmentId, s =>
    (succeeded (Projekuas.deleteShipment shipmentId s), (Projekuas.deleteShipment shipmentId s).2)
  | .read c, s => (succeeded (getDocs c (fun _ => true) s), (getDocs c (fun _ => true) s).2)

/-- The order whose status log a call is to extend: the calls that log the
order they mutate. -/
def Call.loggedOrder : Call → Option String
  | .updateOrderStatus orderId _ _ _ => some orderId
  | .confirmOrderReceived orderId _ _ => some orderId
  | .updateTrackingInfo orderId _ _ => some orderId
  | .deleteOrder orderId => some orderId
  | _ => none

/-- The calls that write an order without touching its status and without
writing a status log entry. -/
def Call.unlogged : Call → Bool
  | .createOrder _ _ => true
  | .updatePaymentProof _ _ _ _ => true
  | _ => false

/-- Whether a value is the unresolved `serverTimestamp()` sentinel. -/
def Val.isSentinel : Val → Bool
  | .serverTimestamp => true
  | _ => false

/-- A document as the store returns it: no field holds the unresolved
`serverTimestamp()` sentinel, which every write replaces by the server time. -/
def Doc.isStored (d : Doc) : Bool := d.all (fun kv => !kv.2.isSentinel)

/-! ## `app/lib/shipments.js`: statistics -/

/-- The function `parseFloat(v)`: the value is read through its string form. -/
def parseFloat (v : Val) : JSNum := parseFloatText v.toJSString

/-- The term `parseFloat(s.cost) || 0` of the cost sum. -/
def costTerm (shipment : Doc) : JSNum := (parseFloat (shipment.get "cost")).orZero

/-- The `stats` object of `getShipmentStats`. -/
structure ShipmentStats where
  total : Nat
  totalShipments : Nat
  preparing : Nat
  inTransit : Nat
  delivered : Nat
  returned : Nat
  cancelled : Nat
  pending : Nat
  processed : Nat
  shipped : Nat
  totalCost : JSNum
  deriving Repr

/-- The aggregation of `getShipmentStats` over the scanned shipments. -/
def shipmentStatistics (shipments : List Doc) : ShipmentStats :=
  { total := shipments.length
    totalShipments := shipments.length
    preparing := countWhere shipments "status" "preparing"
    inTransit := countWhere shipments "status" "in_transit"
    delivered := countWhere shipments "status" "delivered"
    returned := countWhere shipments "status" "returned"
    cancelled := countWhere shipments "status" "cancelled"
    pending := countWhere shipments "status" "pending"
    processed := countWhere shipments "status" "processed"
    shipped := countWhere shipments "status" "shipped"
    totalCost := shipments.foldl (fun sum shipment => sum.add (costTerm shipment)) (.fin 0) }

/-- The function `getShipmentStats()`. -/
def getShipmentStats (s : Store) : Except String ShipmentStats × Store :=
  match getDocs .shipments (fun _ => true) s with
  | (.error e, s1) => (.error e, s1)
  | (.ok found, s1) => (.ok (shipmentStatistics (found.map (fun e => e.2))), s1)

/-! ## `app/middleware.js`: rate limiting -/

/-- The module-level `rateLimitStore`: a `Map` from a key to the times of its
accepted requests. -/
abbrev RateLimitStore := List (String × List Nat)

/-- The lookup `rateLimitStore.get(ip)`, if the key is present. -/
def RateLimitStore.get? : RateLimitStore → String → Option (List Nat)
  | [], _ => none
  | (k, v) :: rest, ip => if k = ip then some v else RateLimitStore.get? rest ip

/-- The call `rateLimitStore.set(ip, times)`. -/
def RateLimitStore.set : RateLimitStore → String → List Nat → RateLimitStore
  | [], ip, times => [(ip, times)]
  | (k, v) :: rest, ip, times =>
    if k = ip then (k, times) :: rest else (k, v) :: RateLimitStore.set rest ip times

/-- The times stored for a key; none for a key that is absent. -/
def RateLimitStore.times (store : RateLimitStore) (ip : String) : List Nat :=
  (store.get? ip).getD []

/-- The function `rateLimit(ip, limit, windowMs)`, called when `Date.now()` is
`now`: the result and the store after the call. -/
def rateLimit (ip : String) (limit windowMs : Nat) (now : Nat) (store : RateLimitStore) :
    Bool × RateLimitStore :=
  let windowStart : Int := (now : Int) - (windowMs : Int)
  let store1 := if (store.get? ip).isSome then store else store.set ip []
  let requests :=
    (store1.times ip).filter (fun (time : Nat) => decide (windowStart < (time : Int)))
  if requests.length ≥ limit then (false, store1)
  else (true, store1.set ip (requests ++ [now]))

/-- The run of a sequence of calls, each an `ip` with the clock value of the
call, on the store: every call paired with the result `rateLimit` gave it. -/
def rateLimitRun (limit windowMs : Nat) :
    List (String × Nat) → RateLimitStore → List ((String × Nat) × Bool)
  | [], _ => []
  | call :: rest, store =>
    (call, (rateLimit call.1 limit windowMs call.2 store).1) ::
      rateLimitRun limit windowMs rest (rateLimit call.1 limit windowMs call.2 store).2

/-- The clock values of the calls for `ip` that returned `true` in a run. -/
def acceptedTimes (ip : String) (run : List ((String × Nat) × Bool)) : List Nat :=
  (run.filter (fun r => r.2 && decide (r.1.1 = ip))).map (fun r => r.1.2)

/-- The number of the times that lie in the window of `windowMs` milliseconds
starting at `start`. -/
def windowCount (times : List Nat) (start windowMs : Nat) : Nat :=
  (times.filter (fun t => decide (start ≤ t ∧ t < start + windowMs))).length

/-! ## `app/admin/products/page.js` and `app/reseller/catalog/page.js` -/

/-- The argument of `getExpiryStatus`: no date (a falsy `expiryDate`), a date
that `new Date(expiryDate)` reads as an instant in milliseconds, or a text it
cannot read (`Invalid Date`). -/
inductive ExpiryDate where
  | none
  | instant (ms : Int)
  | invalid
  deriving DecidableEq, Repr

/-- The result object of `getExpiryStatus`. -/
structure ExpiryStatus where
  status : String
  text : String
  className : String
  deriving DecidableEq, Repr

/-- The expression `Math.ceil(diffTime / (1000 * 60 * 60 * 24))` on an integer
number of milliseconds, in exact arithmetic. -/
def ceilDays (diffTime : Int) : Int := -((-diffTime) / 86400000)

/-- The function `getExpiryStatus(expiryDate)`, called when `new Date()` is the
instant `today`. -/
def getExpiryStatus (expiryDate : ExpiryDate) (today : Int) : ExpiryStatus :=
  match expiryDate with
  | .none => { status := "no-expiry", text := "Tidak ada", className := "text-muted" }
  | .invalid => { status := "fresh", text := "NaN hari lagi", className := "text-success" }
  | .instant expiry =>
    let diffDays := ceilDays (expiry - today)
    if diffDays < 0 then
      { status := "expired", text := "Kadaluarsa", className := "text-danger" }
    else if diffDays ≤ 30 then
      { status := "expiring-soon", text := toString diffDays ++ " hari lagi",
        className := "text-warning" }
    else
      { status := "fresh", text := toString diffDays ++ " hari lagi",
        className := "text-success" }

/-- The status `handleSaveProduct` stores for a stock, `none` being `NaN`:
`stock === 0 ? 'out_of_stock' : stock < 50 ? 'low_stock' : 'available'`. -/
def savedStatus (stock : Option Int) : String :=
  match stock with
  | some n => if n = 0 then "out_of_stock" else if n < 50 then "low_stock" else "available"
  | none => "available"

/-- The status the reseller catalog derives from the stored stock, `none`
being `NaN`. -/
def catalogStatus (stock : Option Int) : String :=
  if stock = some 0 then "out_of_stock"
  else
    match stock with
    | some n => if n < 50 then "low_stock" else "available"
    | none => "available"

/-- The function `Math.round`, in exact arithmetic: the nearest integer,
halves upwards. -/
def jsRound (x : ℚ) : Int := ⌊x + 1 / 2⌋

/-- The catalog's `retailPrice = Math.round(data.price * 1.4)`. -/
def retailPrice (price : Int) : Int := jsRound ((price : ℚ) * (14 / 10))

/-- The catalog's `commission = retailPrice - data.price`. -/
def commission (price : Int) : Int := retailPrice price - price

/-- The catalog's `commissionPercentage = Math.round((commission / data.price) * 100)`,
for a price other than `0`. -/
def commissionPercentage (price : Int) : Int :=
  jsRound (((commission price : ℚ) / (price : ℚ)) * 100)

/-! ## Reference definitions for the statistics -/

/-- The amount a field contributes to a sum: its number, `0` when it is missing. -/
def amountValue : Val → Int
  | .num n => n
  | _ => 0

/-- A field that holds a non-negative integer or is missing. -/
def naturalOrMissing (v : Val) : Prop := (∃ n : Nat, v = .num (n : Int)) ∨ v = .undefined

/-- The sum of a field over exactly the orders with `paymentStatus` `paid`. -/
def paidSum (orders : List Doc) (field : String) : Int :=
  ((orders.filter (fun o => (o.get "paymentStatus").isStr "paid")).map
    (fun o => amountValue (o.get field))).sum

/-- Whether an order belongs to the scan or search for `resellerId`: every
order when no reseller, or an empty one, is given; otherwise the orders whose
`resellerId` field is that text. -/
def ofReseller (resellerId : Option String) (o : Doc) : Bool :=
  match resellerId with
  | none => true
  | some r =>
    r == "" ||
      (match o.get "resellerId" with
       | .str owner => owner == r
       | _ => false)

/-- The orders of the store that a scan for `resellerId` covers, in the order
of the store. -/
def scannedOrders (resellerId : Option String) (orders : Coll) : List Doc :=
  (orders.filter (fun e => ofReseller resellerId e.2)).map (fun e => e.2)

/-- The orders a search for `resellerId` fetches: the orders in scope, the
latest `createdAt` first. -/
def fetchedOrders (resellerId : Option String) (orders : Coll) : List (String × Doc) :=
  (orders.filter (fun e => ofReseller resellerId e.2)).insertionSort
    (fun a b => sortKey "createdAt" b.2 ≤ sortKey "createdAt" a.2)

/-- A transaction that counts toward revenue: status `success`, type `payment`. -/
def successfulPayment (p : Doc) : Bool :=
  (p.get "status").isStr "success" && (p.get "type").isStr "payment"

/-- The sum of `amount` over exactly the successful payments. -/
def successSum (payments : List Doc) : Nat :=
  ((payments.filter successfulPayment).map (fun p => (amountValue (p.get "amount")).toNat)).sum

/-- A field that holds a text or is missing. -/
def textOrMissing (v : Val) : Prop := (∃ text, v = .str text) ∨ v = .undefined ∨ v = .null

/-- Whether the lower-cased term is a substring of a lower-cased text field. -/
def fieldHit (toLowerCase : String → String) (searchTerm : String) (v : Val) : Bool :=
  match v with
  | .str text => includes (toLowerCase text) (toLowerCase searchTerm)
  | _ => false

/-- Whether the lower-cased term is a substring of the lower-cased
`orderNumber`, `resellerName` or `resellerEmail` of an order. -/
def searchHit (toLowerCase : String → String) (searchTerm : String) (o : Doc) : Bool :=
  fieldHit toLowerCase searchTerm (o.get "orderNumber") ||
  fieldHit toLowerCase searchTerm (o.get "resellerName") ||
  fieldHit toLowerCase searchTerm (o.get "resellerEmail")

/-- Lower-casing of ASCII text, for examples. -/
def lowerAscii (text : String) : String := String.mk (text.data.map Char.toLower)

/-- The stock status in the words of the specification: `out_of_stock` for no
stock, `low_stock` below fifty, `available` from fifty on. -/
def stockStatusOf (n : Int) : String :=
  if n = 0 then "out_of_stock"
  else if n < 50 ∧ n ≠ 0 then "low_stock"
  else "available"

/-- A text of decimal digits only, at least one. -/
def isDigitText (text : String) : Bool := !text.data.isEmpty && text.data.all Char.isDigit

/-- A text that does not begin like a number: it is empty, or its first
character is neither white space, a sign, a digit, a point nor the letter `I`. -/
def nonNumericText (text : String) : Bool :=
  match text.data with
  | [] => true
  | c :: _ => !(isStrWhiteSpace c || c == '-' || c == '+' || c.isDigit || c == '.' || c == 'I')

/-- A cost that is a non-negative integer, a text of decimal digits, or a
value that is no number: missing, `null`, a boolean, `NaN`, an object, or a
text that does not begin like a number. -/
def plainCost : Val → Bool
  | .num n => decide (0 ≤ n)
  | .undefined => true
  | .null => true
  | .bool _ => true
  | .nan => true
  | .obj _ => true
  | .str text => isDigitText text || nonNumericText text
  | _ => false

/-- The amount of a cost: the integer, the number a text of digits writes, and
`0` for a value that is no number. -/
def costValue : Val → Nat
  | .num n => n.toNat
  | .str text => if isDigitText text then digitsValue text else 0
  | _ => 0

/-- The sum of the `cost` field over all shipments. -/
def costSum (shipments : List Doc) : Nat :=
  (shipments.map (fun shipment => costValue (shipment.get "cost"))).sum

/-- The log entries the specification describes for a batch update: one per
listed id, in list order, written at consecutive server times from `clock`. -/
def batchLogEntries (status : Val) : Nat → List String → List (String × Doc)
  | _, [] => []
  | clock, orderId :: rest =>
    ("auto" ++ toString clock,
      [("orderId", .str orderId), ("status", status),
       ("message", .str "Batch update by admin"), ("actionBy", .str "admin"),
       ("timestamp", .timestamp clock)]) :: batchLogEntries status (clock + 1) rest

/-- The stored times of a key that still count at the clock value `now`:
those later than `now - windowMs`. -/
def recentRequests (store : RateLimitStore) (ip : String) (windowMs now : Nat) : List Nat :=
  (store.times ip).filter
    (fun (time : Nat) => decide ((now : Int) - (windowMs : Int) < (time : Int)))

/-- The run of `n` calls `updatePaymentStatus(orderId, 'paid', orderStatus,
adminMessage, paymentDetails)` in a row: whether every call returned success,
and the store after the last. -/
def paidTimes (cl : Client) (orderId : String) (orderStatus : Option String)
    (adminMessage : String) (paymentDetails : Doc) : Nat → Store → Bool × Store
  | 0, s => (true, s)
  | n + 1, s =>
    (succeeded (updatePaymentStatus cl orderId "paid" orderStatus adminMessage
        (some paymentDetails) s) &&
      (paidTimes cl orderId orderStatus adminMessage paymentDetails n
        (updatePaymentStatus cl orderId "paid" orderStatus adminMessage
          (some paymentDetails) s).2).1,
     (paidTimes cl orderId orderStatus adminMessage paymentDetails n
        (updatePaymentStatus cl orderId "paid" orderStatus adminMessage
          (some paymentDetails) s).2).2)

/-! ## Sample data -/

/-- A browser state: the clock reads 1700000123456 ms in 2025. -/
def sampleClient : Client := ⟨1700000123456, 2025, "0.k3j9x2p"⟩

/-- A store with the single order `ORD1` of reseller `r1`, in a given status. -/
def sampleStore (status : String) : Store :=
  ⟨[("ORD1", [("orderNumber", .str "ORD123ABC"), ("resellerId", .str "r1"),
      ("status", .str status), ("paymentStatus", .str "paid"), ("totalAmount", .num 100)])],
    [], [], [], 0, []⟩

/-- The status stored for an order, if the order exists. -/
def Store.orderStatus (s : Store) (orderId : String) : Option Val :=
  (s.orders.find? orderId).map (fun o => o.get "status")

/-- Two calls of `confirmOrderReceived` in a row, for the same order and reseller. -/
def confirmTwice (orderId resellerId first second : String) (s : Store) :
    Except String Unit × Store :=
  confirmOrderReceived orderId resellerId second
    (confirmOrderReceived orderId resellerId first s).2

/-! ## Basic facts about values, documents and collections -/

theorem Val.isStr_eq_true_iff (v : Val) (text : String) :
    v.isStr text = true ↔ v = .str text := by
  cases v <;> simp [Val.isStr]

theorem Val.isStr_eq_false_iff (v : Val) (text : String) :
    v.isStr text = false ↔ v ≠ .str text := by
  cases v <;> simp [Val.isStr]

theorem Coll.find?_erase_self (c : Coll) (id : String) : (c.erase id).find? id = none := by
  induction c with
  | nil => rfl
  | cons e rest ih =>
    obtain ⟨k, d⟩ := e
    by_cases hk : k = id
    · simpa [Coll.erase, List.filter_cons, hk] using ih
    · simpa [Coll.erase, List.filter_cons, hk, Coll.find?] using ih

theorem Coll.find?_erase_ne (c : Coll) (id other : String) (h : other ≠ id) :
    (c.erase id).find? other = c.find? other := by
  induction c with
  | nil => rfl
  | cons e rest ih =>
    obtain ⟨k, d⟩ := e
    by_cases hk : k = id
    · subst hk
      have hko : ¬ k = other := fun hko => h hko.symm
      simpa [Coll.erase, List.filter_cons, Coll.find?, hko] using ih
    · by_cases hko : k = other
      · subst hko
        simp [Coll.erase, List.filter_cons, hk, Coll.find?]
      · simpa [Coll.erase, List.filter_cons, hk, Coll.find?, hko] using ih

theorem Store.reachable_of_reliable (s : Store) (h : s.reliable) : s.reachable = true := by
  unfold Store.reliable at h
  simp [Store.reachable, h]

@[simp] theorem Store.tick_orders (s : Store) : s.tick.orders = s.orders := rfl
@[simp] theorem Store.tick_payments (s : Store) : s.tick.payments = s.payments := rfl
@[simp] theorem Store.tick_shipments (s : Store) : s.tick.shipments = s.shipments := rfl
@[simp] theorem Store.tick_orderStatusLogs (s : Store) :
    s.tick.orderStatusLogs = s.orderStatusLogs := rfl
@[simp] theorem Store.tick_clock (s : Store) : s.tick.clock = s.clock + 1 := rfl
@[simp] theorem Store.tick_failing (s : Store) : s.tick.failing = s.failing := rfl
@[simp] theorem Store.tick_coll (s : Store) (c : CollName) : s.tick.coll c = s.coll c := by
  cases c <;> rfl
@[simp] theorem Store.setColl_coll (s : Store) (c : CollName) (docs : Coll) :
    (s.setColl c docs).coll c = docs := by
  cases c <;> rfl
@[simp] theorem Store.setColl_clock (s : Store) (c : CollName) (docs : Coll) :
    (s.setColl c docs).clock = s.clock := by
  cases c <;> rfl
@[simp] theorem Store.setColl_failing (s : Store) (c : CollName) (docs : Coll) :
    (s.setColl c docs).failing = s.failing := by
  cases c <;> rfl
@[simp] theorem Store.coll_orders (s : Store) : s.coll .orders = s.orders := rfl
@[simp] theorem Store.coll_shipments (s : Store) : s.coll .shipments = s.shipments := rfl
@[simp] theorem Store.coll_payments (s : Store) : s.coll .payments = s.payments := rfl
@[simp] theorem Store.coll_orderStatusLogs (s : Store) :
    s.coll .orderStatusLogs = s.orderStatusLogs := rfl
@[simp] theorem Store.setColl_orders_orders (s : Store) (docs : Coll) :
    (s.setColl .orders docs).orders = docs := rfl
@[simp] theorem Store.setColl_orders_payments (s : Store) (docs : Coll) :
    (s.setColl .orders docs).payments = s.payments := rfl
@[simp] theorem Store.setColl_orders_shipments (s : Store) (docs : Coll) :
    (s.setColl .orders docs).shipments = s.shipments := rfl
@[simp] theorem Store.setColl_orders_logs (s : Store) (docs : Coll) :
    (s.setColl .orders docs).orderStatusLogs = s.orderStatusLogs := rfl
@[simp] theorem Store.setColl_shipments_orders (s : Store) (docs : Coll) :
    (s.setColl .shipments docs).orders = s.orders := rfl
@[simp] theorem Store.setColl_shipments_payments (s : Store) (docs : Coll) :
    (s.setColl .shipments docs).payments = s.payments := rfl
@[simp] theorem Store.setColl_shipments_shipments (s : Store) (docs : Coll) :
    (s.setColl .shipments docs).shipments = docs := rfl
@[simp] theorem Store.setColl_shipments_logs (s : Store) (docs : Coll) :
    (s.setColl .shipments docs).orderStatusLogs = s.orderStatusLogs := rfl
@[simp] theorem Store.setColl_logs_orders (s : Store) (docs : Coll) :
    (s.setColl .orderStatusLogs docs).orders = s.orders := rfl
@[simp] theorem Store.setColl_logs_payments (s : Store) (docs : Coll) :
    (s.setColl .orderStatusLogs docs).payments = s.payments := rfl
@[simp] theorem Store.setColl_logs_shipments (s : Store) (docs : Coll) :
    (s.setColl .orderStatusLogs docs).shipments = s.shipments := rfl
@[simp] theorem Store.setColl_logs_logs (s : Store) (docs : Coll) :
    (s.setColl .orderStatusLogs docs).orderStatusLogs = docs := rfl

@[simp] theorem Store.setColl_payments_orders (s : Store) (docs : Coll) :
    (s.setColl .payments docs).orders = s.orders := rfl
@[simp] theorem Store.setColl_payments_payments (s : Store) (docs : Coll) :
    (s.setColl .payments docs).payments = docs := rfl
@[simp] theorem Store.setColl_payments_shipments (s : Store) (docs : Coll) :
    (s.setColl .payments docs).shipments = s.shipments := rfl
@[simp] theorem Store.setColl_payments_logs (s : Store) (docs : Coll) :
    (s.setColl .payments docs).orderStatusLogs = s.orderStatusLogs := rfl

theorem Store.reachable_tick_of_reliable (s : Store) (h : s.reliable) :
    s.tick.reachable = true := by
  unfold Store.reliable at h
  simp [Store.reachable, h]

theorem Store.tick_reliable (s : Store) (h : s.reliable) : s.tick.reliable := h

theorem Store.setColl_reliable (s : Store) (c : CollName) (docs : Coll) (h : s.reliable) :
    (s.setColl c docs).reliable := by
  cases c <;> exact h

theorem getDoc_of_reachable (s : Store) (h : s.reachable = true) (c : CollName) (id : String) :
    getDoc c id s = (.ok ((s.coll c).find? id), s.tick) := by
  simp [getDoc, h]

theorem getDoc_of_unreachable (s : Store) (h : s.reachable = false) (c : CollName)
    (id : String) : getDoc c id s = (.error errUnavailable, s.tick) := by
  simp [getDoc, h]

theorem deleteDoc_of_reachable (s : Store) (h : s.reachable = true) (c : CollName)
    (id : String) : deleteDoc c id s = (.ok (), (s.setColl c ((s.coll c).erase id)).tick) := by
  simp [deleteDoc, h]

theorem deleteDoc_of_unreachable (s : Store) (h : s.reachable = false) (c : CollName)
    (id : String) : deleteDoc c id s = (.error errUnavailable, s.tick) := by
  simp [deleteDoc, h]

theorem addDoc_of_reachable (s : Store) (h : s.reachable = true) (c : CollName)
    (document : Doc) :
    addDoc c document s =
      (.ok ("auto" ++ toString s.clock),
        (s.setColl c (s.coll c ++
          [("auto" ++ toString s.clock, resolveWrite s.clock document)])).tick) := by
  simp [addDoc, h]

theorem addDoc_of_unreachable (s : Store) (h : s.reachable = false) (c : CollName)
    (document : Doc) : addDoc c document s = (.error errUnavailable, s.tick) := by
  simp [addDoc, h]

theorem updateDoc_of_reachable (s : Store) (h : s.reachable = true) (c : CollName)
    (id : String) (fields d : Doc) (hfind : (s.coll c).find? id = some d) :
    updateDoc c id fields s =
      (.ok (), (s.setColl c ((s.coll c).modify id
        (fun d => Doc.spread d (resolveWrite s.clock fields)))).tick) := by
  simp [updateDoc, h, hfind]

theorem updateDoc_of_missing (s : Store) (h : s.reachable = true) (c : CollName)
    (id : String) (fields : Doc) (hfind : (s.coll c).find? id = none) :
    updateDoc c id fields s = (.error errNotFound, s.tick) := by
  simp [updateDoc, h, hfind]

theorem updateDoc_of_unreachable (s : Store) (h : s.reachable = false) (c : CollName)
    (id : String) (fields : Doc) : updateDoc c id fields s = (.error errUnavailable, s.tick) := by
  simp [updateDoc, h]

/-- The status log never touches the orders, payments or shipments. -/
theorem createOrderStatusLog_frame (orderId status message actionBy : String) (s : Store) :
    (createOrderStatusLog orderId status message actionBy s).2.orders = s.orders ∧
    (createOrderStatusLog orderId status message actionBy s).2.payments = s.payments ∧
    (createOrderStatusLog orderId status message actionBy s).2.shipments = s.shipments := by
  cases hr : s.reachable <;>
    simp [createOrderStatusLog, addDoc, hr, Store.tick, Store.setColl]

/-- The status log entry written when the store is reached. -/
theorem createOrderStatusLog_of_reachable (orderId status message actionBy : String)
    (s : Store) (h : s.reachable = true) :
    (createOrderStatusLog orderId status message actionBy s).2.orderStatusLogs =
      s.orderStatusLogs ++ [("auto" ++ toString s.clock,
        [("orderId", .str orderId), ("status", .str status), ("message", .str message),
         ("actionBy", .str actionBy), ("timestamp", .timestamp s.clock)])] := by
  simp [createOrderStatusLog, addDoc, h, Store.tick, Store.setColl, Store.coll, resolveWrite,
    Val.isUndefined, Val.resolve]

/-- A scan that meets no successful payment keeps the revenue and the success
counter and counts every transaction. -/
theorem tallyFrom_no_success (payments : List Doc)
    (hnone : ∀ p ∈ payments,
      ((p.get "status").isStr "success" && (p.get "type").isStr "payment") = false)
    (acc : PaymentTally) :
    ∃ t, tallyFrom acc payments = .ok t ∧ t.totalRevenue = acc.totalRevenue ∧
      t.successfulTransactions = acc.successfulTransactions ∧
      t.totalTransactions = acc.totalTransactions + payments.length := by
  induction payments generalizing acc with
  | nil => exact ⟨acc, rfl, rfl, rfl, rfl⟩
  | cons p rest ih =>
    have hp := hnone p (List.mem_cons_self _ _)
    have hrest : ∀ q ∈ rest,
        ((q.get "status").isStr "success" && (q.get "type").isStr "payment") = false :=
      fun q hq => hnone q (List.mem_cons_of_mem _ hq)
    obtain ⟨acc1, hstep, h1, h2, h3⟩ : ∃ acc1, tallyStep acc p = .ok acc1 ∧
        acc1.totalRevenue = acc.totalRevenue ∧
        acc1.successfulTransactions = acc.successfulTransactions ∧
        acc1.totalTransactions = acc.totalTransactions + 1 := by
      unfold tallyStep
      rw [hp]
      by_cases hf : (p.get "status").isStr "failed" = true
      · simp only [hf, if_true, Bool.false_eq_true, if_false]
        exact ⟨_, rfl, rfl, rfl, rfl⟩
      · by_cases hq : (p.get "status").isStr "processing" = true
        · simp only [hf, hq, if_true, Bool.false_eq_true, if_false]
          exact ⟨_, rfl, rfl, rfl, rfl⟩
        · simp only [hf, hq, Bool.false_eq_true, if_false]
          exact ⟨_, rfl, rfl, rfl, rfl⟩
    obtain ⟨t, ht, g1, g2, g3⟩ := ih hrest acc1
    refine ⟨t, ?_, g1.trans h1, g2.trans h2, ?_⟩
    · simp [tallyFrom, hstep, ht]
    · rw [g3, h3, List.length_cons]; omega

/-- No successful transaction among some gives a success rate of `0.0`. -/
theorem percentFixed1_zero (total : Nat) : percentFixed1 0 total = "0.0" := by
  have h : roundRatio 0 total = .finite 0 0 := by
    unfold roundRatio
    rw [if_pos rfl]
  unfold percentFixed1
  rw [h]
  decide

/-- The success rate is the text of the double: 23 successful transactions of
80 give the double just below 28.75, which reads `28.7`. -/
theorem percentFixed1_rounds_double : percentFixed1 23 80 = "28.7" := by
  decide

/-! ### Reading documents after assignments, spreads and writes -/

theorem Doc.find?_eq_none_of_not_mem (d : Doc) (key : String) (h : key ∉ d.keys) :
    d.find? key = none := by
  induction d with
  | nil => rfl
  | cons e rest ih =>
    obtain ⟨k, v⟩ := e
    have hk : ¬ k = key := fun hk => h (by simp [Doc.keys, hk])
    have hrest : key ∉ Doc.keys rest := fun hm => h (by
      simp only [Doc.keys, List.map_cons, List.mem_cons]
      exact Or.inr hm)
    simp [Doc.find?, hk, ih hrest]

theorem Doc.find?_of_get (d : Doc) (key : String) (v : Val) (h : d.get key = v)
    (hv : v ≠ .undefined) : d.find? key = some v := by
  unfold Doc.get at h
  cases hf : d.find? key with
  | none => rw [hf] at h; exact absurd h.symm hv
  | some w => rw [hf] at h; exact congrArg some h

theorem Doc.find?_set (d : Doc) (key other : String) (v : Val) :
    (d.set key v).find? other = if other = key then some v else d.find? other := by
  induction d with
  | nil =>
    by_cases h : other = key
    · simp [Doc.set, Doc.find?, h]
    · have h1 : ¬ key = other := fun e => h e.symm
      simp [Doc.set, Doc.find?, h, h1]
  | cons e rest ih =>
    obtain ⟨k, w⟩ := e
    by_cases hk : k = key
    · subst hk
      by_cases h : other = k
      · simp [Doc.set, Doc.find?, h]
      · have h1 : ¬ k = other := fun e => h e.symm
        simp [Doc.set, Doc.find?, h, h1]
    · by_cases h : other = key
      · subst h
        simp [Doc.set, Doc.find?, hk, ih]
      · by_cases hko : k = other
        · simp [Doc.set, Doc.find?, hk, hko, h]
        · simp [Doc.set, Doc.find?, hk, hko, h, ih]

theorem Doc.get_set (d : Doc) (key other : String) (v : Val) :
    (d.set key v).get other = if other = key then v else d.get other := by
  unfold Doc.get
  rw [Doc.find?_set]
  split <;> rfl

theorem Doc.keys_set (d : Doc) (key : String) (v : Val) :
    (d.set key v).keys = if key ∈ d.keys then d.keys else d.keys ++ [key] := by
  induction d with
  | nil => simp [Doc.set, Doc.keys]
  | cons e rest ih =>
    obtain ⟨k, w⟩ := e
    by_cases hk : k = key
    · subst hk
      simp [Doc.set, Doc.keys]
    · have hk1 : ¬ key = k := fun e => hk e.symm
      have ih1 : List.map Prod.fst (Doc.set rest key v) =
          if key ∈ List.map Prod.fst rest then List.map Prod.fst rest
          else List.map Prod.fst rest ++ [key] := ih
      by_cases hm : key ∈ List.map Prod.fst rest
      · simp only [Doc.set, Doc.keys, hk, if_false, List.map_cons, ih1, hm, if_true,
          List.mem_cons, or_true]
      · simp only [Doc.set, Doc.keys, hk, if_false, List.map_cons, ih1, hm, List.mem_cons,
          hk1, or_self, List.cons_append]

theorem Doc.keys_set_nodup (d : Doc) (key : String) (v : Val) (h : d.keys.Nodup) :
    (d.set key v).keys.Nodup := by
  rw [Doc.keys_set]
  split
  · exact h
  · rename_i hm
    exact List.Nodup.append h (List.nodup_singleton key)
      (by
        intro a ha hb
        rw [List.mem_singleton] at hb
        exact hm (hb ▸ ha))

theorem Doc.keys_spread_nodup (extra base : Doc) (h : base.keys.Nodup) :
    (Doc.spread base extra).keys.Nodup := by
  induction extra generalizing base with
  | nil => exact h
  | cons e rest ih => exact ih _ (Doc.keys_set_nodup base e.1 e.2 h)

theorem Doc.get_spread_of_absent (extra base : Doc) (key : String)
    (h : extra.find? key = none) : (Doc.spread base extra).get key = base.get key := by
  induction extra generalizing base with
  | nil => rfl
  | cons e rest ih =>
    obtain ⟨k, w⟩ := e
    by_cases hk : k = key
    · simp [Doc.find?, hk] at h
    · have hrest : Doc.find? rest key = none := by simpa [Doc.find?, hk] using h
      have hk1 : ¬ key = k := fun e => hk e.symm
      have step : Doc.spread base ((k, w) :: rest) = Doc.spread (base.set k w) rest := rfl
      rw [step, ih _ hrest, Doc.get_set, if_neg hk1]

theorem Doc.get_spread_of_present (extra base : Doc) (key : String) (v : Val)
    (hnodup : extra.keys.Nodup) (h : extra.find? key = some v) :
    (Doc.spread base extra).get key = v := by
  induction extra generalizing base with
  | nil => simp [Doc.find?] at h
  | cons e rest ih =>
    obtain ⟨k, w⟩ := e
    have hnd : k ∉ Doc.keys rest ∧ (Doc.keys rest).Nodup := by
      simpa [Doc.keys] using hnodup
    have step : Doc.spread base ((k, w) :: rest) = Doc.spread (base.set k w) rest := rfl
    by_cases hk : k = key
    · subst hk
      have hv : w = v := by simpa [Doc.find?] using h
      rw [step, Doc.get_spread_of_absent rest _ k
        (Doc.find?_eq_none_of_not_mem rest k hnd.1), Doc.get_set, if_pos rfl, hv]
    · have hrest : Doc.find? rest key = some v := by simpa [Doc.find?, hk] using h
      rw [step, ih _ hnd.2 hrest]

theorem resolveWrite_keys_nodup (t : Nat) (d : Doc) (h : d.keys.Nodup) :
    (resolveWrite t d).keys.Nodup := by
  have hk : (resolveWrite t d).keys = (d.filter (fun kv => !kv.2.isUndefined)).map Prod.fst := by
    simp [resolveWrite, Doc.keys, List.map_map, Function.comp_def]
  rw [hk]
  exact List.Nodup.sublist (List.Sublist.map _ (List.filter_sublist _)) h

theorem Val.resolve_undefined (t : Nat) : Val.resolve t .undefined = .undefined := rfl

theorem resolveWrite_get (t : Nat) (d : Doc) (h : d.keys.Nodup) (key : String) :
    (resolveWrite t d).get key = (d.get key).resolve t := by
  induction d with
  | nil => rfl
  | cons e rest ih =>
    obtain ⟨k, w⟩ := e
    have hnd : k ∉ Doc.keys rest ∧ (Doc.keys rest).Nodup := by
      simpa [Doc.keys] using h
    have ih1 := ih hnd.2
    by_cases hk : k = key
    · subst hk
      cases hw : w.isUndefined
      · simp [resolveWrite, List.filter_cons, hw, Doc.get, Doc.find?]
      · have hwu : w = .undefined := by
          cases w <;> simp [Val.isUndefined] at hw
          rfl
        have hnone : (resolveWrite t rest).find? k = none :=
          Doc.find?_eq_none_of_not_mem _ _ (fun hm => hnd.1 (by
            have hsub : (resolveWrite t rest).keys.Sublist (Doc.keys rest) := by
              have hk : (resolveWrite t rest).keys
                  = (rest.filter (fun kv => !kv.2.isUndefined)).map Prod.fst := by
                simp [resolveWrite, Doc.keys, List.map_map, Function.comp_def]
              rw [hk]
              exact List.Sublist.map _ (List.filter_sublist _)
            exact hsub.subset hm))
        have hstep : resolveWrite t ((k, w) :: rest) = resolveWrite t rest := by
          simp [resolveWrite, List.filter_cons, hw]
        rw [hstep]
        simp [Doc.get, hnone, Doc.find?, hwu, Val.resolve]
    · cases hw : w.isUndefined
      · have hstep : resolveWrite t ((k, w) :: rest)
            = (k, w.resolve t) :: resolveWrite t rest := by
          simp [resolveWrite, List.filter_cons, hw]
        rw [hstep]
        simpa [Doc.get, Doc.find?, hk] using ih1
      · have hstep : resolveWrite t ((k, w) :: rest) = resolveWrite t rest := by
          simp [resolveWrite, List.filter_cons, hw]
        rw [hstep]
        simpa [Doc.get, Doc.find?, hk] using ih1

theorem Coll.find?_modify_self (c : Coll) (id : String) (f : Doc → Doc) :
    (c.modify id f).find? id = (c.find? id).map f := by
  induction c with
  | nil => rfl
  | cons e rest ih =>
    obtain ⟨k, d⟩ := e
    by_cases hk : k = id
    · simp [Coll.modify, Coll.find?, hk]
    · simp [Coll.modify, Coll.find?, hk, ih]

theorem Coll.find?_modify_ne (c : Coll) (id other : String) (f : Doc → Doc)
    (h : other ≠ id) : (c.modify id f).find? other = c.find? other := by
  induction c with
  | nil => rfl
  | cons e rest ih =>
    obtain ⟨k, d⟩ := e
    by_cases hk : k = id
    · subst hk
      have hko : ¬ k = other := fun e => h e.symm
      simp [Coll.modify, Coll.find?, hko]
    · by_cases hko : k = other
      · subst hko
        simp [Coll.modify, Coll.find?, hk]
      · simp [Coll.modify, Coll.find?, hk, hko, ih]

/-! ### The write of `confirmOrderReceived` -/

/-- The fields `confirmOrderReceived` stores at server time `t`. -/
theorem confirm_resolveWrite (t : Nat) (message : String) :
    resolveWrite t
      [("status", .str "completed"),
       ("resellerConfirmation", .bool true),
       ("actualDelivery", .serverTimestamp),
       ("adminMessage", Val.or (.str message)
          (.str "Pesanan telah dikonfirmasi diterima oleh reseller")),
       ("updatedAt", .serverTimestamp)] =
      [("status", .str "completed"),
       ("resellerConfirmation", .bool true),
       ("actualDelivery", .timestamp t),
       ("adminMessage", Val.or (.str message)
          (.str "Pesanan telah dikonfirmasi diterima oleh reseller")),
       ("updatedAt", .timestamp t)] := by
  by_cases hm : message = ""
  · simp [resolveWrite, Val.or, Val.truthy, hm, Val.isUndefined, Val.resolve]
  · simp [resolveWrite, Val.or, Val.truthy, hm, Val.isUndefined, Val.resolve]

/-- The run of `confirmOrderReceived` by the owner when the store calls succeed. -/
theorem confirmOrderReceived_run (s : Store) (orderId resellerId message : String) (o : Doc)
    (hfind : s.orders.find? orderId = some o)
    (howner : o.get "resellerId" = .str resellerId) (hrel : s.reliable) :
    confirmOrderReceived orderId resellerId message s =
      (.ok (), (createOrderStatusLog orderId "completed"
        "Order confirmed as received by reseller" ("reseller_" ++ resellerId)
        (s.tick.setColl .orders (s.orders.modify orderId (fun d => Doc.spread d
          [("status", .str "completed"),
           ("resellerConfirmation", .bool true),
           ("actualDelivery", .timestamp (s.clock + 1)),
           ("adminMessage", Val.or (.str message)
              (.str "Pesanan telah dikonfirmasi diterima oleh reseller")),
           ("updatedAt", .timestamp (s.clock + 1))]))).tick).2) := by
  have hr := s.reachable_of_reliable hrel
  have hr1 := s.reachable_tick_of_reliable hrel
  have hyes : (o.get "resellerId").isStr resellerId = true :=
    (Val.isStr_eq_true_iff _ _).mpr howner
  have hfind1 : (s.tick.coll .orders).find? orderId = some o := by simpa using hfind
  simp [confirmOrderReceived, getDoc_of_reachable s hr, hfind, hyes,
    updateDoc_of_reachable s.tick hr1 .orders orderId _ o hfind1, confirm_resolveWrite]

/-! ### The steps of `updateOrderStatus` -/

theorem createOrderStatusLog_clock (orderId status message actionBy : String) (s : Store) :
    (createOrderStatusLog orderId status message actionBy s).2.clock = s.clock + 1 ∧
    (createOrderStatusLog orderId status message actionBy s).2.failing = s.failing := by
  cases hr : s.reachable <;> simp [createOrderStatusLog, addDoc, hr]

/-- What a write stores under a field that the written object defines. -/
theorem Doc.get_spread_resolveWrite (o fields : Doc) (t : Nat) (key : String) (v : Val)
    (hnodup : fields.keys.Nodup) (hget : fields.get key = v)
    (hdef : v.resolve t ≠ .undefined) :
    (Doc.spread o (resolveWrite t fields)).get key = v.resolve t := by
  have h1 : (resolveWrite t fields).get key = v.resolve t := by
    rw [resolveWrite_get t fields hnodup, hget]
  exact Doc.get_spread_of_present _ o key _ (resolveWrite_keys_nodup t fields hnodup)
    (Doc.find?_of_get _ key _ h1 hdef)

theorem statusUpdateData_keys_nodup (status adminMessage : String) (additionalData : Doc) :
    (statusUpdateData status adminMessage additionalData).keys.Nodup := by
  have hbase : (Doc.spread
      [("status", .str status), ("adminMessage", .str adminMessage),
       ("updatedAt", .serverTimestamp)] additionalData).keys.Nodup :=
    Doc.keys_spread_nodup _ _ (by simp [Doc.keys])
  unfold statusUpdateData
  split
  · exact Doc.keys_set_nodup _ _ _ (Doc.keys_set_nodup _ _ _ (Doc.keys_set_nodup _ _ _ hbase))
  · exact hbase

theorem statusUpdateData_status (status adminMessage : String) (additionalData : Doc)
    (hnone : additionalData.find? "status" = none) :
    (statusUpdateData status adminMessage additionalData).get "status" = .str status := by
  have hbase : (Doc.spread
      [("status", .str status), ("adminMessage", .str adminMessage),
       ("updatedAt", .serverTimestamp)] additionalData).get "status" = .str status := by
    rw [Doc.get_spread_of_absent _ _ _ hnone]
    simp [Doc.get, Doc.find?]
  unfold statusUpdateData
  split
  · simp [Doc.get_set, hbase]
  · exact hbase

/-- The run of the write-and-log step on an existing order when the store
calls succeed. -/
theorem writeAndLog_run (s : Store) (orderId status adminMessage : String)
    (updateData o : Doc) (hfind : s.orders.find? orderId = some o) (hrel : s.reliable) :
    writeAndLog orderId status adminMessage updateData s =
      (.ok (), (createOrderStatusLog orderId status adminMessage "system"
        (s.setColl .orders (s.orders.modify orderId
          (fun d => Doc.spread d (resolveWrite s.clock updateData)))).tick).2) := by
  have hr := s.reachable_of_reliable hrel
  have hfind1 : (s.coll .orders).find? orderId = some o := by simpa using hfind
  simp [writeAndLog, updateDoc_of_reachable s hr .orders orderId _ o hfind1]

/-- The effect of the write-and-log step on an existing order when the store
calls succeed. -/
theorem writeAndLog_effect (s : Store) (orderId status adminMessage : String)
    (updateData o : Doc) (hfind : s.orders.find? orderId = some o) (hrel : s.reliable) :
    (writeAndLog orderId status adminMessage updateData s).1 = .ok () ∧
    (writeAndLog orderId status adminMessage updateData s).2.orders.find? orderId =
      some (Doc.spread o (resolveWrite s.clock updateData)) ∧
    (writeAndLog orderId status adminMessage updateData s).2.shipments = s.shipments ∧
    (writeAndLog orderId status adminMessage updateData s).2.orderStatusLogs =
      s.orderStatusLogs ++ [("auto" ++ toString (s.clock + 1),
        [("orderId", .str orderId), ("status", .str status), ("message", .str adminMessage),
         ("actionBy", .str "system"), ("timestamp", .timestamp (s.clock + 1))])] := by
  rw [writeAndLog_run s orderId status adminMessage updateData o hfind hrel]
  have hr2 : ((s.setColl .orders (s.orders.modify orderId
      (fun d => Doc.spread d (resolveWrite s.clock updateData)))).tick).reachable = true :=
    Store.reachable_of_reliable _ (Store.tick_reliable _ (Store.setColl_reliable _ _ _ hrel))
  refine ⟨rfl, ?_, ?_, ?_⟩
  · rw [(createOrderStatusLog_frame _ _ _ _ _).1]
    simp [Coll.find?_modify_self, hfind]
  · rw [(createOrderStatusLog_frame _ _ _ _ _).2.2]
    simp
  · simp [createOrderStatusLog_of_reachable _ _ _ _ _ hr2]

/-- Creating a shipment never touches the orders or the status logs and keeps
the store reliable. -/
theorem createShipmentFromOrder_frame (cl : Client) (orderData shippingData : Doc) (s : Store) :
    (createShipmentFromOrder cl orderData shippingData s).2.orders = s.orders ∧
    (createShipmentFromOrder cl orderData shippingData s).2.orderStatusLogs
      = s.orderStatusLogs ∧
    (createShipmentFromOrder cl orderData shippingData s).2.failing = s.failing := by
  unfold createShipmentFromOrder
  cases hr : s.reachable <;>
    cases ht : ((shipmentOf cl orderData shippingData).get "orderId").truthy <;>
      simp [ht, addDoc, hr]

/-- A write whose object carries a status text stores that text. -/
theorem status_after_write (o fields : Doc) (t : Nat) (status : String)
    (hnodup : fields.keys.Nodup) (hget : fields.get "status" = .str status) :
    (Doc.spread o (resolveWrite t fields)).get "status" = .str status := by
  have h := Doc.get_spread_resolveWrite o fields t "status" (.str status) hnodup hget
    (by simp [Val.resolve])
  simpa [Val.resolve] using h

/-- The store after a confirmation by the owner whose store calls succeed. -/
theorem confirmOrderReceived_state (s : Store) (orderId resellerId message : String) (o : Doc)
    (hfind : s.orders.find? orderId = some o)
    (howner : o.get "resellerId" = .str resellerId) (hrel : s.reliable) :
    (confirmOrderReceived orderId resellerId message s).1 = .ok () ∧
    (confirmOrderReceived orderId resellerId message s).2.reliable ∧
    (confirmOrderReceived orderId resellerId message s).2.clock = s.clock + 3 ∧
    (confirmOrderReceived orderId resellerId message s).2.orders.find? orderId =
      some (Doc.spread o
        [("status", .str "completed"),
         ("resellerConfirmation", .bool true),
         ("actualDelivery", .timestamp (s.clock + 1)),
         ("adminMessage", Val.or (.str message)
            (.str "Pesanan telah dikonfirmasi diterima oleh reseller")),
         ("updatedAt", .timestamp (s.clock + 1))]) ∧
    (confirmOrderReceived orderId resellerId message s).2.orderStatusLogs =
      s.orderStatusLogs ++ [("auto" ++ toString (s.clock + 2),
        [("orderId", .str orderId), ("status", .str "completed"),
         ("message", .str "Order confirmed as received by reseller"),
         ("actionBy", .str ("reseller_" ++ resellerId)),
         ("timestamp", .timestamp (s.clock + 2))])] := by
  rw [confirmOrderReceived_run s orderId resellerId message o hfind howner hrel]
  have hrel2 : ((s.tick.setColl .orders (s.orders.modify orderId (fun d => Doc.spread d
      [("status", .str "completed"),
       ("resellerConfirmation", .bool true),
       ("actualDelivery", .timestamp (s.clock + 1)),
       ("adminMessage", Val.or (.str message)
          (.str "Pesanan telah dikonfirmasi diterima oleh reseller")),
       ("updatedAt", .timestamp (s.clock + 1))]))).tick).reliable :=
    Store.tick_reliable _ (Store.setColl_reliable _ _ _ (Store.tick_reliable _ hrel))
  have hr2 := Store.reachable_of_reliable _ hrel2
  refine ⟨rfl, ?_, ?_, ?_, ?_⟩
  · exact (createOrderStatusLog_clock _ _ _ _ _).2.trans hrel2
  · rw [(createOrderStatusLog_clock _ _ _ _ _).1]
    simp
  · rw [(createOrderStatusLog_frame _ _ _ _ _).1]
    simp [Coll.find?_modify_self, hfind]
  · simp [createOrderStatusLog_of_reachable _ _ _ _ _ hr2]

/-! ### The shipment `updateOrderStatus` creates -/

theorem generateTrackingNumber_ne_empty (cl : Client) : generateTrackingNumber cl ≠ "" := by
  intro h
  have hlen := congrArg String.length h
  simp only [generateTrackingNumber, String.length_append] at hlen
  have h4 : "SHIP".length = 4 := by decide
  have h0 : "".length = 0 := by decide
  rw [h4, h0] at hlen
  omega

theorem shipmentOf_keys_nodup (cl : Client) (orderData shippingData : Doc) :
    (shipmentOf cl orderData shippingData).keys.Nodup := by
  have hk : (shipmentOf cl orderData shippingData).keys =
      ["shipmentNumber", "trackingNumber", "orderId", "orderNumber", "customerId",
       "customerName", "customerEmail", "customerPhone", "shippingAddress", "resellerId",
       "resellerName", "resellerEmail", "items", "totalWeight", "shippingMethod", "courier",
       "service", "cost", "estimatedDays", "notes", "status", "estimatedDelivery",
       "actualDelivery", "adminNotes", "createdAt", "updatedAt"] := rfl
  rw [hk]
  decide

/-- The run of `createShipmentFromOrder` when the order id resolves and the
store is reached. -/
theorem createShipmentFromOrder_run (cl : Client) (orderData shippingData : Doc) (s : Store)
    (hid : ((shipmentOf cl orderData shippingData).get "orderId").truthy = true)
    (hr : s.reachable = true) :
    createShipmentFromOrder cl orderData shippingData s =
      (.ok { shipmentId := "auto" ++ toString s.clock
             trackingNumber := (shipmentOf cl orderData shippingData).get "trackingNumber"
             shipmentNumber := "SHP" ++ sliceLast 6 (toString cl.nowMs) },
        (s.setColl .shipments (s.shipments ++
          [("auto" ++ toString s.clock,
            resolveWrite s.clock (shipmentOf cl orderData shippingData))])).tick) := by
  simp [createShipmentFromOrder, hid, addDoc_of_reachable s hr]

/-- The shipment assembled by `updateOrderStatus` carries the id of the order
and a generated tracking number. -/
theorem shipmentOf_order (cl : Client) (orderId : String) (o additionalData : Doc)
    (hid : orderId ≠ "") :
    (shipmentOf cl (shipmentOrderData orderId o additionalData)
      (shippingDataOf additionalData)).get "orderId" = .str orderId ∧
    (shipmentOf cl (shipmentOrderData orderId o additionalData)
      (shippingDataOf additionalData)).get "trackingNumber"
        = .str (generateTrackingNumber cl) ∧
    (shipmentOf cl (shipmentOrderData orderId o additionalData)
      (shippingDataOf additionalData)).get "status" = .str "preparing" ∧
    (shipmentOf cl (shipmentOrderData orderId o additionalData)
      (shippingDataOf additionalData)).get "actualDelivery" = .null := by
  refine ⟨?_, ?_, ?_, ?_⟩
  · simp [shipmentOf, shipmentOrderData, Doc.get, Doc.find?, Val.or, Val.truthy, hid]
  · simp [shipmentOf, shippingDataOf, Doc.get, Doc.find?, Val.or, Val.truthy]
  · simp [shipmentOf, Doc.get, Doc.find?]
  · simp [shipmentOf, Doc.get, Doc.find?]

/-! ### The merge of `createShipmentFromOrder` -/

theorem Val.or_eq_ite (a b : Val) : Val.or a b = if a.truthy = true then a else b := by
  unfold Val.or
  rfl

/-- The four merged fields of the shipment `createShipmentFromOrder` assembles. -/
theorem shipmentOf_merged (cl : Client) (orderData shippingData : Doc) :
    (shipmentOf cl orderData shippingData).get "courier" =
      Val.or (Val.or (shippingData.get "courier") (orderData.get "courier")) (.str "JNE") ∧
    (shipmentOf cl orderData shippingData).get "service" =
      Val.or (shippingData.get "service") (.str "REG") ∧
    (shipmentOf cl orderData shippingData).get "cost" =
      Val.or (Val.or (shippingData.get "cost") (orderData.get "shippingCost")) (.num 0) ∧
    (shipmentOf cl orderData shippingData).get "notes" =
      Val.or (Val.or (shippingData.get "notes") (orderData.get "notes")) (.str "") := by
  refine ⟨?_, ?_, ?_, ?_⟩ <;> simp [shipmentOf, Doc.get, Doc.find?]

theorem shipmentOf_orderId (cl : Client) (orderData shippingData : Doc) :
    (shipmentOf cl orderData shippingData).get "orderId" =
      Val.or (Val.or (orderData.get "id") (orderData.get "_id")) (orderData.get "orderId") := by
  simp [shipmentOf, Doc.get, Doc.find?]

/-! ### Writes that leave a field alone -/

theorem Doc.find?_spread_of_absent (extra base : Doc) (key : String)
    (h : extra.find? key = none) : (Doc.spread base extra).find? key = base.find? key := by
  induction extra generalizing base with
  | nil => rfl
  | cons e rest ih =>
    obtain ⟨k, w⟩ := e
    by_cases hk : k = key
    · simp [Doc.find?, hk] at h
    · have hrest : Doc.find? rest key = none := by simpa [Doc.find?, hk] using h
      have hk1 : ¬ key = k := fun e => hk e.symm
      have step : Doc.spread base ((k, w) :: rest) = Doc.spread (base.set k w) rest := rfl
      rw [step, ih _ hrest, Doc.find?_set, if_neg hk1]

theorem resolveWrite_find?_of_absent (t : Nat) (d : Doc) (key : String)
    (h : d.find? key = none) : (resolveWrite t d).find? key = none := by
  induction d with
  | nil => rfl
  | cons e rest ih =>
    obtain ⟨k, w⟩ := e
    by_cases hk : k = key
    · simp [Doc.find?, hk] at h
    · have hrest : Doc.find? rest key = none := by simpa [Doc.find?, hk] using h
      cases hw : w.isUndefined
      · have hstep : resolveWrite t ((k, w) :: rest)
            = (k, w.resolve t) :: resolveWrite t rest := by
          simp [resolveWrite, List.filter_cons, hw]
        rw [hstep]
        simpa [Doc.find?, hk] using ih hrest
      · have hstep : resolveWrite t ((k, w) :: rest) = resolveWrite t rest := by
          simp [resolveWrite, List.filter_cons, hw]
        rw [hstep]
        exact ih hrest

/-- A write leaves alone every field that the written object does not name. -/
theorem Doc.get_spread_resolveWrite_of_absent (o fields : Doc) (t : Nat) (key : String)
    (h : fields.find? key = none) :
    (Doc.spread o (resolveWrite t fields)).get key = o.get key :=
  Doc.get_spread_of_absent _ o key (resolveWrite_find?_of_absent t fields key h)

/-- The write-and-log step on an existing order when its two store calls reach
the store. -/
theorem writeAndLog_of_reachable (s : Store) (orderId status adminMessage : String)
    (updateData o : Doc) (hfind : s.orders.find? orderId = some o)
    (hr : s.reachable = true) (hr1 : s.tick.reachable = true) :
    (writeAndLog orderId status adminMessage updateData s).1 = .ok () ∧
    (writeAndLog orderId status adminMessage updateData s).2.orders.find? orderId =
      some (Doc.spread o (resolveWrite s.clock updateData)) ∧
    (writeAndLog orderId status adminMessage updateData s).2.shipments = s.shipments ∧
    (writeAndLog orderId status adminMessage updateData s).2.payments = s.payments ∧
    (writeAndLog orderId status adminMessage updateData s).2.orderStatusLogs =
      s.orderStatusLogs ++ [("auto" ++ toString (s.clock + 1),
        [("orderId", .str orderId), ("status", .str status), ("message", .str adminMessage),
         ("actionBy", .str "system"), ("timestamp", .timestamp (s.clock + 1))])] := by
  have hfind1 : (s.coll .orders).find? orderId = some o := by simpa using hfind
  have hrun : writeAndLog orderId status adminMessage updateData s =
      (.ok (), (createOrderStatusLog orderId status adminMessage "system"
        (s.setColl .orders (s.orders.modify orderId
          (fun d => Doc.spread d (resolveWrite s.clock updateData)))).tick).2) := by
    simp [writeAndLog, updateDoc_of_reachable s hr .orders orderId _ o hfind1]
  have hr2 : ((s.setColl .orders (s.orders.modify orderId
      (fun d => Doc.spread d (resolveWrite s.clock updateData)))).tick).reachable = true := by
    simpa [Store.reachable] using hr1
  rw [hrun]
  refine ⟨rfl, ?_, ?_, ?_, ?_⟩
  · rw [(createOrderStatusLog_frame _ _ _ _ _).1]
    simp [Coll.find?_modify_self, hfind]
  · rw [(createOrderStatusLog_frame _ _ _ _ _).2.2]
    simp
  · rw [(createOrderStatusLog_frame _ _ _ _ _).2.1]
    simp
  · simp [createOrderStatusLog_of_reachable _ _ _ _ _ hr2]

theorem statusUpdateData_shipped (adminMessage : String) (additionalData : Doc) :
    statusUpdateData "shipped" adminMessage additionalData =
      Doc.spread [("status", .str "shipped"), ("adminMessage", .str adminMessage),
        ("updatedAt", .serverTimestamp)] additionalData := by
  simp [statusUpdateData]

/-! ### The status log of `updateOrderStatus` -/

/-- The write-and-log step on a missing order fails and logs nothing. -/
theorem writeAndLog_of_missing (s : Store) (orderId status adminMessage : String)
    (updateData : Doc) (hfind : s.orders.find? orderId = none) (hr : s.reachable = true) :
    (writeAndLog orderId status adminMessage updateData s).1 = .error errNotFound ∧
    (writeAndLog orderId status adminMessage updateData s).2.orderStatusLogs
      = s.orderStatusLogs := by
  have hfind1 : (s.coll .orders).find? orderId = none := by simpa using hfind
  simp [writeAndLog, updateDoc_of_missing s hr .orders orderId _ hfind1]

/-- The store on which `updateOrderStatus` runs its write-and-log step, when
the store calls succeed: the same orders and status logs, and still reliable. -/
theorem updateOrderStatus_reduces (cl : Client) (s : Store)
    (orderId status adminMessage : String) (additionalData : Doc) (hrel : s.reliable) :
    ∃ s1 fields, s1.orders = s.orders ∧ s1.orderStatusLogs = s.orderStatusLogs ∧
      s1.reliable ∧
      updateOrderStatus cl orderId status adminMessage additionalData s =
        writeAndLog orderId status adminMessage fields s1 := by
  unfold updateOrderStatus
  simp only []
  split
  · rw [getDoc_of_reachable s (s.reachable_of_reliable hrel)]
    cases hfind : s.orders.find? orderId with
    | none =>
      simp only [Store.coll_orders, hfind]
      exact ⟨s.tick, _, rfl, rfl, Store.tick_reliable s hrel, rfl⟩
    | some o =>
      simp only [Store.coll_orders, hfind]
      obtain ⟨hso, hsl, hsf⟩ := createShipmentFromOrder_frame cl
        (shipmentOrderData orderId o additionalData) (shippingDataOf additionalData) s.tick
      cases hcs : createShipmentFromOrder cl (shipmentOrderData orderId o additionalData)
        (shippingDataOf additionalData) s.tick with
      | mk res s2 =>
        rw [hcs] at hso hsl hsf
        have hs2o : s2.orders = s.orders := by simpa using hso
        have hs2l : s2.orderStatusLogs = s.orderStatusLogs := by simpa using hsl
        have hs2r : s2.reliable := by
          have : s2.failing = s.failing := by simpa using hsf
          exact this.trans hrel
        cases res with
        | error e => exact ⟨s2, _, hs2o, hs2l, hs2r, rfl⟩
        | ok shipmentResult => exact ⟨s2, _, hs2o, hs2l, hs2r, rfl⟩
  · exact ⟨s, _, rfl, rfl, hrel, rfl⟩

/-- The status log after `updateOrderStatus` when the store calls succeed: one
new entry for an existing order, a failure and no entry for a missing one. -/
theorem updateOrderStatus_log (cl : Client) (s : Store)
    (orderId status adminMessage : String) (additionalData : Doc) (hrel : s.reliable) :
    (s.orders.find? orderId ≠ none →
      (updateOrderStatus cl orderId status adminMessage additionalData s).1 = .ok () ∧
      ∃ t, (updateOrderStatus cl orderId status adminMessage additionalData s).2.orderStatusLogs =
        s.orderStatusLogs ++ [("auto" ++ toString t,
          [("orderId", .str orderId), ("status", .str status), ("message", .str adminMessage),
           ("actionBy", .str "system"), ("timestamp", .timestamp t)])]) ∧
    (s.orders.find? orderId = none →
      (updateOrderStatus cl orderId status adminMessage additionalData s).1
        = .error errNotFound) := by
  obtain ⟨s1, fields, ho, hl, hr1, hrun⟩ :=
    updateOrderStatus_reduces cl s orderId status adminMessage additionalData hrel
  rw [hrun]
  constructor
  · intro hsome
    cases hfind : s.orders.find? orderId with
    | none => exact absurd hfind hsome
    | some o =>
      have hfind1 : s1.orders.find? orderId = some o := by rw [ho]; exact hfind
      obtain ⟨w1, _, _, w4⟩ :=
        writeAndLog_effect s1 orderId status adminMessage fields o hfind1 hr1
      exact ⟨w1, s1.clock + 1, by rw [w4, hl]⟩
  · intro hfind
    have hfind1 : s1.orders.find? orderId = none := by rw [ho]; exact hfind
    exact (writeAndLog_of_missing s1 orderId status adminMessage fields hfind1
      (s1.reachable_of_reliable hr1)).1

/-! ### Payment transactions -/

theorem Doc.resolve_get_of_isStored (o : Doc) (h : o.isStored = true) (key : String)
    (t : Nat) : (o.get key).resolve t = o.get key := by
  induction o with
  | nil => rfl
  | cons e rest ih =>
    obtain ⟨k, v⟩ := e
    have hboth : (!v.isSentinel && Doc.isStored rest) = true := h
    have hall : v.isSentinel = false ∧ Doc.isStored rest = true := by
      cases hv : v.isSentinel <;> cases hrest : Doc.isStored rest <;> simp_all
    by_cases hk : k = key
    · have hget : Doc.get ((k, v) :: rest) key = v := by simp [Doc.get, Doc.find?, hk]
      rw [hget]
      have hv := hall.1
      cases v <;> simp_all [Val.resolve, Val.isSentinel]
    · have hget : Doc.get ((k, v) :: rest) key = Doc.get rest key := by
        simp [Doc.get, Doc.find?, hk]
      rw [hget]
      exact ih hall.2

theorem paymentOf_keys_nodup (cl : Client) (paymentData : Doc) :
    (paymentOf cl paymentData).keys.Nodup := by
  have hk : (paymentOf cl paymentData).keys =
      ["transactionId", "orderId", "orderNumber", "customer", "customerEmail", "resellerId",
       "amount", "method", "reference", "status", "type", "description", "adminNotes",
       "createdAt", "updatedAt"] := rfl
  rw [hk]
  decide

/-- The run of `createPaymentTransaction` when the insert reaches the store. -/
theorem createPaymentTransaction_run (cl : Client) (paymentData : Doc) (s : Store)
    (hr : s.reachable = true) :
    createPaymentTransaction cl paymentData s =
      (.ok { paymentId := "auto" ++ toString s.clock
             transactionNumber := generateTransactionNumber cl },
        (s.setColl .payments (s.payments ++
          [("auto" ++ toString s.clock, resolveWrite s.clock (paymentOf cl paymentData))])).tick)
    := by
  simp [createPaymentTransaction, addDoc_of_reachable s hr]

/-- The fields of a saved transaction that copy the payment data. -/
theorem paymentOf_stored (cl : Client) (paymentData : Doc) (t : Nat) (key : String)
    (hkey : key ∈ ["orderId", "orderNumber", "resellerId", "amount", "method", "reference"]) :
    (resolveWrite t (paymentOf cl paymentData)).get key = (paymentData.get key).resolve t := by
  rw [resolveWrite_get t _ (paymentOf_keys_nodup cl paymentData)]
  simp only [List.mem_cons, List.mem_singleton, List.not_mem_nil, or_false] at hkey
  rcases hkey with h | h | h | h | h | h <;> subst h <;> simp [paymentOf, Doc.get, Doc.find?]

/-- The status and type of a saved transaction. -/
theorem paymentOf_stored_status (cl : Client) (paymentData : Doc) (t : Nat) :
    (resolveWrite t (paymentOf cl paymentData)).get "status" =
      (Val.or (paymentData.get "status") (.str "processing")).resolve t ∧
    (resolveWrite t (paymentOf cl paymentData)).get "type" =
      (Val.or (paymentData.get "type") (.str "payment")).resolve t := by
  rw [resolveWrite_get t _ (paymentOf_keys_nodup cl paymentData),
    resolveWrite_get t _ (paymentOf_keys_nodup cl paymentData)]
  constructor <;> simp [paymentOf, Doc.get, Doc.find?]

/-- The run of `updatePaymentStatus` on an existing order when the store calls
succeed. -/
theorem updatePaymentStatus_run (cl : Client) (s : Store) (orderId paymentStatus : String)
    (orderStatus : Option String) (adminMessage : String) (paymentDetails : Option Doc)
    (o : Doc) (hfind : s.orders.find? orderId = some o) (hrel : s.reliable) :
    updatePaymentStatus cl orderId paymentStatus orderStatus adminMessage paymentDetails s =
      (.ok (),
        match paymentDetails with
        | some details =>
          if paymentStatus == "paid" then
            (createPaymentTransaction cl (verifiedPaymentData orderId o details)
              (s.tick.setColl .orders (s.orders.modify orderId (fun d => Doc.spread d
                (resolveWrite (s.clock + 1)
                  (paymentUpdateData paymentStatus orderStatus adminMessage))))).tick).2
          else
            (s.tick.setColl .orders (s.orders.modify orderId (fun d => Doc.spread d
              (resolveWrite (s.clock + 1)
                (paymentUpdateData paymentStatus orderStatus adminMessage))))).tick
        | none =>
          (s.tick.setColl .orders (s.orders.modify orderId (fun d => Doc.spread d
            (resolveWrite (s.clock + 1)
              (paymentUpdateData paymentStatus orderStatus adminMessage))))).tick) := by
  have hr := s.reachable_of_reliable hrel
  have hr1 := s.reachable_tick_of_reliable hrel
  have hfind1 : (s.tick.coll .orders).find? orderId = some o := by simpa using hfind
  cases paymentDetails with
  | none =>
    simp [updatePaymentStatus, getDoc_of_reachable s hr, hfind,
      updateDoc_of_reachable s.tick hr1 .orders orderId _ o hfind1]
  | some details =>
    by_cases hp : (paymentStatus == "paid") = true
    · simp [updatePaymentStatus, getDoc_of_reachable s hr, hfind,
        updateDoc_of_reachable s.tick hr1 .orders orderId _ o hfind1, hp]
    · simp [updatePaymentStatus, getDoc_of_reachable s hr, hfind,
        updateDoc_of_reachable s.tick hr1 .orders orderId _ o hfind1, hp]

/-- The run of `updatePaymentProof` on an existing order when the store calls
succeed. -/
theorem updatePaymentProof_run (cl : Client) (s : Store)
    (orderId paymentMethod paymentProof paymentProofURL : String)
    (o : Doc) (hfind : s.orders.find? orderId = some o) (hrel : s.reliable) :
    updatePaymentProof cl orderId paymentMethod paymentProof paymentProofURL s =
      (.ok (),
        ((s.tick.setColl .orders (s.orders.modify orderId (fun d => Doc.spread d
          [("paymentMethod", .str paymentMethod),
           ("paymentProof", .str paymentProof),
           ("paymentProofURL", .str paymentProofURL),
           ("paymentStatus", .str "waiting_verification"),
           ("adminMessage",
              .str "Bukti pembayaran telah dikirim. Menunggu verifikasi dari admin."),
           ("updatedAt", .timestamp (s.clock + 1))]))).tick.setColl .payments
          (s.payments ++ [("auto" ++ toString (s.clock + 2),
            resolveWrite (s.clock + 2) (paymentOf cl
              (proofPaymentData orderId paymentMethod paymentProof o)))])).tick) := by
  have hr := s.reachable_of_reliable hrel
  have hr1 := s.reachable_tick_of_reliable hrel
  have hfind1 : (s.tick.coll .orders).find? orderId = some o := by simpa using hfind
  have hr2 : ((s.tick.setColl .orders (s.orders.modify orderId (fun d => Doc.spread d
      [("paymentMethod", .str paymentMethod),
       ("paymentProof", .str paymentProof),
       ("paymentProofURL", .str paymentProofURL),
       ("paymentStatus", .str "waiting_verification"),
       ("adminMessage",
          .str "Bukti pembayaran telah dikirim. Menunggu verifikasi dari admin."),
       ("updatedAt", .timestamp (s.clock + 1))]))).tick).reachable = true :=
    Store.reachable_of_reliable _
      (Store.tick_reliable _ (Store.setColl_reliable _ _ _ (Store.tick_reliable _ hrel)))
  have hwrite : resolveWrite (s.clock + 1)
      [("paymentMethod", .str paymentMethod),
       ("paymentProof", .str paymentProof),
       ("paymentProofURL", .str paymentProofURL),
       ("paymentStatus", .str "waiting_verification"),
       ("adminMessage",
          .str "Bukti pembayaran telah dikirim. Menunggu verifikasi dari admin."),
       ("updatedAt", .serverTimestamp)] =
      [("paymentMethod", .str paymentMethod),
       ("paymentProof", .str paymentProof),
       ("paymentProofURL", .str paymentProofURL),
       ("paymentStatus", .str "waiting_verification"),
       ("adminMessage",
          .str "Bukti pembayaran telah dikirim. Menunggu verifikasi dari admin."),
       ("updatedAt", .timestamp (s.clock + 1))] := by
    simp [resolveWrite, Val.isUndefined, Val.resolve]
  simp only [updatePaymentProof, getDoc_of_reachable s hr, Store.coll_orders, hfind,
    updateDoc_of_reachable s.tick hr1 .orders orderId _ o hfind1, Store.tick_orders,
    Store.tick_clock, hwrite]
  rw [createPaymentTransaction_run cl _ _ hr2]
  simp

/-! ### The revenue of a non-negative integer amount -/

theorem digitChar_isDigit (d : Nat) (h : d < 10) : (Nat.digitChar d).isDigit = true := by
  interval_cases d <;> rfl

theorem digitChar_value (d : Nat) (h : d < 10) : (Nat.digitChar d).toNat - 48 = d := by
  interval_cases d <;> rfl

theorem toDigitsCore_isDigit (fuel : Nat) :
    ∀ (n : Nat) (ds : List Char), (∀ c ∈ ds, c.isDigit = true) →
      ∀ c ∈ Nat.toDigitsCore 10 fuel n ds, c.isDigit = true := by
  induction fuel with
  | zero => intro n ds hds c hc; exact hds c hc
  | succ fuel ih =>
    intro n ds hds c hc
    have hd : ∀ c ∈ Nat.digitChar (n % 10) :: ds, c.isDigit = true := by
      intro c hc
      rcases List.mem_cons.mp hc with h | h
      · rw [h]; exact digitChar_isDigit _ (Nat.mod_lt _ (by decide))
      · exact hds c h
    simp only [Nat.toDigitsCore] at hc
    split at hc
    · exact hd c hc
    · exact ih _ _ hd c hc

theorem toDigitsCore_value (fuel : Nat) :
    ∀ (n : Nat) (ds : List Char), n < fuel →
      (Nat.toDigitsCore 10 fuel n ds).foldl (fun m c => 10 * m + (c.toNat - 48)) 0 =
        ds.foldl (fun m c => 10 * m + (c.toNat - 48)) n := by
  induction fuel with
  | zero => intro n ds h; omega
  | succ fuel ih =>
    intro n ds h
    have hv := digitChar_value (n % 10) (Nat.mod_lt _ (by decide))
    simp only [Nat.toDigitsCore]
    split
    · rename_i hz
      have hn : n % 10 = n := Nat.mod_eq_of_lt (by omega)
      rw [hn] at hv
      simp only [List.foldl_cons, hn, hv, Nat.mul_zero, Nat.zero_add]
    · rename_i hz
      have hlt : n / 10 < fuel := by omega
      rw [ih _ _ hlt]
      simp only [List.foldl_cons, hv]
      have hsplit : 10 * (n / 10) + n % 10 = n := Nat.div_add_mod n 10
      rw [hsplit]

/-! ### Numbers and their texts -/
theorem JSNum.ofRatio_nat (n : Nat) (h : n ≤ 2 ^ 53) :
    JSNum.ofRatio false n 1 = .fin (n : ℚ) := by
  unfold JSNum.ofRatio
  rw [if_pos ⟨rfl, h⟩]
  simp [Rat.mkRat_eq_div]

theorem JSNum.ofRatio_int (n : Int) (h : n.natAbs ≤ 2 ^ 53) :
    JSNum.ofRatio (decide (n < 0)) n.natAbs 1 = .fin (n : ℚ) := by
  unfold JSNum.ofRatio
  rw [if_pos ⟨rfl, h⟩]
  by_cases hn : n < 0
  · have : ((n.natAbs : Int)) = -n := by omega
    simp [hn, Rat.mkRat_eq_div, this]
  · have : ((n.natAbs : Int)) = n := by omega
    simp [hn, Rat.mkRat_eq_div, this]

theorem roundDouble_int (n : Int) (h : n.natAbs ≤ 2 ^ 53) : roundDouble (n : ℚ) = .fin (n : ℚ) := by
  unfold roundDouble
  rw [Rat.num_intCast, Rat.den_intCast]
  exact JSNum.ofRatio_int n h

theorem JSNum.add_fin (a b : ℚ) : (JSNum.fin a).add (JSNum.fin b) = roundDouble (a + b) := by
  show roundDouble (mkRat (a.num * b.den + b.num * a.den) (a.den * b.den)) = roundDouble (a + b)
  rw [← Rat.add_def']

theorem JSNum.add_nat (a b : Nat) (h : a + b ≤ 2 ^ 53) :
    (JSNum.fin (a : ℚ)).add (JSNum.fin (b : ℚ)) = .fin ((a + b : Nat) : ℚ) := by
  rw [JSNum.add_fin]
  have h1 := roundDouble_int ((a + b : Nat) : Int) (by simpa using h)
  push_cast at h1 ⊢
  exact h1

theorem JSNum.orZero_nat (n : Nat) : (JSNum.fin (n : ℚ)).orZero = .fin (n : ℚ) := by
  unfold JSNum.orZero JSNum.truthy
  by_cases h : n = 0
  · subst h
    simp
  · simp [h]

theorem Char.isDigit_bounds (c : Char) (h : c.isDigit = true) : 48 ≤ c.toNat ∧ c.toNat ≤ 57 := by
  simp only [Char.isDigit, Bool.and_eq_true, decide_eq_true_eq] at h
  exact ⟨h.1, h.2⟩

theorem isStrWhiteSpace_of_isDigit (c : Char) (h : c.isDigit = true) :
    isStrWhiteSpace c = false := by
  have hb := Char.isDigit_bounds c h
  unfold isStrWhiteSpace
  simp only [List.contains_eq_any_beq, List.any_cons, List.any_nil, Bool.or_false,
    Bool.or_eq_false_iff, beq_eq_false_iff_ne, ne_eq]
  omega

theorem Char.ne_of_isDigit (c d : Char) (h : c.isDigit = true) (hd : d.isDigit = false) :
    c ≠ d := by
  intro e
  rw [e, hd] at h
  exact Bool.noConfusion h

/-- The text of decimal digits parses to the number they form, rounded to a
double. -/
theorem parseFloatText_digits (ds : List Char) (hne : ds ≠ [])
    (hd : ∀ c ∈ ds, c.isDigit = true) :
    parseFloatText (String.mk ds) = JSNum.ofRatio false (digitsNat ds) 1 := by
  cases ds with
  | nil => exact absurd rfl hne
  | cons c rest =>
    have hc := hd c (List.mem_cons_self _ _)
    have hws : (c :: rest).dropWhile isStrWhiteSpace = c :: rest := by
      rw [List.dropWhile_cons_of_neg]
      simp [isStrWhiteSpace_of_isDigit c hc]
    have hminus : c ≠ '-' := Char.ne_of_isDigit c '-' hc (by decide)
    have hplus : c ≠ '+' := Char.ne_of_isDigit c '+' hc (by decide)
    have hinf : "Infinity".data.isPrefixOf (c :: rest) = false := by
      have hI : c ≠ 'I' := Char.ne_of_isDigit c 'I' hc (by decide)
      have hI1 : ('I' == c) = false := by
        simp only [beq_eq_false_iff_ne, ne_eq]
        exact fun e => hI e.symm
      show (['I', 'n', 'f', 'i', 'n', 'i', 't', 'y'] : List Char).isPrefixOf (c :: rest) = false
      simp [List.isPrefixOf, hI1]
    have htake : (c :: rest).takeWhile Char.isDigit = c :: rest :=
      List.takeWhile_eq_self_iff.2 hd
    have hdrop : (c :: rest).dropWhile Char.isDigit = [] :=
      List.dropWhile_eq_nil_iff.2 hd
    unfold parseFloatText
    simp only [hws, List.head?_cons, Option.some.injEq, hminus, hplus, if_false]
    unfold parseUnsigned
    simp only [hinf, htake, hdrop, List.head?_nil, List.isEmpty_cons, Bool.false_and,
      List.append_nil, List.length_nil, parseExponent, shiftDecimal]
    simp

theorem digitsNat_toDigits (n : Nat) : digitsNat (Nat.toDigits 10 n) = n :=
  toDigitsCore_value (n + 1) n [] (Nat.lt_succ_self n)

theorem toDigits_isDigit (n : Nat) : ∀ c ∈ Nat.toDigits 10 n, c.isDigit = true :=
  toDigitsCore_isDigit _ _ _ (by simp)

theorem toDigits_ne_nil (n : Nat) : Nat.toDigits 10 n ≠ [] := by
  intro h
  have hv := digitsNat_toDigits n
  rw [h] at hv
  have hn : n = 0 := hv.symm
  subst hn
  exact absurd h (by decide)

/-- The decimal text of an integer up to `2 ^ 53` parses to that integer. -/
theorem parseFloatText_toString (n : Nat) (h : n ≤ 2 ^ 53) :
    parseFloatText (toString n) = .fin (n : ℚ) := by
  have hs : toString n = String.mk (Nat.toDigits 10 n) := rfl
  rw [hs, parseFloatText_digits _ (toDigits_ne_nil n) (toDigits_isDigit n),
    digitsNat_toDigits, JSNum.ofRatio_nat n h]

/-- The string form of a non-negative integer up to `2 ^ 53` is its decimal
text. -/
theorem Val.toJSString_nat (n : Nat) (h : n ≤ 2 ^ 53) :
    Val.toJSString (.num (n : Int)) = toString n := by
  show numberText (decide ((n : Int) < 0)) (n : Int).natAbs 1 = toString n
  have hneg : ¬ ((n : Int) < 0) := by omega
  have hle : (n : Int).natAbs ≤ 2 ^ 53 := by simpa using h
  unfold numberText
  rw [if_pos ⟨rfl, hle⟩]
  simp [hneg]

theorem keepDigits_toString (n : Nat) : keepDigits (toString n) = toString n := by
  have hs : toString n = String.mk (Nat.toDigits 10 n) := rfl
  have hkeep : (Nat.toDigits 10 n).filter Char.isDigit = Nat.toDigits 10 n :=
    List.filter_eq_self.mpr (toDigits_isDigit n)
  rw [hs]
  simp only [keepDigits, hkeep]

theorem digitsValue_toString (n : Nat) : digitsValue (toString n) = n :=
  digitsNat_toDigits n

/-- The digits of a text parse to the number they form, rounded to a double;
no digits give `0`. -/
theorem parseFloatText_keepDigits (text : String) :
    (parseFloatText (keepDigits text)).orZero
      = (JSNum.ofRatio false (digitsValue (keepDigits text)) 1).orZero := by
  have hd : ∀ c ∈ text.data.filter Char.isDigit, c.isDigit = true :=
    fun c hc => (List.mem_filter.1 hc).2
  cases hdata : text.data.filter Char.isDigit with
  | nil =>
    have hk : keepDigits text = "" := by simp [keepDigits, hdata]
    rw [hk]
    decide
  | cons c rest =>
    have hk : keepDigits text = String.mk (c :: rest) := by simp [keepDigits, hdata]
    rw [hk, parseFloatText_digits _ (List.cons_ne_nil c rest) (by rw [← hdata]; exact hd)]
    rfl

/-- The revenue contribution of an amount: the number formed by the digits of
its string form, rounded to a double. -/
theorem revenueOf_defined (v : Val) (hu : v ≠ .undefined) (hn : v ≠ .null) :
    revenueOf v = .ok (JSNum.ofRatio false (digitsValue (keepDigits v.toJSString)) 1).orZero := by
  have h : revenueOf v = .ok (parseFloatText (keepDigits v.toJSString)).orZero := by
    cases v with
    | undefined => exact absurd rfl hu
    | null => exact absurd rfl hn
    | bool b => rfl
    | num n => rfl
    | dec m k => rfl
    | nan => rfl
    | str text => rfl
    | serverTimestamp => rfl
    | timestamp t => rfl
    | arr items => rfl
    | obj fields => rfl
  rw [h, parseFloatText_keepDigits]

/-- The revenue contribution of a non-negative integer amount up to `2 ^ 53` is
the amount. -/
theorem revenueOf_nat (n : Nat) (h : n ≤ 2 ^ 53) :
    revenueOf (.num (n : Int)) = .ok (.fin (n : ℚ)) := by
  rw [revenueOf_defined _ (by simp) (by simp), Val.toJSString_nat n h, keepDigits_toString,
    digitsValue_toString, JSNum.ofRatio_nat n h, JSNum.orZero_nat]

theorem tallyStep_success (acc : PaymentTally) (p : Doc) (amount : JSNum)
    (hs : successfulPayment p = true) (hrev : revenueOf (p.get "amount") = .ok amount) :
    tallyStep acc p = .ok
      { acc with totalTransactions := acc.totalTransactions + 1
                 totalRevenue := acc.totalRevenue.add amount
                 successfulTransactions := acc.successfulTransactions + 1 } := by
  have hs1 : ((p.get "status").isStr "success" && (p.get "type").isStr "payment") = true := hs
  unfold tallyStep
  simp only [hs1, if_true, hrev]

theorem tallyStep_other (acc : PaymentTally) (p : Doc) (hs : successfulPayment p = false) :
    ∃ acc1, tallyStep acc p = .ok acc1 ∧ acc1.totalRevenue = acc.totalRevenue ∧
      acc1.totalTransactions = acc.totalTransactions + 1 := by
  have hs1 : ((p.get "status").isStr "success" && (p.get "type").isStr "payment") = false := hs
  unfold tallyStep
  simp only [hs1, Bool.false_eq_true, if_false]
  by_cases hf : (p.get "status").isStr "failed" = true
  · simp only [hf, if_true]
    exact ⟨_, rfl, rfl, rfl⟩
  · by_cases hq : (p.get "status").isStr "processing" = true
    · simp only [hf, hq, if_true, Bool.false_eq_true, if_false]
      exact ⟨_, rfl, rfl, rfl⟩
    · simp only [hf, hq, Bool.false_eq_true, if_false]
      exact ⟨_, rfl, rfl, rfl⟩

theorem successSum_cons (p : Doc) (rest : List Doc) :
    successSum (p :: rest)
      = (if successfulPayment p = true then (amountValue (p.get "amount")).toNat else 0)
        + successSum rest := by
  unfold successSum
  rw [List.filter_cons]
  split <;> simp

/-- The scan of `getPaymentStats` over transactions whose successful payments
have non-negative integer amounts adds those amounts, as long as the sum stays
within `2 ^ 53`, and counts every transaction. -/
theorem tallyFrom_revenue (payments : List Doc)
    (hamount : ∀ p ∈ payments, successfulPayment p = true →
      ∃ n : Nat, p.get "amount" = .num (n : Int))
    (acc : PaymentTally) (revenue : Nat) (hacc : acc.totalRevenue = .fin (revenue : ℚ))
    (hbound : revenue + successSum payments ≤ 2 ^ 53) :
    ∃ t, tallyFrom acc payments = .ok t ∧
      t.totalRevenue = .fin ((revenue + successSum payments : Nat) : ℚ) ∧
      t.totalTransactions = acc.totalTransactions + payments.length := by
  induction payments generalizing acc revenue with
  | nil => exact ⟨acc, rfl, by simpa [successSum] using hacc, rfl⟩
  | cons p rest ih =>
    have hrest : ∀ q ∈ rest, successfulPayment q = true →
        ∃ n : Nat, q.get "amount" = .num (n : Int) :=
      fun q hq => hamount q (List.mem_cons_of_mem _ hq)
    rw [successSum_cons] at hbound ⊢
    cases hs : successfulPayment p with
    | true =>
      obtain ⟨n, hn⟩ := hamount p (List.mem_cons_self _ _) hs
      have hval : (amountValue (p.get "amount")).toNat = n := by simp [hn, amountValue]
      simp only [hs, if_true, hval] at hbound ⊢
      have hstep := tallyStep_success acc p (.fin (n : ℚ)) hs
        (by rw [hn]; exact revenueOf_nat n (by omega))
      obtain ⟨t, ht, g1, g2⟩ := ih hrest
        { acc with totalTransactions := acc.totalTransactions + 1
                   totalRevenue := acc.totalRevenue.add (.fin (n : ℚ))
                   successfulTransactions := acc.successfulTransactions + 1 }
        (revenue + n)
        (by
          show acc.totalRevenue.add (.fin (n : ℚ)) = _
          rw [hacc]
          exact JSNum.add_nat revenue n (by omega))
        (by omega)
      refine ⟨t, by simp only [tallyFrom, hstep]; exact ht, ?_, ?_⟩
      · rw [g1]
        congr 2
        omega
      · rw [g2]
        simp only [List.length_cons]
        omega
    | false =>
      simp only [hs, Bool.false_eq_true, if_false, Nat.zero_add] at hbound ⊢
      obtain ⟨acc1, hstep, h1, h2⟩ := tallyStep_other acc p hs
      obtain ⟨t, ht, g1, g2⟩ := ih hrest acc1 revenue (h1.trans hacc) hbound
      refine ⟨t, by simp only [tallyFrom, hstep]; exact ht, g1, ?_⟩
      rw [g2, h2]
      simp only [List.length_cons]
      omega

/-! ### The revenue sum of the orders -/

theorem amountValue_nonneg (v : Val) (hv : naturalOrMissing v) : 0 ≤ amountValue v := by
  rcases hv with ⟨n, rfl⟩ | rfl
  · simp [amountValue]
  · simp [amountValue]

theorem Val.toNumber_num (n : Int) (h : n.natAbs ≤ 2 ^ 53) :
    Val.toNumber (.num n) = .fin (n : ℚ) :=
  JSNum.ofRatio_int n h

theorem Val.ofNumber_int (n : Int) : Val.ofNumber (.fin (n : ℚ)) = .num n := by
  simp [Val.ofNumber]

/-- The sum of two integers whose sum stays within `2 ^ 53` in absolute
value. -/
theorem jsAdd_num (a b : Int) (ha : a.natAbs ≤ 2 ^ 53) (hb : b.natAbs ≤ 2 ^ 53)
    (hab : (a + b).natAbs ≤ 2 ^ 53) : jsAdd (.num a) (.num b) = .num (a + b) := by
  show Val.ofNumber (JSNum.add (Val.toNumber (.num a)) (Val.toNumber (.num b))) = .num (a + b)
  rw [Val.toNumber_num a ha, Val.toNumber_num b hb, JSNum.add_fin]
  have h := roundDouble_int (a + b) hab
  push_cast at h
  rw [h]
  have h2 := Val.ofNumber_int (a + b)
  push_cast at h2
  exact h2

/-- One step of the revenue sum on a non-negative integer or missing amount. -/
theorem jsAdd_amount (a : Int) (v : Val) (hv : naturalOrMissing v) (ha : 0 ≤ a)
    (hb : a + amountValue v ≤ 2 ^ 53) :
    jsAdd (.num a) (Val.or v (.num 0)) = .num (a + amountValue v) := by
  have hnn := amountValue_nonneg v hv
  rcases hv with ⟨n, rfl⟩ | rfl
  · have hval : amountValue (.num (n : Int)) = (n : Int) := rfl
    rw [hval] at hb hnn ⊢
    by_cases hn : n = 0
    · subst hn
      have hor : Val.or (.num ((0 : Nat) : Int)) (.num 0) = .num 0 := by
        simp [Val.or, Val.truthy]
      rw [hor]
      have := jsAdd_num a 0 (by omega) (by decide) (by simpa using (by omega : a.natAbs ≤ 2 ^ 53))
      simpa using this
    · have hor : Val.or (.num (n : Int)) (.num 0) = .num (n : Int) := by
        have : ((n : Int) != 0) = true := by simpa using hn
        simp [Val.or, Val.truthy, this]
      rw [hor]
      exact jsAdd_num a n (by omega) (by omega) (by omega)
  · have hval : amountValue .undefined = 0 := rfl
    rw [hval] at hb ⊢
    have hor : Val.or .undefined (.num 0) = .num 0 := by simp [Val.or, Val.truthy]
    rw [hor]
    have := jsAdd_num a 0 (by omega) (by decide) (by simpa using (by omega : a.natAbs ≤ 2 ^ 53))
    simpa using this

theorem amountSum_nonneg (field : String) (orders : List Doc)
    (hnum : ∀ o ∈ orders, naturalOrMissing (o.get field)) :
    0 ≤ (orders.map (fun o => amountValue (o.get field))).sum := by
  induction orders with
  | nil => simp
  | cons o rest ih =>
    have h1 := amountValue_nonneg _ (hnum o (List.mem_cons_self _ _))
    have h2 := ih (fun q hq => hnum q (List.mem_cons_of_mem _ hq))
    simp only [List.map_cons, List.sum_cons]
    omega

/-- The revenue loop from a non-negative start adds the amounts, as long as
the sum stays within `2 ^ 53`. -/
theorem foldl_jsAdd_amount (field : String) (orders : List Doc)
    (hnum : ∀ o ∈ orders, naturalOrMissing (o.get field)) (a : Int) (ha : 0 ≤ a)
    (hb : a + (orders.map (fun o => amountValue (o.get field))).sum ≤ 2 ^ 53) :
    orders.foldl (fun sum o => jsAdd sum (Val.or (o.get field) (.num 0))) (.num a) =
      .num (a + (orders.map (fun o => amountValue (o.get field))).sum) := by
  induction orders generalizing a with
  | nil => simp
  | cons o rest ih =>
    have ho := hnum o (List.mem_cons_self _ _)
    have hrest : ∀ q ∈ rest, naturalOrMissing (q.get field) :=
      fun q hq => hnum q (List.mem_cons_of_mem _ hq)
    have h1 := amountValue_nonneg _ ho
    have h2 := amountSum_nonneg field rest hrest
    simp only [List.map_cons, List.sum_cons] at hb
    rw [List.foldl_cons, jsAdd_amount a _ ho ha (by omega),
      ih hrest _ (by omega) (by omega), List.map_cons, List.sum_cons, add_assoc]

/-- The sum over the paid orders, for non-negative integer or missing amounts
whose sum stays within `2 ^ 53`. -/
theorem sumPaid_eq_paidSum (field : String) (orders : List Doc)
    (hnum : ∀ o ∈ orders, (o.get "paymentStatus").isStr "paid" = true →
      naturalOrMissing (o.get field))
    (hb : paidSum orders field ≤ 2 ^ 53) :
    sumPaid orders field = .num (paidSum orders field) := by
  unfold sumPaid
  unfold paidSum at hb ⊢
  rw [foldl_jsAdd_amount field _
    (fun o ho => hnum o (List.mem_filter.mp ho).1 (List.mem_filter.mp ho).2) 0
    (le_refl 0) (by omega), zero_add]

/-! ### The search loop -/

theorem fieldIncludes_of_text (toLowerCase : String → String) (searchTerm : String) (v : Val)
    (hv : textOrMissing v) :
    fieldIncludes toLowerCase v searchTerm = .ok (fieldHit toLowerCase searchTerm v) := by
  rcases hv with ⟨text, rfl⟩ | rfl | rfl <;> rfl

theorem orderMatches_of_text (toLowerCase : String → String) (searchTerm : String) (o : Doc)
    (h1 : textOrMissing (o.get "orderNumber")) (h2 : textOrMissing (o.get "resellerName"))
    (h3 : textOrMissing (o.get "resellerEmail")) :
    orderMatches toLowerCase o searchTerm = .ok (searchHit toLowerCase searchTerm o) := by
  unfold orderMatches searchHit
  rw [fieldIncludes_of_text _ _ _ h1, fieldIncludes_of_text _ _ _ h2,
    fieldIncludes_of_text _ _ _ h3]
  cases fieldHit toLowerCase searchTerm (o.get "orderNumber") <;>
    cases fieldHit toLowerCase searchTerm (o.get "resellerName") <;> rfl

/-! ### The write of `updateShipmentStatus` -/

theorem shipmentUpdate_resolveWrite (t : Nat) (status notes : String) :
    resolveWrite t (shipmentUpdateData status notes) =
      if status = "delivered" then
        [("status", .str status), ("adminNotes", .str notes), ("updatedAt", .timestamp t),
         ("actualDelivery", .timestamp t)]
      else
        [("status", .str status), ("adminNotes", .str notes), ("updatedAt", .timestamp t)] := by
  by_cases h : status = "delivered"
  · subst h
    simp [shipmentUpdateData, Doc.set, resolveWrite, Val.isUndefined, Val.resolve]
  · simp [shipmentUpdateData, h, resolveWrite, Val.isUndefined, Val.resolve]

/-! ### The status log only grows -/

theorem snd_of_eq {α : Type} {x : Except String α × Store} {r : Except String α} {s1 : Store}
    (h : x = (r, s1)) : x.2 = s1 := by
  rw [h]

theorem getDoc_logs (c : CollName) (id : String) (s : Store) :
    (getDoc c id s).2.orderStatusLogs = s.orderStatusLogs := by
  cases hr : s.reachable <;> simp [getDoc, hr]

theorem getDocs_logs (c : CollName) (keep : Doc → Bool) (s : Store) :
    (getDocs c keep s).2.orderStatusLogs = s.orderStatusLogs := by
  cases hr : s.reachable <;> simp [getDocs, hr]

theorem updateDoc_logs (c : CollName) (id : String) (fields : Doc) (s : Store)
    (hc : c ≠ .orderStatusLogs) :
    (updateDoc c id fields s).2.orderStatusLogs = s.orderStatusLogs := by
  cases hr : s.reachable
  · simp [updateDoc, hr]
  · cases hf : (s.coll c).find? id <;> cases c <;> simp_all [updateDoc, Store.setColl]

theorem deleteDoc_logs (c : CollName) (id : String) (s : Store)
    (hc : c ≠ .orderStatusLogs) :
    (deleteDoc c id s).2.orderStatusLogs = s.orderStatusLogs := by
  cases hr : s.reachable
  · simp [deleteDoc, hr]
  · cases c <;> simp_all [deleteDoc, Store.setColl]

theorem addDoc_logs (c : CollName) (document : Doc) (s : Store)
    (hc : c ≠ .orderStatusLogs) :
    (addDoc c document s).2.orderStatusLogs = s.orderStatusLogs := by
  cases hr : s.reachable
  · simp [addDoc, hr]
  · cases c <;> simp_all [addDoc, Store.setColl]

theorem batchUpdate_logs (writes : List (String × Doc)) (s : Store) :
    (batchUpdate .orders writes s).2.orderStatusLogs = s.orderStatusLogs := by
  unfold batchUpdate
  split
  · split <;> simp
  · simp

theorem createOrderStatusLogOf_logs (orderId : String) (status : Val)
    (message actionBy : String) (s : Store) :
    s.orderStatusLogs <+: (createOrderStatusLogOf orderId status message actionBy s).2.orderStatusLogs
    := by
  cases hr : s.reachable
  · simp [createOrderStatusLogOf, addDoc, hr]
  · simp [createOrderStatusLogOf, addDoc, hr]

theorem createOrderStatusLog_logs (orderId status message actionBy : String) (s : Store) :
    s.orderStatusLogs <+: (createOrderStatusLog orderId status message actionBy s).2.orderStatusLogs
    := by
  cases hr : s.reachable
  · simp [createOrderStatusLog, addDoc, hr]
  · simp [createOrderStatusLog, addDoc, hr]

theorem batchLogs_logs (status : Val) (orderIds : List String) (s : Store) :
    s.orderStatusLogs <+: (batchLogs status orderIds s).orderStatusLogs := by
  induction orderIds generalizing s with
  | nil => exact List.prefix_refl _
  | cons orderId rest ih =>
    exact List.IsPrefix.trans
      (createOrderStatusLogOf_logs orderId status "Batch update by admin" "admin" s) (ih _)

theorem createPaymentTransaction_logs (cl : Client) (paymentData : Doc) (s : Store) :
    (createPaymentTransaction cl paymentData s).2.orderStatusLogs = s.orderStatusLogs := by
  have h := addDoc_logs .payments (paymentOf cl paymentData) s (by decide)
  unfold createPaymentTransaction
  cases ha : addDoc .payments (paymentOf cl paymentData) s with
  | mk r s1 =>
    rw [ha] at h
    cases r <;> exact h

theorem writeAndLog_logs (orderId status adminMessage : String) (updateData : Doc)
    (s : Store) :
    s.orderStatusLogs <+: (writeAndLog orderId status adminMessage updateData s).2.orderStatusLogs
    := by
  have h := updateDoc_logs .orders orderId updateData s (by decide)
  unfold writeAndLog
  cases hu : updateDoc .orders orderId updateData s with
  | mk r s1 =>
    rw [hu] at h
    have h1 : s1.orderStatusLogs = s.orderStatusLogs := h
    cases r with
    | error e => simp [h1]
    | ok u =>
      have h2 := createOrderStatusLog_logs orderId status adminMessage "system" s1
      rw [h1] at h2
      exact h2

theorem updateOrderStatus_logs (cl : Client) (orderId status adminMessage : String)
    (additionalData : Doc) (s : Store) :
    s.orderStatusLogs <+:
      (updateOrderStatus cl orderId status adminMessage additionalData s).2.orderStatusLogs := by
  unfold updateOrderStatus
  simp only []
  split
  · have h := getDoc_logs .orders orderId s
    cases hg : getDoc .orders orderId s with
    | mk r s1 =>
      rw [hg] at h
      have h1 : s1.orderStatusLogs = s.orderStatusLogs := h
      cases r with
      | error e => simp [h1]
      | ok found =>
        cases found with
        | none =>
          have h2 := writeAndLog_logs orderId status adminMessage
            (statusUpdateData status adminMessage additionalData) s1
          rw [h1] at h2
          exact h2
        | some o =>
          have hc := (createShipmentFromOrder_frame cl
            (shipmentOrderData orderId o additionalData) (shippingDataOf additionalData) s1).2.1
          simp only []
          cases hcs : createShipmentFromOrder cl (shipmentOrderData orderId o additionalData)
            (shippingDataOf additionalData) s1 with
          | mk res s2 =>
            rw [hcs] at hc
            have h2 : s2.orderStatusLogs = s.orderStatusLogs := hc.trans h1
            cases res with
            | error e =>
              have h3 := writeAndLog_logs orderId status adminMessage
                (statusUpdateData status adminMessage additionalData) s2
              rw [h2] at h3
              exact h3
            | ok shipmentResult =>
              have h3 := writeAndLog_logs orderId status adminMessage
                ((statusUpdateData status adminMessage additionalData).set "trackingNumber"
                  shipmentResult.trackingNumber) s2
              rw [h2] at h3
              exact h3
  · exact writeAndLog_logs orderId status adminMessage _ s

theorem createOrder_logs (cl : Client) (userId : String) (orderData : Doc) (s : Store) :
    (createOrder cl userId orderData s).2.orderStatusLogs = s.orderStatusLogs := by
  have h := addDoc_logs .orders (orderOf cl userId orderData) s (by decide)
  unfold createOrder
  cases ha : addDoc .orders (orderOf cl userId orderData) s with
  | mk r s1 =>
    rw [ha] at h
    cases r <;> exact h

theorem updatePaymentStatus_logs (cl : Client) (orderId paymentStatus : String)
    (orderStatus : Option String) (adminMessage : String) (paymentDetails : Option Doc)
    (s : Store) :
    (updatePaymentStatus cl orderId paymentStatus orderStatus adminMessage
      paymentDetails s).2.orderStatusLogs = s.orderStatusLogs := by
  have h := getDoc_logs .orders orderId s
  unfold updatePaymentStatus
  cases hg : getDoc .orders orderId s with
  | mk r s1 =>
    rw [hg] at h
    have h1 : s1.orderStatusLogs = s.orderStatusLogs := h
    cases r with
    | error e => exact h1
    | ok found =>
      cases found with
      | none => exact h1
      | some o =>
        have hu := updateDoc_logs .orders orderId
          (paymentUpdateData paymentStatus orderStatus adminMessage) s1 (by decide)
        simp only []
        cases hup : updateDoc .orders orderId
          (paymentUpdateData paymentStatus orderStatus adminMessage) s1 with
        | mk r2 s2 =>
          rw [hup] at hu
          have h2 : s2.orderStatusLogs = s.orderStatusLogs := hu.trans h1
          cases r2 with
          | error e => exact h2
          | ok u =>
            cases paymentDetails with
            | none => exact h2
            | some details =>
              simp only []
              split
              · exact (createPaymentTransaction_logs cl _ s2).trans h2
              · exact h2

theorem updatePaymentProof_logs (cl : Client)
    (orderId paymentMethod paymentProof paymentProofURL : String) (s : Store) :
    (updatePaymentProof cl orderId paymentMethod paymentProof paymentProofURL
      s).2.orderStatusLogs = s.orderStatusLogs := by
  have h := getDoc_logs .orders orderId s
  unfold updatePaymentProof
  cases hg : getDoc .orders orderId s with
  | mk r s1 =>
    rw [hg] at h
    have h1 : s1.orderStatusLogs = s.orderStatusLogs := h
    cases r with
    | error e => exact h1
    | ok found =>
      cases found with
      | none => exact h1
      | some o =>
        simp only []
        generalize hfields : ([("paymentMethod", Val.str paymentMethod),
           ("paymentProof", Val.str paymentProof),
           ("paymentProofURL", Val.str paymentProofURL),
           ("paymentStatus", Val.str "waiting_verification"),
           ("adminMessage",
              Val.str "Bukti pembayaran telah dikirim. Menunggu verifikasi dari admin."),
           ("updatedAt", Val.serverTimestamp)] : Doc) = fields
        have hu := updateDoc_logs .orders orderId fields s1 (by decide)
        cases hup : updateDoc .orders orderId fields s1 with
        | mk r2 s2 =>
          rw [hup] at hu
          have h2 : s2.orderStatusLogs = s.orderStatusLogs := hu.trans h1
          cases r2 with
          | error e => exact h2
          | ok u => exact (createPaymentTransaction_logs cl _ s2).trans h2

theorem confirmOrderReceived_logs (orderId resellerId message : String) (s : Store) :
    s.orderStatusLogs <+:
      (confirmOrderReceived orderId resellerId message s).2.orderStatusLogs := by
  have h := getDoc_logs .orders orderId s
  unfold confirmOrderReceived
  cases hg : getDoc .orders orderId s with
  | mk r s1 =>
    rw [hg] at h
    have h1 : s1.orderStatusLogs = s.orderStatusLogs := h
    cases r with
    | error e => simp [h1]
    | ok found =>
      cases found with
      | none => simp [h1]
      | some o =>
        simp only []
        split
        · simp [h1]
        · generalize hfields : ([("status", Val.str "completed"),
             ("resellerConfirmation", Val.bool true),
             ("actualDelivery", Val.serverTimestamp),
             ("adminMessage", Val.or (Val.str message)
                (Val.str "Pesanan telah dikonfirmasi diterima oleh reseller")),
             ("updatedAt", Val.serverTimestamp)] : Doc) = fields
          have hu := updateDoc_logs .orders orderId fields s1 (by decide)
          cases hup : updateDoc .orders orderId fields s1 with
          | mk r2 s2 =>
            rw [hup] at hu
            have h2 : s2.orderStatusLogs = s.orderStatusLogs := hu.trans h1
            cases r2 with
            | error e => simp [h2]
            | ok u =>
              have h3 := createOrderStatusLog_logs orderId "completed"
                "Order confirmed as received by reseller" ("reseller_" ++ resellerId) s2
              rw [h2] at h3
              exact h3

theorem updateTrackingInfo_logs (orderId trackingNumber : String) (estimatedDelivery : Val)
    (s : Store) :
    s.orderStatusLogs <+:
      (updateTrackingInfo orderId trackingNumber estimatedDelivery s).2.orderStatusLogs := by
  unfold updateTrackingInfo
  simp only []
  generalize (if estimatedDelivery.truthy = true then
      Doc.set [("trackingNumber", Val.str trackingNumber), ("status", Val.str "shipped"),
        ("updatedAt", Val.serverTimestamp)] "estimatedDelivery" estimatedDelivery
    else [("trackingNumber", Val.str trackingNumber), ("status", Val.str "shipped"),
        ("updatedAt", Val.serverTimestamp)]) = fields
  have hu := updateDoc_logs .orders orderId fields s (by decide)
  cases hup : updateDoc .orders orderId fields s with
  | mk r s1 =>
    rw [hup] at hu
    have h1 : s1.orderStatusLogs = s.orderStatusLogs := hu
    cases r with
    | error e => simp [h1]
    | ok u =>
      have h3 := createOrderStatusLog_logs orderId "shipped"
        ("Order shipped with tracking number: " ++ trackingNumber) "admin" s1
      rw [h1] at h3
      exact h3

theorem deleteOrder_logs (orderId : String) (s : Store) :
    s.orderStatusLogs <+: (deleteOrder orderId s).2.orderStatusLogs := by
  have h := getDoc_logs .orders orderId s
  unfold deleteOrder
  cases hg : getDoc .orders orderId s with
  | mk r s1 =>
    rw [hg] at h
    have h1 : s1.orderStatusLogs = s.orderStatusLogs := h
    cases r with
    | error e => simp [h1]
    | ok found =>
      cases found with
      | none => simp [h1]
      | some o =>
        simp only []
        split
        · simp [h1]
        · have hd := deleteDoc_logs .orders orderId s1 (by decide)
          cases hdel : deleteDoc .orders orderId s1 with
          | mk r2 s2 =>
            rw [hdel] at hd
            have h2 : s2.orderStatusLogs = s.orderStatusLogs := hd.trans h1
            cases r2 with
            | error e => simp [h2]
            | ok u =>
              have h3 := createOrderStatusLog_logs orderId "deleted" "Order deleted by admin"
                "admin" s2
              rw [h2] at h3
              exact h3

theorem batchUpdateOrders_logs (orderIds : List String) (updateData : Doc) (s : Store) :
    s.orderStatusLogs <+: (batchUpdateOrders orderIds updateData s).2.orderStatusLogs := by
  unfold batchUpdateOrders
  generalize (orderIds.map (fun orderId =>
    (orderId, Doc.spread updateData [("updatedAt", Val.serverTimestamp)]))) = writes
  have hb := batchUpdate_logs writes s
  cases hbu : batchUpdate .orders writes s with
  | mk r s1 =>
    rw [hbu] at hb
    have h1 : s1.orderStatusLogs = s.orderStatusLogs := hb
    cases r with
    | error e => simp [h1]
    | ok u =>
      have h3 := batchLogs_logs (Val.or (updateData.get "status") (.str "batch_updated"))
        orderIds s1
      rw [h1] at h3
      exact h3

theorem updateShipmentStatus_logs (shipmentId status notes : String) (s : Store) :
    (updateShipmentStatus shipmentId status notes s).2.orderStatusLogs = s.orderStatusLogs := by
  have hu := updateDoc_logs .shipments shipmentId (shipmentUpdateData status notes) s
    (by decide)
  unfold updateShipmentStatus
  cases hup : updateDoc .shipments shipmentId (shipmentUpdateData status notes) s with
  | mk r s1 =>
    rw [hup] at hu
    cases r <;> exact hu

theorem deleteShipment_logs (shipmentId : String) (s : Store) :
    (deleteShipment shipmentId s).2.orderStatusLogs = s.orderStatusLogs := by
  have hd := deleteDoc_logs .shipments shipmentId s (by decide)
  unfold deleteShipment
  cases hdel : deleteDoc .shipments shipmentId s with
  | mk r s1 =>
    rw [hdel] at hd
    cases r <;> exact hd

/-- No call removes or changes a status log entry: the log before a call is
a prefix of the log after it. -/
theorem Call.run_logs (cl : Client) (call : Call) (s : Store) :
    s.orderStatusLogs <+: (call.run cl s).2.orderStatusLogs := by
  cases call with
  | createOrder userId orderData =>
    exact (createOrder_logs cl userId orderData s) ▸ List.prefix_refl _
  | updateOrderStatus orderId status adminMessage additionalData =>
    exact updateOrderStatus_logs cl orderId status adminMessage additionalData s
  | createOrderStatusLog orderId status message actionBy =>
    exact createOrderStatusLog_logs orderId status message actionBy s
  | updatePaymentStatus orderId paymentStatus orderStatus adminMessage paymentDetails =>
    exact (updatePaymentStatus_logs cl orderId paymentStatus orderStatus adminMessage
      paymentDetails s) ▸ List.prefix_refl _
  | updatePaymentProof orderId paymentMethod paymentProof paymentProofURL =>
    exact (updatePaymentProof_logs cl orderId paymentMethod paymentProof paymentProofURL s) ▸
      List.prefix_refl _
  | confirmOrderReceived orderId resellerId confirmationMessage =>
    exact confirmOrderReceived_logs orderId resellerId confirmationMessage s
  | updateTrackingInfo orderId trackingNumber estimatedDelivery =>
    exact updateTrackingInfo_logs orderId trackingNumber estimatedDelivery s
  | deleteOrder orderId => exact deleteOrder_logs orderId s
  | batchUpdateOrders orderIds updateData => exact batchUpdateOrders_logs orderIds updateData s
  | createPaymentTransaction paymentData =>
    exact (createPaymentTransaction_logs cl paymentData s) ▸ List.prefix_refl _
  | paymentsUpdatePaymentStatus paymentId status adminNotes =>
    exact (updateDoc_logs .payments paymentId _ s (by decide)) ▸ List.prefix_refl _
  | retryPayment paymentId =>
    exact (updateDoc_logs .payments paymentId _ s (by decide)) ▸ List.prefix_refl _
  | createShipmentFromOrder orderData shippingData =>
    exact (createShipmentFromOrder_frame cl orderData shippingData s).2.1 ▸ List.prefix_refl _
  | updateShipmentStatus shipmentId status notes =>
    exact (updateShipmentStatus_logs shipmentId status notes s) ▸ List.prefix_refl _
  | deleteShipment shipmentId =>
    exact (deleteShipment_logs shipmentId s) ▸ List.prefix_refl _
  | read c => exact (getDocs_logs c (fun _ => true) s) ▸ List.prefix_refl _

/-! ### The calls that log the order they mutate -/

theorem updateOrderStatus_logged (cl : Client) (s : Store)
    (orderId status adminMessage : String) (additionalData : Doc) (hrel : s.reliable)
    (hok : succeeded (updateOrderStatus cl orderId status adminMessage additionalData s) = true) :
    ∃ logId entry,
      (updateOrderStatus cl orderId status adminMessage additionalData s).2.orderStatusLogs =
        s.orderStatusLogs ++ [(logId, entry)] ∧ entry.get "orderId" = .str orderId := by
  obtain ⟨hsome, hnone⟩ :=
    updateOrderStatus_log cl s orderId status adminMessage additionalData hrel
  cases hfind : s.orders.find? orderId with
  | none =>
    have herr := hnone hfind
    simp [succeeded, herr] at hok
  | some o =>
    obtain ⟨_, t, ht⟩ := hsome (by rw [hfind]; exact Option.some_ne_none o)
    exact ⟨_, _, ht, by simp [Doc.get, Doc.find?]⟩

theorem confirmOrderReceived_logged (s : Store) (orderId resellerId message : String)
    (hrel : s.reliable)
    (hok : succeeded (confirmOrderReceived orderId resellerId message s) = true) :
    ∃ logId entry,
      (confirmOrderReceived orderId resellerId message s).2.orderStatusLogs =
        s.orderStatusLogs ++ [(logId, entry)] ∧ entry.get "orderId" = .str orderId := by
  have hr := s.reachable_of_reliable hrel
  cases hfind : s.orders.find? orderId with
  | none => simp [succeeded, confirmOrderReceived, getDoc_of_reachable s hr, hfind] at hok
  | some o =>
    cases hown : (o.get "resellerId").isStr resellerId with
    | false =>
      simp [succeeded, confirmOrderReceived, getDoc_of_reachable s hr, hfind, hown] at hok
    | true =>
      obtain ⟨_, _, _, _, hlog⟩ := confirmOrderReceived_state s orderId resellerId message o
        hfind ((Val.isStr_eq_true_iff _ _).mp hown) hrel
      exact ⟨_, _, hlog, by simp [Doc.get, Doc.find?]⟩

theorem updateTrackingInfo_logged (s : Store) (orderId trackingNumber : String)
    (estimatedDelivery : Val) (hrel : s.reliable)
    (hok : succeeded (updateTrackingInfo orderId trackingNumber estimatedDelivery s) = true) :
    ∃ logId entry,
      (updateTrackingInfo orderId trackingNumber estimatedDelivery s).2.orderStatusLogs =
        s.orderStatusLogs ++ [(logId, entry)] ∧ entry.get "orderId" = .str orderId := by
  have hr := s.reachable_of_reliable hrel
  revert hok
  unfold updateTrackingInfo
  simp only []
  generalize (if estimatedDelivery.truthy = true then
      Doc.set [("trackingNumber", Val.str trackingNumber), ("status", Val.str "shipped"),
        ("updatedAt", Val.serverTimestamp)] "estimatedDelivery" estimatedDelivery
    else [("trackingNumber", Val.str trackingNumber), ("status", Val.str "shipped"),
        ("updatedAt", Val.serverTimestamp)]) = fields
  intro hok
  cases hfind : s.orders.find? orderId with
  | none =>
    have hfind1 : (s.coll .orders).find? orderId = none := by simpa using hfind
    simp [succeeded, updateDoc_of_missing s hr .orders orderId fields hfind1] at hok
  | some o =>
    have hfind1 : (s.coll .orders).find? orderId = some o := by simpa using hfind
    have hr2 : ((s.setColl .orders (s.orders.modify orderId
        (fun d => Doc.spread d (resolveWrite s.clock fields)))).tick).reachable = true :=
      Store.reachable_of_reliable _ (Store.tick_reliable _ (Store.setColl_reliable _ _ _ hrel))
    rw [updateDoc_of_reachable s hr .orders orderId fields o hfind1]
    simp only [Store.coll_orders]
    rw [createOrderStatusLog_of_reachable _ _ _ _ _ hr2]
    simp only [Store.tick_orderStatusLogs, Store.setColl_orders_logs]
    exact ⟨_, _, rfl, by simp [Doc.get, Doc.find?]⟩

theorem deleteOrder_logged (s : Store) (orderId : String) (hrel : s.reliable)
    (hok : succeeded (deleteOrder orderId s) = true) :
    ∃ logId entry,
      (deleteOrder orderId s).2.orderStatusLogs =
        s.orderStatusLogs ++ [(logId, entry)] ∧ entry.get "orderId" = .str orderId := by
  have hr := s.reachable_of_reliable hrel
  have hr1 := s.reachable_tick_of_reliable hrel
  cases hfind : s.orders.find? orderId with
  | none => simp [succeeded, deleteOrder, getDoc_of_reachable s hr, hfind] at hok
  | some o =>
    cases hany : (["cancelled", "pending"].any
        (fun allowed => (o.get "status").isStr allowed)) with
    | false => simp [succeeded, deleteOrder, getDoc_of_reachable s hr, hfind, hany] at hok
    | true =>
      have hrun : deleteOrder orderId s =
          (.ok (), (createOrderStatusLog orderId "deleted" "Order deleted by admin" "admin"
            (s.tick.setColl .orders (s.orders.erase orderId)).tick).2) := by
        simp [deleteOrder, getDoc_of_reachable s hr, hfind, hany,
          deleteDoc_of_reachable s.tick hr1]
      have hr2 : ((s.tick.setColl .orders (s.orders.erase orderId)).tick).reachable = true :=
        Store.reachable_of_reliable _
          (Store.tick_reliable _ (Store.setColl_reliable _ _ _ (Store.tick_reliable _ hrel)))
      rw [hrun]
      simp only []
      rw [createOrderStatusLog_of_reachable _ _ _ _ _ hr2]
      simp only [Store.tick_orderStatusLogs, Store.setColl_orders_logs]
      exact ⟨_, _, rfl, by simp [Doc.get, Doc.find?]⟩

theorem countWhere_cons (o : Doc) (rest : List Doc) (field text : String) :
    countWhere (o :: rest) field text
      = countWhere rest field text + (if (o.get field).isStr text then 1 else 0) := by
  unfold countWhere
  rw [List.filter_cons]
  split <;> simp

/-! ## Facts about the product pages -/

theorem ceilDays_eq_ceil (m : Int) : ceilDays m = ⌈(m : ℚ) / 86400000⌉ := by
  symm
  rw [Int.ceil_eq_iff]
  unfold ceilDays
  have h1 : 86400000 * ((-m) / 86400000) ≤ -m := by omega
  have h2 : -m < 86400000 * ((-m) / 86400000) + 86400000 := by omega
  have h1q : (86400000 * (((-m) / 86400000 : Int) : ℚ)) ≤ -(m : ℚ) := by exact_mod_cast h1
  have h2q : -(m : ℚ) < 86400000 * (((-m) / 86400000 : Int) : ℚ) + 86400000 := by
    exact_mod_cast h2
  have hpos : (0 : ℚ) < 86400000 := by norm_num
  push_cast
  constructor
  · rw [lt_div_iff₀ hpos]; linarith
  · rw [div_le_iff₀ hpos]; linarith

theorem retailPrice_eq (p : Int) : retailPrice p = (14 * p + 5) / 10 := by
  unfold retailPrice jsRound
  rw [Int.floor_eq_iff]
  have h1 : 10 * ((14 * p + 5) / 10) ≤ 14 * p + 5 := by omega
  have h2 : 14 * p + 5 < 10 * ((14 * p + 5) / 10) + 10 := by omega
  have h1q : (10 * (((14 * p + 5) / 10 : Int) : ℚ)) ≤ 14 * (p : ℚ) + 5 := by exact_mod_cast h1
  have h2q : 14 * (p : ℚ) + 5 < 10 * (((14 * p + 5) / 10 : Int) : ℚ) + 10 := by
    exact_mod_cast h2
  constructor <;> linarith

theorem commission_eq (p : Int) : commission p = (14 * p + 5) / 10 - p := by
  unfold commission
  rw [retailPrice_eq]

/-! ## Facts about the shipment statistics -/

theorem parseFloatText_nonNumeric (text : String) (h : nonNumericText text = true) :
    parseFloatText text = .nan := by
  unfold nonNumericText at h
  cases hdata : text.data with
  | nil =>
    unfold parseFloatText
    rw [hdata]
    rfl
  | cons c rest =>
    rw [hdata] at h
    simp only [Bool.not_eq_true', Bool.or_eq_false_iff, beq_eq_false_iff_ne, ne_eq] at h
    obtain ⟨⟨⟨⟨⟨hws, hminus⟩, hplus⟩, hdigit⟩, hpoint⟩, hI⟩ := h
    have hdrop : (c :: rest).dropWhile isStrWhiteSpace = c :: rest := by
      rw [List.dropWhile_cons_of_neg]
      simp [hws]
    have hinf : "Infinity".data.isPrefixOf (c :: rest) = false := by
      have hI1 : ('I' == c) = false := by
        simp only [beq_eq_false_iff_ne, ne_eq]
        exact fun e => hI e.symm
      show (['I', 'n', 'f', 'i', 'n', 'i', 't', 'y'] : List Char).isPrefixOf (c :: rest) = false
      simp [List.isPrefixOf, hI1]
    have htake : (c :: rest).takeWhile Char.isDigit = [] := by
      rw [List.takeWhile_cons_of_neg]
      simp [hdigit]
    have hdropd : (c :: rest).dropWhile Char.isDigit = c :: rest := by
      rw [List.dropWhile_cons_of_neg]
      simp [hdigit]
    unfold parseFloatText
    rw [hdata]
    simp only [hdrop, List.head?_cons, Option.some.injEq, hminus, hplus, if_false]
    unfold parseUnsigned
    simp only [hinf, htake, hdropd, List.head?_cons, Option.some.injEq, hpoint, if_false,
      List.isEmpty_nil, Bool.and_self, if_true, Bool.false_eq_true]

theorem parseFloatText_digitText (text : String) (h : isDigitText text = true) :
    parseFloatText text = JSNum.ofRatio false (digitsValue text) 1 := by
  unfold isDigitText at h
  simp only [Bool.and_eq_true, Bool.not_eq_true', List.all_eq_true] at h
  have hne : text.data ≠ [] := by
    intro e
    rw [e] at h
    simp at h
  exact parseFloatText_digits text.data hne h.2

/-- A text cost that begins with a no-break space is read past the space. -/
theorem costTerm_no_break_space :
    costTerm [("cost", .str (String.mk (Char.ofNat 160 :: "15000".data)))] = .fin 15000 := by
  decide

/-- The term of the cost sum for a plain cost within `2 ^ 53`. -/
theorem costTerm_plain (shipment : Doc) (h : plainCost (shipment.get "cost") = true)
    (hb : costValue (shipment.get "cost") ≤ 2 ^ 53) :
    costTerm shipment = .fin ((costValue (shipment.get "cost") : Nat) : ℚ) := by
  unfold costTerm parseFloat
  cases hc : shipment.get "cost" with
  | num n =>
    rw [hc] at h hb
    have hn : 0 ≤ n := by simpa [plainCost] using h
    have hv : costValue (.num n) = n.toNat := rfl
    rw [hv] at hb ⊢
    have hcast : n = ((n.toNat : Nat) : Int) := (Int.toNat_of_nonneg hn).symm
    rw [hcast, Val.toJSString_nat _ hb, parseFloatText_toString _ hb, JSNum.orZero_nat,
      Int.toNat_ofNat]
  | undefined => decide
  | null => decide
  | nan => decide
  | bool b => cases b <;> decide
  | obj fields =>
    have hs : Val.toJSString (.obj fields) = "[object Object]" := rfl
    have hv : costValue (.obj fields) = 0 := rfl
    rw [hs, hv]
    decide
  | str text =>
    rw [hc] at h hb
    have ht : Val.toJSString (.str text) = text := rfl
    rw [ht]
    by_cases hd : isDigitText text = true
    · have hv : costValue (.str text) = digitsValue text := by simp [costValue, hd]
      rw [hv] at hb ⊢
      rw [parseFloatText_digitText text hd, JSNum.ofRatio_nat _ hb, JSNum.orZero_nat]
    · have hnon : nonNumericText text = true := by
        simpa [plainCost, hd] using h
      have hv : costValue (.str text) = 0 := by simp [costValue, hd]
      rw [hv, parseFloatText_nonNumeric text hnon]
      decide
  | dec m k => rw [hc] at h; simp [plainCost] at h
  | serverTimestamp => rw [hc] at h; simp [plainCost] at h
  | timestamp t => rw [hc] at h; simp [plainCost] at h
  | arr items => rw [hc] at h; simp [plainCost] at h

theorem foldl_costTerm (shipments : List Doc)
    (h : ∀ shipment ∈ shipments, plainCost (shipment.get "cost") = true) (acc : Nat)
    (hb : acc + costSum shipments ≤ 2 ^ 53) :
    shipments.foldl (fun (sum : JSNum) shipment => sum.add (costTerm shipment))
        (JSNum.fin (acc : ℚ))
      = JSNum.fin ((acc + costSum shipments : Nat) : ℚ) := by
  induction shipments generalizing acc with
  | nil => simp [costSum]
  | cons d rest ih =>
    have hsum : costSum (d :: rest) = costValue (d.get "cost") + costSum rest := by
      simp [costSum]
    rw [hsum] at hb ⊢
    rw [List.foldl_cons, costTerm_plain d (h d (List.mem_cons_self _ _)) (by omega),
      JSNum.add_nat _ _ (by omega),
      ih (fun x hx => h x (List.mem_cons_of_mem _ hx)) _ (by omega)]
    congr 2
    omega

/-! ## Facts about the stored status after `updateOrderStatus` -/

theorem Val.resolve_of_not_sentinel (v : Val) (t : Nat) (h : v.isSentinel = false) :
    v.resolve t = v := by
  cases v <;> first | rfl | simp [Val.isSentinel] at h

theorem Val.ne_undefined_of_isUndefined (v : Val) (h : v.isUndefined = false) :
    v ≠ .undefined := by
  intro hv
  rw [hv] at h
  simp [Val.isUndefined] at h

theorem statusUpdateData_status_of_present (status adminMessage : String)
    (additionalData : Doc) (v : Val) (hnodup : additionalData.keys.Nodup)
    (h : additionalData.find? "status" = some v) :
    (statusUpdateData status adminMessage additionalData).get "status" = v := by
  have hbase : (Doc.spread
      [("status", .str status), ("adminMessage", .str adminMessage),
       ("updatedAt", .serverTimestamp)] additionalData).get "status" = v :=
    Doc.get_spread_of_present _ _ _ _ hnodup h
  unfold statusUpdateData
  split
  · simp [Doc.get_set, hbase]
  · exact hbase

/-- The status stored by `updateOrderStatus` on an existing order when the
store calls succeed: the `status` field of the update object. -/
theorem updateOrderStatus_stored (cl : Client) (s : Store)
    (orderId status adminMessage : String) (additionalData o : Doc) (v : Val)
    (hfind : s.orders.find? orderId = some o) (hrel : s.reliable)
    (hget : (statusUpdateData status adminMessage additionalData).get "status" = v)
    (hsent : v.isSentinel = false) (hdef : v.isUndefined = false) :
    (updateOrderStatus cl orderId status adminMessage additionalData s).1 = .ok () ∧
    (updateOrderStatus cl orderId status adminMessage additionalData s).2.orderStatus orderId
      = some v := by
  have hnd := statusUpdateData_keys_nodup status adminMessage additionalData
  have hplain : ∀ s1 : Store, s1.orders = s.orders → s1.reliable → ∀ fields : Doc,
      fields.keys.Nodup → fields.get "status" = v →
      (writeAndLog orderId status adminMessage fields s1).1 = .ok () ∧
      (writeAndLog orderId status adminMessage fields s1).2.orderStatus orderId
        = some v := by
    intro s1 ho hr1 fields hfn hfs
    have hfind1 : s1.orders.find? orderId = some o := by rw [ho]; exact hfind
    obtain ⟨h1, h2, _, _⟩ := writeAndLog_effect s1 orderId status adminMessage fields o hfind1 hr1
    refine ⟨h1, ?_⟩
    have h3 := Doc.get_spread_resolveWrite o fields s1.clock "status" v hfn hfs
      (by rw [Val.resolve_of_not_sentinel v _ hsent]
          exact Val.ne_undefined_of_isUndefined v hdef)
    rw [Val.resolve_of_not_sentinel v _ hsent] at h3
    simp [Store.orderStatus, h2, h3]
  unfold updateOrderStatus
  simp only []
  split
  · rw [getDoc_of_reachable s (s.reachable_of_reliable hrel)]
    simp only [Store.coll_orders, hfind]
    obtain ⟨hso, _, hsf⟩ := createShipmentFromOrder_frame cl
      (shipmentOrderData orderId o additionalData) (shippingDataOf additionalData) s.tick
    cases hcs : createShipmentFromOrder cl (shipmentOrderData orderId o additionalData)
      (shippingDataOf additionalData) s.tick with
    | mk res s2 =>
      rw [hcs] at hso hsf
      have hs2o : s2.orders = s.orders := by simpa using hso
      have hs2r : s2.reliable := by
        have : s2.failing = s.failing := by simpa using hsf
        exact this.trans hrel
      cases res with
      | error e => exact hplain s2 hs2o hs2r _ hnd hget
      | ok shipmentResult =>
        exact hplain s2 hs2o hs2r _ (Doc.keys_set_nodup _ _ _ hnd)
          (by rw [Doc.get_set, if_neg (by decide)]; exact hget)
  · exact hplain s rfl hrel _ hnd hget

/-! ## Facts about batch updates -/

theorem Coll.find?_foldl_modify (f : Doc → Doc) (ids : List String) (docs : Coll)
    (k : String) :
    (ids.foldl (fun c id => c.modify id f) docs).find? k
      = (docs.find? k).map (f^[ids.count k]) := by
  induction ids generalizing docs with
  | nil => simp
  | cons id rest ih =>
    rw [List.foldl_cons, ih]
    by_cases h : id = k
    · subst h
      rw [Coll.find?_modify_self, List.count_cons_self, Option.map_map, Function.iterate_succ]
    · rw [Coll.find?_modify_ne _ _ _ _ (fun e => h e.symm),
        List.count_cons_of_ne (fun e => h e.symm)]

theorem iterate_write_absent (o fields : Doc) (t : Nat) (key : String)
    (h : fields.find? key = none) (n : Nat) :
    (((fun d => Doc.spread d (resolveWrite t fields))^[n]) o).get key = o.get key := by
  induction n with
  | zero => rfl
  | succ m ih =>
    rw [Function.iterate_succ_apply']
    exact (Doc.get_spread_resolveWrite_of_absent _ fields t key h).trans ih

theorem iterate_write_present (o fields : Doc) (t : Nat) (key : String) (v : Val)
    (hnodup : fields.keys.Nodup) (hget : fields.get key = v)
    (hdef : v.resolve t ≠ .undefined) (n : Nat) (hn : 0 < n) :
    (((fun d => Doc.spread d (resolveWrite t fields))^[n]) o).get key = v.resolve t := by
  cases n with
  | zero => omega
  | succ m =>
    rw [Function.iterate_succ_apply']
    exact Doc.get_spread_resolveWrite _ fields t key v hnodup hget hdef

/-- The bulk write of `batchUpdateOrders` when the store is reached and every
listed order exists. -/
theorem batchUpdate_run (orderIds : List String) (fields : Doc) (s : Store)
    (hr : s.reachable = true) (hexist : ∀ id ∈ orderIds, s.orders.find? id ≠ none) :
    batchUpdate .orders (orderIds.map (fun orderId => (orderId, fields))) s =
      (.ok (), (s.setColl .orders (orderIds.foldl
        (fun c id => c.modify id (fun d => Doc.spread d (resolveWrite s.clock fields)))
        s.orders)).tick) := by
  have hall : (orderIds.map (fun orderId => (orderId, fields))).all
      (fun w => ((s.coll .orders).find? w.1).isSome) = true := by
    rw [List.all_eq_true]
    intro w hw
    obtain ⟨id, hid, rfl⟩ := List.mem_map.1 hw
    have := hexist id hid
    cases hf : s.orders.find? id with
    | none => exact absurd hf this
    | some o => simp [hf]
  unfold batchUpdate
  rw [if_pos hr, if_pos hall, List.foldl_map]
  rfl

/-- The log writes of `batchUpdateOrders` when the store calls succeed. -/
theorem batchLogs_reliable (status : Val) (hsent : status.isSentinel = false)
    (hdef : status.isUndefined = false) (orderIds : List String) (s : Store)
    (hrel : s.reliable) :
    (batchLogs status orderIds s).orderStatusLogs
      = s.orderStatusLogs ++ batchLogEntries status s.clock orderIds ∧
    (batchLogs status orderIds s).orders = s.orders := by
  induction orderIds generalizing s with
  | nil => simp [batchLogs, batchLogEntries]
  | cons id rest ih =>
    have hr := Store.reachable_of_reliable s hrel
    have hstep : (createOrderStatusLogOf id status "Batch update by admin" "admin" s).2
        = (s.setColl .orderStatusLogs (s.orderStatusLogs ++
            [("auto" ++ toString s.clock,
              [("orderId", .str id), ("status", status),
               ("message", .str "Batch update by admin"), ("actionBy", .str "admin"),
               ("timestamp", .timestamp s.clock)])])).tick := by
      have hw : resolveWrite s.clock
          [("orderId", .str id), ("status", status),
           ("message", .str "Batch update by admin"), ("actionBy", .str "admin"),
           ("timestamp", .serverTimestamp)]
          = [("orderId", .str id), ("status", status),
             ("message", .str "Batch update by admin"), ("actionBy", .str "admin"),
             ("timestamp", .timestamp s.clock)] := by
        have h1 : (Val.str id).isUndefined = false := rfl
        have h2 : (Val.str "Batch update by admin").isUndefined = false := rfl
        have h3 : (Val.str "admin").isUndefined = false := rfl
        have h4 : Val.serverTimestamp.isUndefined = false := rfl
        have h5 : ∀ text : String, (Val.str text).resolve s.clock = .str text := fun _ => rfl
        have h6 : Val.serverTimestamp.resolve s.clock = .timestamp s.clock := rfl
        simp only [resolveWrite, List.filter_cons, List.filter_nil, hdef, h1, h2, h3, h4,
          Bool.not_false, if_true, List.map_cons, List.map_nil, h5, h6,
          Val.resolve_of_not_sentinel status _ hsent]
      simp [createOrderStatusLogOf, addDoc_of_reachable s hr, hw]
    have hrel1 : ((s.setColl .orderStatusLogs (s.orderStatusLogs ++
            [("auto" ++ toString s.clock,
              [("orderId", .str id), ("status", status),
               ("message", .str "Batch update by admin"), ("actionBy", .str "admin"),
               ("timestamp", .timestamp s.clock)])])).tick).reliable :=
      Store.tick_reliable _ (Store.setColl_reliable _ _ _ hrel)
    obtain ⟨h1, h2⟩ := ih _ hrel1
    unfold batchLogs
    rw [hstep]
    constructor
    · rw [h1]
      simp [batchLogEntries]
    · rw [h2]
      simp

theorem batchLogEntries_length (status : Val) (clock : Nat) (orderIds : List String) :
    (batchLogEntries status clock orderIds).length = orderIds.length := by
  induction orderIds generalizing clock with
  | nil => rfl
  | cons id rest ih => simp [batchLogEntries, ih]

theorem batchLogEntries_fields (status : Val) (orderIds : List String) (clock : Nat) :
    (batchLogEntries status clock orderIds).map
        (fun e => (e.2.get "orderId", e.2.get "status", e.2.get "actionBy"))
      = orderIds.map (fun id => (Val.str id, status, Val.str "admin")) := by
  induction orderIds generalizing clock with
  | nil => rfl
  | cons id rest ih =>
    simp only [batchLogEntries, List.map_cons, ih]
    rfl

theorem batchLogs_orders (status : Val) (orderIds : List String) (s : Store) :
    (batchLogs status orderIds s).orders = s.orders := by
  induction orderIds generalizing s with
  | nil => rfl
  | cons id rest ih =>
    unfold batchLogs
    rw [ih]
    cases hr : s.reachable <;> simp [createOrderStatusLogOf, addDoc, hr]

theorem Val.resolve_ne_undefined (v : Val) (t : Nat) (h : v.isUndefined = false) :
    v.resolve t ≠ .undefined := by
  cases v <;> simp_all [Val.resolve, Val.isUndefined]

/-- The run of `batchUpdateOrders` when the bulk write reaches the store and
every listed order exists. -/
theorem batchUpdateOrders_run (orderIds : List String) (updateData : Doc) (s : Store)
    (hr : s.reachable = true) (hexist : ∀ id ∈ orderIds, s.orders.find? id ≠ none) :
    batchUpdateOrders orderIds updateData s =
      (.ok (), batchLogs (Val.or (updateData.get "status") (.str "batch_updated")) orderIds
        (s.setColl .orders (orderIds.foldl
          (fun c id => c.modify id (fun d => Doc.spread d (resolveWrite s.clock
            (Doc.spread updateData [("updatedAt", .serverTimestamp)]))))
          s.orders)).tick) := by
  unfold batchUpdateOrders
  rw [batchUpdate_run orderIds _ s hr hexist]

/-! ## Facts about the rate limiter -/

theorem RateLimitStore.get?_set (store : RateLimitStore) (key ip : String) (times : List Nat) :
    (store.set key times).get? ip = if key = ip then some times else store.get? ip := by
  induction store with
  | nil =>
    by_cases h : key = ip <;> simp [RateLimitStore.set, RateLimitStore.get?, h]
  | cons e rest ih =>
    obtain ⟨k, v⟩ := e
    by_cases hk : k = key
    · subst hk
      by_cases h : k = ip <;> simp [RateLimitStore.set, RateLimitStore.get?, h]
    · by_cases h : k = ip
      · subst h
        have hne : ¬ key = k := fun e => hk e.symm
        simp [RateLimitStore.set, RateLimitStore.get?, hk, hne]
      · simp [RateLimitStore.set, RateLimitStore.get?, hk, h, ih]

theorem RateLimitStore.times_set (store : RateLimitStore) (key ip : String) (times : List Nat) :
    (store.set key times).times ip = if key = ip then times else store.times ip := by
  unfold RateLimitStore.times
  rw [RateLimitStore.get?_set]
  split <;> rfl

theorem RateLimitStore.times_init (store : RateLimitStore) (key ip : String) :
    (if (store.get? key).isSome then store else store.set key []).times ip = store.times ip := by
  cases h : store.get? key with
  | some v => simp
  | none =>
    simp only [Option.isSome_none, Bool.false_eq_true, if_false]
    rw [RateLimitStore.times_set]
    split
    · rename_i hk
      subst hk
      simp [RateLimitStore.times, h]
    · rfl

/-- The result of `rateLimit` and the times it leaves in the store. -/
theorem rateLimit_spec (ip : String) (limit windowMs now : Nat) (store : RateLimitStore) :
    (rateLimit ip limit windowMs now store).1
      = decide ((recentRequests store ip windowMs now).length < limit) ∧
    (rateLimit ip limit windowMs now store).2.times ip
      = (if (recentRequests store ip windowMs now).length < limit
          then recentRequests store ip windowMs now ++ [now] else store.times ip) ∧
    (∀ other, other ≠ ip →
      (rateLimit ip limit windowMs now store).2.times other = store.times other) := by
  have hinit := RateLimitStore.times_init store ip
  unfold rateLimit recentRequests
  simp only [hinit ip]
  by_cases hlen : ((store.times ip).filter
      (fun (time : Nat) => decide ((now : Int) - (windowMs : Int) < (time : Int)))).length < limit
  · have hge : ¬ ((store.times ip).filter
        (fun (time : Nat) => decide ((now : Int) - (windowMs : Int) < (time : Int)))).length
          ≥ limit := by omega
    simp only [hge, if_false, hlen, if_true, decide_True]
    refine ⟨trivial, ?_, ?_⟩
    · rw [RateLimitStore.times_set, if_pos rfl]
    · intro other hne
      rw [RateLimitStore.times_set, if_neg (fun e => hne e.symm)]
      exact hinit other
  · have hge : ((store.times ip).filter
        (fun (time : Nat) => decide ((now : Int) - (windowMs : Int) < (time : Int)))).length
          ≥ limit := by omega
    simp only [hge, if_true, hlen, if_false, decide_False]
    refine ⟨trivial, hinit ip, ?_⟩
    intro other _
    exact hinit other

theorem rateLimit_congr (ip : String) (limit windowMs now : Nat)
    (store other : RateLimitStore) (h : store.times ip = other.times ip) :
    (rateLimit ip limit windowMs now store).1 = (rateLimit ip limit windowMs now other).1 ∧
    (rateLimit ip limit windowMs now store).2.times ip
      = (rateLimit ip limit windowMs now other).2.times ip := by
  obtain ⟨a1, a2, _⟩ := rateLimit_spec ip limit windowMs now store
  obtain ⟨b1, b2, _⟩ := rateLimit_spec ip limit windowMs now other
  have hrecent : recentRequests store ip windowMs now = recentRequests other ip windowMs now := by
    unfold recentRequests
    rw [h]
  rw [a1, a2, b1, b2, hrecent, h]
  exact ⟨rfl, rfl⟩

/-- The calls for one key run the same way whatever calls for other keys are
made in between. -/
theorem rateLimitRun_filter (limit windowMs : Nat) (ip : String)
    (calls : List (String × Nat)) (store other : RateLimitStore)
    (h : store.times ip = other.times ip) :
    (rateLimitRun limit windowMs calls store).filter (fun r => decide (r.1.1 = ip))
      = rateLimitRun limit windowMs (calls.filter (fun c => decide (c.1 = ip))) other := by
  induction calls generalizing store other with
  | nil => rfl
  | cons c rest ih =>
    by_cases hc : c.1 = ip
    · obtain ⟨h1, h2⟩ := rateLimit_congr c.1 limit windowMs c.2 store other (by rw [hc]; exact h)
      rw [hc] at h2
      simp only [rateLimitRun, List.filter_cons, hc, decide_True, if_true]
      rw [hc] at h1
      rw [h1, ih _ _ h2]
    · have hne : ip ≠ c.1 := fun e => hc e.symm
      have hkeep := (rateLimit_spec c.1 limit windowMs c.2 store).2.2 ip hne
      simp only [rateLimitRun, List.filter_cons, hc, decide_False, Bool.false_eq_true, if_false]
      exact ih _ _ (hkeep.trans h)

theorem windowCount_append (times more : List Nat) (start windowMs : Nat) :
    windowCount (times ++ more) start windowMs
      = windowCount times start windowMs + windowCount more start windowMs := by
  simp [windowCount]

theorem acceptedTimes_cons (ip : String) (r : (String × Nat) × Bool)
    (run : List ((String × Nat) × Bool)) :
    acceptedTimes ip (r :: run)
      = if (r.2 && decide (r.1.1 = ip)) = true then r.1.2 :: acceptedTimes ip run
        else acceptedTimes ip run := by
  unfold acceptedTimes
  rw [List.filter_cons]
  split <;> simp

/-- The window bound, carried along a run: `history` holds the times accepted
so far, of which the store keeps those later than `floor`. -/
theorem windowCount_run (limit windowMs : Nat) (hwindow : 0 < windowMs) (ip : String)
    (calls : List (String × Nat)) (store : RateLimitStore) (history : List Nat) (floor : Int)
    (hsorted : (calls.map (fun c => c.2)).Pairwise (fun a b => a ≤ b))
    (hstore : store.times ip = history.filter (fun (h : Nat) => decide (floor < (h : Int))))
    (hfloor : ∀ c ∈ calls, floor + (windowMs : Int) ≤ (c.2 : Int))
    (hbound : ∀ start, windowCount history start windowMs ≤ limit) (start : Nat) :
    windowCount (history ++ acceptedTimes ip (rateLimitRun limit windowMs calls store))
      start windowMs ≤ limit := by
  induction calls generalizing store history floor with
  | nil => simpa [rateLimitRun, acceptedTimes] using hbound start
  | cons c rest ih =>
    have hsorted1 : (rest.map (fun c => c.2)).Pairwise (fun a b => a ≤ b) := by
      rw [List.map_cons, List.pairwise_cons] at hsorted
      exact hsorted.2
    have hlater : ∀ d ∈ rest, c.2 ≤ d.2 := by
      rw [List.map_cons, List.pairwise_cons] at hsorted
      intro d hd
      exact hsorted.1 d.2 (List.mem_map.2 ⟨d, hd, rfl⟩)
    have hfloor1 : ∀ d ∈ rest, floor + (windowMs : Int) ≤ (d.2 : Int) :=
      fun d hd => hfloor d (List.mem_cons_of_mem _ hd)
    obtain ⟨r1, r2, r3⟩ := rateLimit_spec c.1 limit windowMs c.2 store
    simp only [rateLimitRun]
    rw [acceptedTimes_cons]
    by_cases hc : c.1 = ip
    · rw [hc] at r1 r2
      by_cases hlen : (recentRequests store ip windowMs c.2).length < limit
      · have hres : (rateLimit c.1 limit windowMs c.2 store).1 = true := by
          rw [hc, r1]; simpa using hlen
        have hcond : ((rateLimit c.1 limit windowMs c.2 store).1 && decide (c.1 = ip)) = true := by
          rw [hres]
          simp [hc]
        rw [if_pos hcond]
        have hc0 := hfloor c (List.mem_cons_self _ _)
        have hrecent : recentRequests store ip windowMs c.2
            = history.filter (fun (h : Nat) =>
                decide ((c.2 : Int) - (windowMs : Int) < (h : Int))) := by
          unfold recentRequests
          rw [hstore, List.filter_filter]
          apply List.filter_congr
          intro h _
          by_cases hh : (c.2 : Int) - (windowMs : Int) < (h : Int)
          · have : floor < (h : Int) := by omega
            simp [hh, this]
          · simp [hh]
        have happ : history ++ c.2 :: acceptedTimes ip (rateLimitRun limit windowMs rest
              (rateLimit c.1 limit windowMs c.2 store).2)
            = (history ++ [c.2]) ++ acceptedTimes ip (rateLimitRun limit windowMs rest
              (rateLimit c.1 limit windowMs c.2 store).2) := by simp
        rw [happ]
        apply ih _ (history ++ [c.2]) ((c.2 : Int) - (windowMs : Int)) hsorted1
        · rw [hc, r2, if_pos hlen, hrecent, List.filter_append]
          simp [List.filter_cons, hwindow]
        · intro d hd
          have := hlater d hd
          omega
        · intro b
          rw [windowCount_append]
          by_cases hin : b ≤ c.2 ∧ c.2 < b + windowMs
          · have hle : windowCount history b windowMs
                ≤ (recentRequests store ip windowMs c.2).length := by
              rw [hrecent]
              unfold windowCount
              rw [← List.countP_eq_length_filter, ← List.countP_eq_length_filter]
              apply List.countP_mono_left
              intro h _ hp
              simp only [decide_eq_true_eq] at hp ⊢
              omega
            have hone : windowCount [c.2] b windowMs ≤ 1 := by
              unfold windowCount
              exact (List.length_filter_le _ _).trans (by simp)
            omega
          · have hzero : windowCount [c.2] b windowMs = 0 := by
              simp [windowCount, List.filter_cons, hin]
            have := hbound b
            omega
      · have hres : (rateLimit c.1 limit windowMs c.2 store).1 = false := by
          rw [hc, r1]; simpa using hlen
        have hcond :
            ¬ ((rateLimit c.1 limit windowMs c.2 store).1 && decide (c.1 = ip)) = true := by
          rw [hres]
          simp
        rw [if_neg hcond]
        apply ih _ history floor hsorted1 _ hfloor1 hbound
        rw [hc, r2, if_neg hlen]
        exact hstore
    · have hcond : ¬ ((rateLimit c.1 limit windowMs c.2 store).1 && decide (c.1 = ip)) = true := by
        simp [hc]
      rw [if_neg hcond]
      apply ih _ history floor hsorted1 _ hfloor1 hbound
      rw [r3 ip (fun e => hc e.symm)]
      exact hstore

/-! ## Facts about repeated payment verification -/

theorem Coll.find?_split (pre post : Coll) (id : String) (o : Doc)
    (hpre : ∀ e ∈ pre, e.1 ≠ id) : (pre ++ (id, o) :: post).find? id = some o := by
  induction pre with
  | nil => simp [Coll.find?]
  | cons e rest ih =>
    obtain ⟨k, d⟩ := e
    have hk : k ≠ id := hpre (k, d) (List.mem_cons_self _ _)
    simp only [List.cons_append, Coll.find?, hk, if_false]
    exact ih (fun e he => hpre e (List.mem_cons_of_mem _ he))

theorem Coll.modify_split (pre post : Coll) (id : String) (o : Doc) (f : Doc → Doc)
    (hpre : ∀ e ∈ pre, e.1 ≠ id) :
    (pre ++ (id, o) :: post).modify id f = pre ++ (id, f o) :: post := by
  induction pre with
  | nil => simp [Coll.modify]
  | cons e rest ih =>
    obtain ⟨k, d⟩ := e
    have hk : k ≠ id := hpre (k, d) (List.mem_cons_self _ _)
    have hrest := ih (fun e he => hpre e (List.mem_cons_of_mem _ he))
    simp only [List.cons_append, Coll.modify, hk, if_false]
    exact congrArg (fun l => (k, d) :: l) hrest

theorem paymentUpdateData_keys_nodup (paymentStatus : String) (orderStatus : Option String)
    (adminMessage : String) :
    (paymentUpdateData paymentStatus orderStatus adminMessage).keys.Nodup := by
  have hbase : (Doc.keys [("paymentStatus", Val.str paymentStatus),
      ("adminMessage", Val.str adminMessage), ("updatedAt", Val.serverTimestamp)]).Nodup := by
    simp [Doc.keys]
  unfold paymentUpdateData
  cases orderStatus with
  | none => exact hbase
  | some st =>
    simp only []
    split
    · exact Doc.keys_set_nodup _ _ _ hbase
    · exact hbase

theorem paymentUpdateData_fields (paymentStatus : String) (orderStatus : Option String)
    (adminMessage : String) :
    (paymentUpdateData paymentStatus orderStatus adminMessage).get "paymentStatus"
      = .str paymentStatus ∧
    (paymentUpdateData paymentStatus orderStatus adminMessage).find? "totalAmount" = none := by
  unfold paymentUpdateData
  cases orderStatus with
  | none => exact ⟨rfl, rfl⟩
  | some st =>
    simp only []
    split
    · constructor
      · rw [Doc.get_set, if_neg (by decide)]
        rfl
      · rw [Doc.find?_set, if_neg (by decide)]
        rfl
    · exact ⟨rfl, rfl⟩

/-- One verification of a payment on an existing order when the store calls
succeed. -/
theorem updatePaymentStatus_paid (cl : Client) (s : Store) (orderId : String)
    (orderStatus : Option String) (adminMessage : String) (details : Doc)
    (pre post : Coll) (o : Doc) (a : Nat)
    (horders : s.orders = pre ++ (orderId, o) :: post) (hpre : ∀ e ∈ pre, e.1 ≠ orderId)
    (hamount : o.get "totalAmount" = .num (a : Int)) (hrel : s.reliable) :
    ∃ o1 p1,
      succeeded (updatePaymentStatus cl orderId "paid" orderStatus adminMessage
        (some details) s) = true ∧
      (updatePaymentStatus cl orderId "paid" orderStatus adminMessage
        (some details) s).2.reliable ∧
      (updatePaymentStatus cl orderId "paid" orderStatus adminMessage
        (some details) s).2.clock = s.clock + 3 ∧
      (updatePaymentStatus cl orderId "paid" orderStatus adminMessage
        (some details) s).2.orders = pre ++ (orderId, o1) :: post ∧
      (updatePaymentStatus cl orderId "paid" orderStatus adminMessage
        (some details) s).2.payments = s.payments ++ [("auto" ++ toString (s.clock + 2), p1)] ∧
      o1.get "totalAmount" = .num (a : Int) ∧
      o1.get "paymentStatus" = .str "paid" ∧
      successfulPayment p1 = true ∧
      p1.get "amount" = .num (a : Int) ∧
      p1.get "orderId" = .str orderId := by
  have hfind : s.orders.find? orderId = some o := by
    rw [horders]
    exact Coll.find?_split pre post orderId o hpre
  have hrun := updatePaymentStatus_run cl s orderId "paid" orderStatus adminMessage
    (some details) o hfind hrel
  have hr2 : ((s.tick.setColl .orders (s.orders.modify orderId (fun d => Doc.spread d
      (resolveWrite (s.clock + 1) (paymentUpdateData "paid" orderStatus adminMessage))))).tick
      ).reachable = true :=
    Store.reachable_of_reliable _ (Store.tick_reliable _ (Store.setColl_reliable _ _ _
      (Store.tick_reliable _ hrel)))
  simp only [beq_self_eq_true, if_true] at hrun
  rw [createPaymentTransaction_run cl _ _ hr2] at hrun
  obtain ⟨hst, hty⟩ := paymentOf_stored_status cl (verifiedPaymentData orderId o details)
    (s.clock + 2)
  have hpa := paymentOf_stored cl (verifiedPaymentData orderId o details) (s.clock + 2)
    "amount" (by simp)
  have hpo := paymentOf_stored cl (verifiedPaymentData orderId o details) (s.clock + 2)
    "orderId" (by simp)
  refine ⟨Doc.spread o (resolveWrite (s.clock + 1)
      (paymentUpdateData "paid" orderStatus adminMessage)),
    resolveWrite (s.clock + 2) (paymentOf cl (verifiedPaymentData orderId o details)),
    ?_, ?_, ?_, ?_, ?_, ?_, ?_, ?_, ?_, ?_⟩
  · rw [hrun]; rfl
  · rw [hrun]
    exact Store.tick_reliable _ (Store.setColl_reliable _ _ _ (Store.tick_reliable _
      (Store.setColl_reliable _ _ _ (Store.tick_reliable _ hrel))))
  · rw [hrun]
    simp only [Store.tick_clock, Store.setColl_clock]
  · rw [hrun]
    simp only [Store.tick_orders, Store.setColl_payments_orders, Store.setColl_orders_orders]
    rw [horders, Coll.modify_split pre post orderId o _ hpre]
  · rw [hrun]
    simp
  · rw [Doc.get_spread_resolveWrite_of_absent _ _ _ _
      (paymentUpdateData_fields "paid" orderStatus adminMessage).2]
    exact hamount
  · exact Doc.get_spread_resolveWrite o _ (s.clock + 1) "paymentStatus" (.str "paid")
      (paymentUpdateData_keys_nodup "paid" orderStatus adminMessage)
      (paymentUpdateData_fields "paid" orderStatus adminMessage).1 (by simp [Val.resolve])
  · unfold successfulPayment
    rw [hst, hty]
    rfl
  · rw [hpa]
    have hv : (verifiedPaymentData orderId o details).get "amount" = o.get "totalAmount" := rfl
    rw [hv, hamount]
    rfl
  · rw [hpo]
    rfl

theorem autoId_injective (a b : Nat)
    (h : "auto" ++ toString a = "auto" ++ toString b) : a = b := by
  have hdata := congrArg String.data h
  rw [String.data_append, String.data_append] at hdata
  have hs : toString a = toString b := String.ext (List.append_cancel_left hdata)
  have hv := congrArg digitsValue hs
  rwa [digitsValue_toString, digitsValue_toString] at hv

/-- The effect of `n` payment verifications in a row on an existing order when
the store calls succeed. -/
theorem paidTimes_effect (cl : Client) (orderId : String) (orderStatus : Option String)
    (adminMessage : String) (details : Doc) (pre post : Coll) (a : Nat)
    (hpre : ∀ e ∈ pre, e.1 ≠ orderId) (n : Nat) :
    ∀ (s : Store) (o : Doc), s.orders = pre ++ (orderId, o) :: post →
      o.get "totalAmount" = .num (a : Int) → s.reliable →
      ∃ o1 fresh,
        (paidTimes cl orderId orderStatus adminMessage details n s).1 = true ∧
        (paidTimes cl orderId orderStatus adminMessage details n s).2.orders
          = pre ++ (orderId, o1) :: post ∧
        o1.get "totalAmount" = .num (a : Int) ∧
        (0 < n → o1.get "paymentStatus" = .str "paid") ∧
        (paidTimes cl orderId orderStatus adminMessage details n s).2.payments
          = s.payments ++ fresh ∧
        fresh.map (fun e => e.1)
          = (List.range n).map (fun i => "auto" ++ toString (s.clock + 3 * i + 2)) ∧
        (∀ e ∈ fresh, successfulPayment e.2 = true ∧ e.2.get "amount" = .num (a : Int) ∧
          e.2.get "orderId" = .str orderId) ∧
        (paidTimes cl orderId orderStatus adminMessage details n s).2.reliable := by
  induction n with
  | zero =>
    intro s o horders hamount hrel
    exact ⟨o, [], rfl, horders, hamount, fun h => absurd h (by decide), by simp [paidTimes],
      rfl, fun e he => absurd he (List.not_mem_nil e), hrel⟩
  | succ m ih =>
    intro s o horders hamount hrel
    obtain ⟨o1, p1, h1, h2, h3, h4, h5, h6, h7, h8, h9, h10⟩ :=
      updatePaymentStatus_paid cl s orderId orderStatus adminMessage details pre post o a
        horders hpre hamount hrel
    obtain ⟨o2, fresh, g1, g2, g3, _, g5, g6, g7, g8⟩ := ih _ o1 h4 h6 h2
    refine ⟨o2, ("auto" ++ toString (s.clock + 2), p1) :: fresh, ?_, ?_, g3, ?_, ?_, ?_, ?_, ?_⟩
    · simp only [paidTimes, h1, g1, Bool.and_self]
    · simp only [paidTimes]
      exact g2
    · intro _
      cases m with
      | zero =>
        simp only [paidTimes] at g2
        rw [h4] at g2
        have ho : o1 = o2 := by
          have := List.append_cancel_left g2
          simpa using this
        rw [← ho]
        exact h7
      | succ k =>
        obtain ⟨o3, _, _, k2, _, k4, _, _, _, _⟩ := ih _ o1 h4 h6 h2
        have ho : o3 = o2 := by
          have := List.append_cancel_left (k2.symm.trans g2)
          simpa using this
        rw [← ho]
        exact k4 (Nat.succ_pos k)
    · simp only [paidTimes]
      rw [g5, h5]
      simp
    · rw [List.range_succ_eq_map, List.map_cons, List.map_cons, List.map_map, g6, h3]
      congr 1
      apply List.map_congr_left
      intro i _
      simp only [Function.comp]
      congr 2
      omega
    · intro e he
      rcases List.mem_cons.1 he with h | h
      · subst h
        exact ⟨h8, h9, h10⟩
      · exact g7 e h
    · simp only [paidTimes]
      exact g8

theorem tallyFrom_append (first second : List Doc) (acc mid : PaymentTally)
    (h : tallyFrom acc first = .ok mid) :
    tallyFrom acc (first ++ second) = tallyFrom mid second := by
  induction first generalizing acc with
  | nil =>
    simp only [tallyFrom] at h
    rw [List.nil_append]
    exact congrArg (fun t => tallyFrom t second) (Except.ok.inj h)
  | cons p rest ih =>
    simp only [List.cons_append, tallyFrom] at h ⊢
    cases hstep : tallyStep acc p with
    | error e => rw [hstep] at h; simp at h
    | ok acc1 =>
      rw [hstep] at h
      simp only [] at h ⊢
      exact ih acc1 h

theorem tallyFrom_successes (fresh : List Doc) (a : Nat)
    (h : ∀ p ∈ fresh, successfulPayment p = true ∧ p.get "amount" = .num (a : Int))
    (acc : PaymentTally) (revenue : Nat) (hacc : acc.totalRevenue = .fin (revenue : ℚ))
    (hbound : revenue + fresh.length * a ≤ 2 ^ 53) :
    ∃ t, tallyFrom acc fresh = .ok t ∧
      t.totalRevenue = .fin ((revenue + fresh.length * a : Nat) : ℚ) := by
  have hsum : successSum fresh = fresh.length * a := by
    clear hbound
    induction fresh with
    | nil => simp [successSum]
    | cons p rest ih =>
      obtain ⟨hs, ha⟩ := h p (List.mem_cons_self _ _)
      rw [successSum_cons, ih (fun q hq => h q (List.mem_cons_of_mem _ hq)), if_pos hs, ha]
      simp only [amountValue, Int.toNat_ofNat, List.length_cons]
      ring
  obtain ⟨t, ht, g1, _⟩ := tallyFrom_revenue fresh
    (fun p hp _ => ⟨a, (h p hp).2⟩) acc revenue hacc (by rw [hsum]; exact hbound)
  exact ⟨t, ht, by rw [g1, hsum]⟩

theorem paidSum_split (before after : List Doc) (o : Doc) (a : Int)
    (hpaid : o.get "paymentStatus" = .str "paid") (hamount : o.get "totalAmount" = .num a) :
    paidSum (before ++ o :: after) "totalAmount"
      = paidSum before "totalAmount" + a + paidSum after "totalAmount" := by
  have hp : (o.get "paymentStatus").isStr "paid" = true := by rw [hpaid]; rfl
  unfold paidSum
  rw [List.filter_append, List.filter_cons, if_pos hp, List.map_append, List.map_cons,
    List.sum_append, List.sum_cons, hamount]
  simp only [amountValue]
  ring

/-! ## Facts about the scans -/

theorem getDocs_of_reachable (c : CollName) (keep : Doc → Bool) (s : Store)
    (h : s.reachable = true) :
    getDocs c keep s = (.ok ((s.coll c).filter (fun e => keep e.2)), s.tick) := by
  simp [getDocs, h]

theorem resellerFilter_eq (resellerId : Option String) :
    resellerFilter resellerId = ofReseller resellerId := by
  funext o
  cases resellerId with
  | none => rfl
  | some r =>
    by_cases hr : r = ""
    · subst hr
      rfl
    · have hne : (r != "") = true := by simpa using hr
      have hbeq : (r == "") = false := by simpa using hr
      simp only [resellerFilter, hne, if_true, ofReseller, hbeq, Bool.false_or]
      cases o.get "resellerId" <;> rfl

theorem getOrderStatistics_run (resellerId : Option String) (s : Store)
    (h : s.reachable = true) :
    getOrderStatistics resellerId s
      = (.ok (orderStatistics (scannedOrders resellerId s.orders)), s.tick) := by
  have hkeep : getOrderStatistics resellerId s
      = match getDocs .orders (resellerFilter resellerId) s with
        | (.error e, s1) => (.error e, s1)
        | (.ok found, s1) => (.ok (orderStatistics (found.map (fun e => e.2))), s1) := by
    cases resellerId <;> rfl
  rw [hkeep, getDocs_of_reachable _ _ _ h, resellerFilter_eq]
  rfl

theorem mem_fetchedOrders (resellerId : Option String) (orders : Coll) (e : String × Doc) :
    e ∈ fetchedOrders resellerId orders ↔ e ∈ orders ∧ ofReseller resellerId e.2 = true := by
  unfold fetchedOrders
  rw [(List.perm_insertionSort _ _).mem_iff, List.mem_filter]

theorem searchOrders_run (toLowerCase : String → String) (searchTerm : String)
    (resellerId : Option String) (s : Store) (h : s.reachable = true) :
    searchOrders toLowerCase searchTerm resellerId s
      = (searchLoop toLowerCase searchTerm (fetchedOrders resellerId s.orders), s.tick) := by
  unfold searchOrders getDocsOrdered
  rw [getDocs_of_reachable _ _ _ h, resellerFilter_eq]
  rfl

theorem searchLoop_of_text (toLowerCase : String → String) (searchTerm : String)
    (fetched : List (String × Doc))
    (htyped : ∀ e ∈ fetched, textOrMissing (e.2.get "orderNumber") ∧
      textOrMissing (e.2.get "resellerName") ∧ textOrMissing (e.2.get "resellerEmail")) :
    searchLoop toLowerCase searchTerm fetched =
      .ok ((fetched.filter (fun e => searchHit toLowerCase searchTerm e.2)).map
        (fun e => Doc.spread [("id", .str e.1)] e.2)) := by
  induction fetched with
  | nil => rfl
  | cons e rest ih =>
    obtain ⟨id, o⟩ := e
    obtain ⟨h1, h2, h3⟩ := htyped (id, o) (List.mem_cons_self _ _)
    have hrest := ih (fun e he => htyped e (List.mem_cons_of_mem _ he))
    simp only [searchLoop, orderMatches_of_text toLowerCase searchTerm o h1 h2 h3, hrest]
    cases hhit : searchHit toLowerCase searchTerm o <;> simp [List.filter_cons, hhit]

theorem scannedOrders_none (orders : Coll) :
    scannedOrders none orders = orders.map (fun e => e.2) := by
  simp [scannedOrders, ofReseller]

/-- The revenue of `getPaymentStats` on a store whose scan succeeds and whose
successful payments have non-negative integer amounts with a sum within
`2 ^ 53`. -/
theorem getPaymentStats_sum (s : Store) (hreach : s.reachable = true)
    (hamount : ∀ e ∈ s.payments, successfulPayment e.2 = true →
      ∃ n : Nat, e.2.get "amount" = .num (n : Int))
    (hbound : successSum (s.payments.map (fun e => e.2)) ≤ 2 ^ 53) :
    ∃ stats, (getPaymentStats s).1 = .ok stats ∧
      stats.totalRevenue = .fin ((successSum (s.payments.map (fun e => e.2)) : Nat) : ℚ) ∧
      stats.totalTransactions = s.payments.length := by
  obtain ⟨t, ht, h1, h2⟩ := tallyFrom_revenue (s.payments.map (fun e => e.2))
    (by
      intro p hp hs
      obtain ⟨e, he, rfl⟩ := List.mem_map.1 hp
      exact hamount e he hs)
    ⟨.fin 0, 0, 0, 0, 0⟩ 0 (by simp) (by omega)
  have hrun : (getPaymentStats s).1 = .ok (statsOfTally t) := by
    simp [getPaymentStats, getDocs_of_reachable _ _ _ hreach, Store.coll, paymentStats, ht]
  refine ⟨statsOfTally t, hrun, ?_, ?_⟩
  · simpa [statsOfTally] using h1
  · simpa [statsOfTally] using h2

theorem successSum_append (first second : List Doc) :
    successSum (first ++ second) = successSum first + successSum second := by
  simp [successSum, List.filter_append]

theorem successSum_const (fresh : List Doc) (a : Nat)
    (h : ∀ p ∈ fresh, successfulPayment p = true ∧ p.get "amount" = .num (a : Int)) :
    successSum fresh = fresh.length * a := by
  induction fresh with
  | nil => simp [successSum]
  | cons p rest ih =>
    obtain ⟨hs, ha⟩ := h p (List.mem_cons_self _ _)
    rw [successSum_cons, ih (fun q hq => h q (List.mem_cons_of_mem _ hq)), if_pos hs, ha]
    simp only [amountValue, Int.toNat_ofNat, List.length_cons]
    ring

/-! ## Claims -/

/-- C1: for every store, every existing order `o` and every reseller id other
than the owner of `o`, `confirmOrderReceived` returns a failure -- the failure
`Unauthorized access` whenever the read of the order reaches the store -- and
leaves the orders, payments, shipments and status logs exactly as they were. -/
theorem confirmOrderReceived_unauthorized (s : Store) (orderId resellerId message : String)
    (o : Doc) (hfind : s.orders.find? orderId = some o)
    (howner : o.get "resellerId" ≠ .str resellerId) :
    (∃ e, (confirmOrderReceived orderId resellerId message s).1 = .error e) ∧
    (s.reachable = true →
      (confirmOrderReceived orderId resellerId message s).1 = .error "Unauthorized access") ∧
    (confirmOrderReceived orderId resellerId message s).2.orders = s.orders ∧
    (confirmOrderReceived orderId resellerId message s).2.payments = s.payments ∧
    (confirmOrderReceived orderId resellerId message s).2.shipments = s.shipments ∧
    (confirmOrderReceived orderId resellerId message s).2.orderStatusLogs = s.orderStatusLogs := by
  have hno : (o.get "resellerId").isStr resellerId = false :=
    (Val.isStr_eq_false_iff _ _).mpr howner
  cases hr : s.reachable <;>
    simp [confirmOrderReceived, getDoc, hr, Store.coll, hfind, hno, Store.tick]

/-- Witness of C1: reseller `r2` confirming the order of reseller `r1`. -/
theorem confirmOrderReceived_unauthorized_witness :
    (confirmOrderReceived "o1" "r2" ""
      ⟨[("o1", [("resellerId", .str "r1"), ("status", .str "shipped")])], [], [], [], 0, []⟩).1
      = .error "Unauthorized access" :=
  (confirmOrderReceived_unauthorized
    ⟨[("o1", [("resellerId", .str "r1"), ("status", .str "shipped")])], [], [], [], 0, []⟩
    "o1" "r2" "" [("resellerId", .str "r1"), ("status", .str "shipped")] rfl
    (by simp [Doc.get, Doc.find?])).2.1 rfl

/-- C2: for every existing order, when the store calls succeed `deleteOrder`
returns a failure if and only if the status of the order is neither `pending`
nor `cancelled`; and whenever `deleteOrder` returns a failure the orders are
as they were (the order is still in the store) and no log entry is appended. -/
theorem deleteOrder_fails_iff (s : Store) (orderId : String) (o : Doc)
    (hfind : s.orders.find? orderId = some o) :
    (s.reliable →
      ((∃ e, (deleteOrder orderId s).1 = .error e) ↔
        ¬ (o.get "status" = .str "pending" ∨ o.get "status" = .str "cancelled"))) ∧
    ((∃ e, (deleteOrder orderId s).1 = .error e) →
      (deleteOrder orderId s).2.orders = s.orders ∧
      (deleteOrder orderId s).2.orders.find? orderId = some o ∧
      (deleteOrder orderId s).2.orderStatusLogs = s.orderStatusLogs) := by
  have hany : (["cancelled", "pending"].any (fun allowed => (o.get "status").isStr allowed))
      = true ↔ (o.get "status" = .str "pending" ∨ o.get "status" = .str "cancelled") := by
    simp [Val.isStr_eq_true_iff, or_comm]
  constructor
  · intro hrel
    have hr := s.reachable_of_reliable hrel
    have hr1 := s.reachable_tick_of_reliable hrel
    rw [← hany]
    cases hallowed : (["cancelled", "pending"].any
        (fun allowed => (o.get "status").isStr allowed))
    · simp [deleteOrder, getDoc_of_reachable s hr, hfind, hallowed]
    · simp [deleteOrder, getDoc_of_reachable s hr, hfind, hallowed,
        deleteDoc_of_reachable s.tick hr1]
  · rintro ⟨e, he⟩
    revert he
    cases hr : s.reachable
    · simp [deleteOrder, getDoc_of_unreachable s hr, hfind]
    · cases hallowed : (["cancelled", "pending"].any
          (fun allowed => (o.get "status").isStr allowed))
      · simp [deleteOrder, getDoc_of_reachable s hr, hfind, hallowed]
      · cases hr1 : s.tick.reachable
        · simp [deleteOrder, getDoc_of_reachable s hr, hfind, hallowed,
            deleteDoc_of_unreachable s.tick hr1]
        · simp [deleteOrder, getDoc_of_reachable s hr, hfind, hallowed,
            deleteDoc_of_reachable s.tick hr1]

/-- Witness of C2: deleting a `confirmed` order fails and keeps the order. -/
theorem deleteOrder_fails_iff_witness :
    (deleteOrder "o1"
      ⟨[("o1", [("status", .str "confirmed")])], [], [], [], 0, []⟩).2.orders.find? "o1"
      = some [("status", .str "confirmed")] :=
  ((deleteOrder_fails_iff ⟨[("o1", [("status", .str "confirmed")])], [], [], [], 0, []⟩
    "o1" [("status", .str "confirmed")] rfl).2
    ⟨"Only cancelled or pending orders can be deleted", rfl⟩).2.1

/-- C3, counterexample: on a store that rejects the third call, the write of
the log entry, `deleteOrder` of a cancelled order returns success and removes
the order, and no log entry is written. -/
theorem deleteOrder_success_without_log :
    (deleteOrder "o1"
      ⟨[("o1", [("status", .str "cancelled")])], [], [], [], 0, [2]⟩).1 = .ok () ∧
    (deleteOrder "o1"
      ⟨[("o1", [("status", .str "cancelled")])], [], [], [], 0, [2]⟩).2.orders.find? "o1"
      = none ∧
    (deleteOrder "o1"
      ⟨[("o1", [("status", .str "cancelled")])], [], [], [], 0, [2]⟩).2.orderStatusLogs = [] :=
  ⟨rfl, rfl, rfl⟩

/-- C3, amended: for every existing order whose status is `pending` or `cancelled`, a
`deleteOrder` whose store calls succeed returns success and leaves the store
with that order absent, every other order unchanged, and exactly one new
status log entry, with that order id, status `deleted` and actor `admin`. -/
theorem deleteOrder_success (s : Store) (orderId : String) (o : Doc)
    (hfind : s.orders.find? orderId = some o)
    (hstatus : o.get "status" = .str "pending" ∨ o.get "status" = .str "cancelled")
    (hrel : s.reliable) :
    (deleteOrder orderId s).1 = .ok () ∧
    (deleteOrder orderId s).2.orders.find? orderId = none ∧
    (∀ other, other ≠ orderId →
      (deleteOrder orderId s).2.orders.find? other = s.orders.find? other) ∧
    (deleteOrder orderId s).2.orderStatusLogs =
      s.orderStatusLogs ++ [("auto" ++ toString (s.clock + 2),
        [("orderId", .str orderId), ("status", .str "deleted"),
         ("message", .str "Order deleted by admin"), ("actionBy", .str "admin"),
         ("timestamp", .timestamp (s.clock + 2))])] := by
  have hr := s.reachable_of_reliable hrel
  have hr1 := s.reachable_tick_of_reliable hrel
  have hany : (["cancelled", "pending"].any (fun allowed => (o.get "status").isStr allowed))
      = true := by
    rcases hstatus with h | h <;> simp [h, Val.isStr]
  have hrun : deleteOrder orderId s =
      (.ok (), (createOrderStatusLog orderId "deleted" "Order deleted by admin" "admin"
        (s.tick.setColl .orders (s.orders.erase orderId)).tick).2) := by
    simp [deleteOrder, getDoc_of_reachable s hr, hfind, hany, deleteDoc_of_reachable s.tick hr1]
  have hr2 : ((s.tick.setColl .orders (s.orders.erase orderId)).tick).reachable = true :=
    Store.reachable_of_reliable _
      (Store.tick_reliable _ (Store.setColl_reliable _ _ _ (Store.tick_reliable _ hrel)))
  rw [hrun]
  refine ⟨rfl, ?_, ?_, ?_⟩
  · simp [(createOrderStatusLog_frame _ _ _ _ _).1, Coll.find?_erase_self]
  · intro other hne
    simp [(createOrderStatusLog_frame _ _ _ _ _).1, Coll.find?_erase_ne _ _ _ hne]
  · simp [createOrderStatusLog_of_reachable _ _ _ _ _ hr2]

/-- Witness of C3, amended: deleting a `cancelled` order. -/
theorem deleteOrder_success_witness :
    (deleteOrder "o1"
      ⟨[("o1", [("status", .str "cancelled")])], [], [], [], 0, []⟩).2.orderStatusLogs =
      [("auto2", [("orderId", .str "o1"), ("status", .str "deleted"),
         ("message", .str "Order deleted by admin"), ("actionBy", .str "admin"),
         ("timestamp", .timestamp 2)])] :=
  (deleteOrder_success ⟨[("o1", [("status", .str "cancelled")])], [], [], [], 0, []⟩
    "o1" [("status", .str "cancelled")] rfl (Or.inr rfl) rfl).2.2.2

/-- C4: on a non-empty list of transactions none of which is a successful
payment -- in particular when every transaction is `failed` -- `getPaymentStats`
computes `averageTransaction` as `0 / 0`, which is `NaN` and not `0`; the
revenue is `0` and the success rate reads `0.0`. -/
theorem paymentStats_no_success_average_nan (payments : List Doc) (hne : payments ≠ [])
    (hnone : ∀ p ∈ payments,
      ((p.get "status").isStr "success" && (p.get "type").isStr "payment") = false) :
    ∃ stats, paymentStats payments = .ok stats ∧ stats.averageTransaction = .nan ∧
      stats.averageTransaction ≠ .fin 0 ∧ stats.totalRevenue = .fin 0 ∧
      stats.successRate = "0.0" := by
  obtain ⟨t, ht, h1, h2, h3⟩ := tallyFrom_no_success payments hnone ⟨.fin 0, 0, 0, 0, 0⟩
  have hlen : 0 < payments.length := List.length_pos.mpr hne
  have htot : 0 < t.totalTransactions := by rw [h3]; omega
  have hrev : t.totalRevenue = .fin 0 := h1
  have hsucc : t.successfulTransactions = 0 := h2
  have havg : (statsOfTally t).averageTransaction = .nan := by
    simp only [statsOfTally, htot, hrev, hsucc, if_true, gt_iff_lt]
    rfl
  refine ⟨statsOfTally t, by simp [paymentStats, ht], havg, ?_, hrev, ?_⟩
  · rw [havg]
    simp
  · simp only [statsOfTally, htot, hsucc, if_true, gt_iff_lt]
    exact percentFixed1_zero t.totalTransactions

/-- Failing input of C4: a store whose only transaction is `failed`. -/
theorem getPaymentStats_only_failed :
    (getPaymentStats
      ⟨[], [("p1", [("status", .str "failed"), ("type", .str "payment"),
          ("amount", .num 50000)])], [], [], 0, []⟩).1 =
      .ok { totalRevenue := .fin 0
            totalTransactions := 1
            averageTransaction := .nan
            successRate := "0.0"
            successfulTransactions := 0
            failedTransactions := 1
            processingTransactions := 0 } ∧
    ∃ stats, paymentStats [[("status", .str "failed"), ("type", .str "payment"),
        ("amount", .num 50000)]] = .ok stats ∧ stats.averageTransaction = .nan ∧
      stats.averageTransaction ≠ .fin 0 ∧ stats.totalRevenue = .fin 0 ∧
      stats.successRate = "0.0" :=
  ⟨rfl, paymentStats_no_success_average_nan
    [[("status", .str "failed"), ("type", .str "payment"), ("amount", .num 50000)]]
    (by simp) (by simp [Doc.get, Doc.find?, Val.isStr])⟩

/-- C5, counterexample: two paid orders of amounts 9007199254740992 and 1;
the sum of the amounts is 9007199254740993, and `getOrderStatistics` returns a
`totalRevenue` of 9007199254740992, for the sum is made in doubles. -/
theorem getOrderStatistics_revenue_rounded :
    ∃ stats, (getOrderStatistics none
        ⟨[("o1", [("totalAmount", .num 9007199254740992), ("paymentStatus", .str "paid")]),
          ("o2", [("totalAmount", .num 1), ("paymentStatus", .str "paid")])],
         [], [], [], 0, []⟩).1 = .ok stats ∧
      stats.total = 2 ∧
      stats.totalRevenue = .num 9007199254740992 ∧
      paidSum [[("totalAmount", .num 9007199254740992), ("paymentStatus", .str "paid")],
          [("totalAmount", .num 1), ("paymentStatus", .str "paid")]] "totalAmount"
        = 9007199254740993 ∧
      stats.totalRevenue ≠ .num 9007199254740993 :=
  ⟨_, rfl, rfl, rfl, by decide, by
    intro h
    have h1 : (9007199254740992 : Int) = 9007199254740993 := Val.num.inj h
    omega⟩

/-- C5, amended: for every store whose scan succeeds and every `resellerId`, with the
scanned orders those of the reseller when a non-empty `resellerId` is given
and all orders otherwise, with the `totalAmount` and `totalCommission` of the
paid ones non-negative integers or missing and their sums at most `2 ^ 53`:
`getOrderStatistics` returns `total` equal to the number of scanned orders,
`totalRevenue` equal to the sum of `totalAmount` (a missing amount counting as
`0`) over exactly the scanned orders with `paymentStatus` `paid`, and
`totalCommission` equal to the sum of `totalCommission` over the same orders. -/
theorem getOrderStatistics_revenue (resellerId : Option String) (s : Store)
    (hreach : s.reachable = true)
    (hamount : ∀ o ∈ scannedOrders resellerId s.orders,
      (o.get "paymentStatus").isStr "paid" = true → naturalOrMissing (o.get "totalAmount"))
    (hcommission : ∀ o ∈ scannedOrders resellerId s.orders,
      (o.get "paymentStatus").isStr "paid" = true →
        naturalOrMissing (o.get "totalCommission"))
    (hrevenue : paidSum (scannedOrders resellerId s.orders) "totalAmount" ≤ 2 ^ 53)
    (hpaidout : paidSum (scannedOrders resellerId s.orders) "totalCommission" ≤ 2 ^ 53) :
    ∃ stats, (getOrderStatistics resellerId s).1 = .ok stats ∧
      stats.total = (scannedOrders resellerId s.orders).length ∧
      stats.totalRevenue = .num (paidSum (scannedOrders resellerId s.orders) "totalAmount") ∧
      stats.totalCommission
        = .num (paidSum (scannedOrders resellerId s.orders) "totalCommission") := by
  rw [getOrderStatistics_run resellerId s hreach]
  exact ⟨_, rfl, rfl,
    sumPaid_eq_paidSum "totalAmount" _ hamount hrevenue,
    sumPaid_eq_paidSum "totalCommission" _ hcommission hpaidout⟩

/-- Witness of C5, amended: of the orders of reseller `r1`, with amounts 100 (paid), 50
(waiting for payment) and 200 (paid), and one paid order of another reseller,
the scan for `r1` gives a revenue of 300 over 3 orders. -/
theorem getOrderStatistics_revenue_witness :
    ∃ stats, (getOrderStatistics (some "r1")
        ⟨[("o1", [("resellerId", .str "r1"), ("totalAmount", .num 100),
            ("paymentStatus", .str "paid")]),
          ("o2", [("resellerId", .str "r1"), ("totalAmount", .num 50),
            ("paymentStatus", .str "waiting_payment"), ("status", .str "pending")]),
          ("o3", [("resellerId", .str "r2"), ("totalAmount", .num 7000),
            ("paymentStatus", .str "paid")]),
          ("o4", [("resellerId", .str "r1"), ("totalAmount", .num 200),
            ("paymentStatus", .str "paid")])],
         [], [], [], 0, []⟩).1 = .ok stats ∧
      stats.total = 3 ∧ stats.totalRevenue = .num 300 ∧ stats.totalCommission = .num 0 := by
  obtain ⟨stats, h1, h2, h3, h4⟩ := getOrderStatistics_revenue (some "r1")
    ⟨[("o1", [("resellerId", .str "r1"), ("totalAmount", .num 100),
        ("paymentStatus", .str "paid")]),
      ("o2", [("resellerId", .str "r1"), ("totalAmount", .num 50),
        ("paymentStatus", .str "waiting_payment"), ("status", .str "pending")]),
      ("o3", [("resellerId", .str "r2"), ("totalAmount", .num 7000),
        ("paymentStatus", .str "paid")]),
      ("o4", [("resellerId", .str "r1"), ("totalAmount", .num 200),
        ("paymentStatus", .str "paid")])],
     [], [], [], 0, []⟩
    rfl
    (by
      intro o ho _
      have hmem : o ∈ [[("resellerId", Val.str "r1"), ("totalAmount", Val.num 100),
            ("paymentStatus", Val.str "paid")],
          [("resellerId", Val.str "r1"), ("totalAmount", Val.num 50),
            ("paymentStatus", Val.str "waiting_payment"), ("status", Val.str "pending")],
          [("resellerId", Val.str "r1"), ("totalAmount", Val.num 200),
            ("paymentStatus", Val.str "paid")]] := ho
      simp only [List.mem_cons, List.mem_singleton, List.not_mem_nil, or_false] at hmem
      rcases hmem with h | h | h
      · exact Or.inl ⟨100, by rw [h]; rfl⟩
      · exact Or.inl ⟨50, by rw [h]; rfl⟩
      · exact Or.inl ⟨200, by rw [h]; rfl⟩)
    (by
      intro o ho _
      have hmem : o ∈ [[("resellerId", Val.str "r1"), ("totalAmount", Val.num 100),
            ("paymentStatus", Val.str "paid")],
          [("resellerId", Val.str "r1"), ("totalAmount", Val.num 50),
            ("paymentStatus", Val.str "waiting_payment"), ("status", Val.str "pending")],
          [("resellerId", Val.str "r1"), ("totalAmount", Val.num 200),
            ("paymentStatus", Val.str "paid")]] := ho
      simp only [List.mem_cons, List.mem_singleton, List.not_mem_nil, or_false] at hmem
      rcases hmem with h | h | h <;> exact Or.inr (by rw [h]; rfl))
    (by decide) (by decide)
  exact ⟨stats, h1, h2, h3, h4⟩

/-- C6, counterexample: the shipped-with-shipment call whose `additionalData`
also carries `status: 'cancelled'` succeeds and creates the shipment, but the
status it stores for the order is `cancelled`, not `shipped`. -/
theorem updateOrderStatus_shipment_status_overridden :
    (updateOrderStatus sampleClient "ORD1" "shipped" ""
      [("createShipment", .bool true), ("status", .str "cancelled")]
      (sampleStore "confirmed")).1 = .ok () ∧
    (updateOrderStatus sampleClient "ORD1" "shipped" ""
      [("createShipment", .bool true), ("status", .str "cancelled")]
      (sampleStore "confirmed")).2.shipments.length = 1 ∧
    (updateOrderStatus sampleClient "ORD1" "shipped" ""
      [("createShipment", .bool true), ("status", .str "cancelled")]
      (sampleStore "confirmed")).2.orderStatus "ORD1" = some (.str "cancelled") ∧
    (updateOrderStatus sampleClient "ORD1" "shipped" ""
      [("createShipment", .bool true), ("status", .str "cancelled")]
      (sampleStore "confirmed")).2.orderStatus "ORD1" ≠ some (.str "shipped") :=
  ⟨rfl, rfl, rfl, by
    have h : (updateOrderStatus sampleClient "ORD1" "shipped" ""
        [("createShipment", .bool true), ("status", .str "cancelled")]
        (sampleStore "confirmed")).2.orderStatus "ORD1" = some (.str "cancelled") := rfl
    rw [h]
    simp⟩

/-- C6, amended: for an existing order with a non-empty id `X`,
`updateOrderStatus(X, 'shipped', msg, additionalData)` with
`additionalData.createShipment` set, no `status` key in `additionalData` and
all store calls succeeding returns success and creates exactly one shipment;
that shipment has `orderId` `X`, status `preparing`, `actualDelivery` `null`
and a non-empty generated tracking number, and afterwards the order's
`trackingNumber` equals the shipment's and the order's status is `shipped`. -/
theorem updateOrderStatus_creates_shipment (cl : Client) (s : Store)
    (orderId adminMessage : String) (additionalData o : Doc)
    (hfind : s.orders.find? orderId = some o) (hid : orderId ≠ "")
    (hflag : (additionalData.get "createShipment").truthy = true)
    (hnone : additionalData.find? "status" = none) (hrel : s.reliable) :
    (updateOrderStatus cl orderId "shipped" adminMessage additionalData s).1 = .ok () ∧
    generateTrackingNumber cl ≠ "" ∧
    (∃ shipment,
      (updateOrderStatus cl orderId "shipped" adminMessage additionalData s).2.shipments =
        s.shipments ++ [("auto" ++ toString (s.clock + 1), shipment)] ∧
      shipment.get "orderId" = .str orderId ∧
      shipment.get "status" = .str "preparing" ∧
      shipment.get "actualDelivery" = .null ∧
      shipment.get "trackingNumber" = .str (generateTrackingNumber cl)) ∧
    (∃ o1,
      (updateOrderStatus cl orderId "shipped" adminMessage additionalData s).2.orders.find?
        orderId = some o1 ∧
      o1.get "trackingNumber" = .str (generateTrackingNumber cl) ∧
      o1.get "status" = .str "shipped") := by
  obtain ⟨g1, g2, g3, g4⟩ := shipmentOf_order cl orderId o additionalData hid
  have hnds := shipmentOf_keys_nodup cl (shipmentOrderData orderId o additionalData)
    (shippingDataOf additionalData)
  have hnd := statusUpdateData_keys_nodup "shipped" adminMessage additionalData
  have hst := statusUpdateData_status "shipped" adminMessage additionalData hnone
  have htruthy : ((shipmentOf cl (shipmentOrderData orderId o additionalData)
      (shippingDataOf additionalData)).get "orderId").truthy = true := by
    rw [g1]; simp [Val.truthy, hid]
  have hrun : updateOrderStatus cl orderId "shipped" adminMessage additionalData s =
      writeAndLog orderId "shipped" adminMessage
        ((statusUpdateData "shipped" adminMessage additionalData).set "trackingNumber"
          (.str (generateTrackingNumber cl)))
        ((s.tick.setColl .shipments (s.shipments ++
          [("auto" ++ toString (s.clock + 1),
            resolveWrite (s.clock + 1) (shipmentOf cl
              (shipmentOrderData orderId o additionalData)
              (shippingDataOf additionalData)))])).tick) := by
    unfold updateOrderStatus
    simp only [hflag, beq_self_eq_true, Bool.and_self, if_true]
    rw [getDoc_of_reachable s (s.reachable_of_reliable hrel)]
    simp only [Store.coll_orders, hfind]
    rw [createShipmentFromOrder_run cl _ _ s.tick htruthy (s.reachable_tick_of_reliable hrel)]
    simp only [g2, Store.tick_shipments, Store.tick_clock]
  have hfind2 : ((s.tick.setColl .shipments (s.shipments ++
      [("auto" ++ toString (s.clock + 1),
        resolveWrite (s.clock + 1) (shipmentOf cl
          (shipmentOrderData orderId o additionalData)
          (shippingDataOf additionalData)))])).tick).orders.find? orderId = some o := by
    simpa using hfind
  have hrel2 : ((s.tick.setColl .shipments (s.shipments ++
      [("auto" ++ toString (s.clock + 1),
        resolveWrite (s.clock + 1) (shipmentOf cl
          (shipmentOrderData orderId o additionalData)
          (shippingDataOf additionalData)))])).tick).reliable :=
    Store.tick_reliable _ (Store.setColl_reliable _ _ _ (Store.tick_reliable _ hrel))
  obtain ⟨w1, w2, w3, _⟩ := writeAndLog_effect _ orderId "shipped" adminMessage
    ((statusUpdateData "shipped" adminMessage additionalData).set "trackingNumber"
      (.str (generateTrackingNumber cl))) o hfind2 hrel2
  have hnd1 := Doc.keys_set_nodup _ "trackingNumber"
    (.str (generateTrackingNumber cl)) hnd
  rw [hrun]
  refine ⟨w1, generateTrackingNumber_ne_empty cl,
    ⟨resolveWrite (s.clock + 1) (shipmentOf cl (shipmentOrderData orderId o additionalData)
      (shippingDataOf additionalData)), ?_, ?_, ?_, ?_, ?_⟩, ⟨_, w2, ?_, ?_⟩⟩
  · rw [w3]; simp
  · rw [resolveWrite_get _ _ hnds, g1]; rfl
  · rw [resolveWrite_get _ _ hnds, g3]; rfl
  · rw [resolveWrite_get _ _ hnds, g4]; rfl
  · rw [resolveWrite_get _ _ hnds, g2]; rfl
  · have h := Doc.get_spread_resolveWrite o _ ((s.tick.setColl .shipments (s.shipments ++
      [("auto" ++ toString (s.clock + 1),
        resolveWrite (s.clock + 1) (shipmentOf cl
          (shipmentOrderData orderId o additionalData)
          (shippingDataOf additionalData)))])).tick).clock "trackingNumber"
        (.str (generateTrackingNumber cl)) hnd1
        (by rw [Doc.get_set, if_pos rfl]) (by simp [Val.resolve])
    simpa [Val.resolve] using h
  · exact status_after_write o _ _ "shipped" hnd1
      (by rw [Doc.get_set, if_neg (by decide)]; exact hst)

/-- Witness of C6, amended: shipping the confirmed order `ORD1` with a shipment. -/
theorem updateOrderStatus_creates_shipment_witness :
    (updateOrderStatus sampleClient "ORD1" "shipped" "" [("createShipment", .bool true)]
      (sampleStore "confirmed")).1 = .ok () ∧
    generateTrackingNumber sampleClient = "SHIP2025123456K3J9" ∧
    (updateOrderStatus sampleClient "ORD1" "shipped" "" [("createShipment", .bool true)]
      (sampleStore "confirmed")).2.orderStatus "ORD1" = some (.str "shipped") :=
  ⟨(updateOrderStatus_creates_shipment sampleClient (sampleStore "confirmed") "ORD1" ""
      [("createShipment", .bool true)]
      [("orderNumber", .str "ORD123ABC"), ("resellerId", .str "r1"),
        ("status", .str "confirmed"), ("paymentStatus", .str "paid"),
        ("totalAmount", .num 100)]
      rfl (by decide) rfl rfl rfl).1, by decide, rfl⟩

/-- C7, counterexample: `updateOrderStatus` moves a `completed` order to
`cancelled`, and a `pending` order straight to `completed`. -/
theorem updateOrderStatus_unchecked_transition :
    (updateOrderStatus sampleClient "ORD1" "cancelled" "" [] (sampleStore "completed")).1
      = .ok () ∧
    (sampleStore "completed").orderStatus "ORD1" = some (.str "completed") ∧
    (updateOrderStatus sampleClient "ORD1" "cancelled" "" []
      (sampleStore "completed")).2.orderStatus "ORD1" = some (.str "cancelled") ∧
    (updateOrderStatus sampleClient "ORD1" "completed" "" [] (sampleStore "pending")).1
      = .ok () ∧
    (sampleStore "pending").orderStatus "ORD1" = some (.str "pending") ∧
    (updateOrderStatus sampleClient "ORD1" "completed" "" []
      (sampleStore "pending")).2.orderStatus "ORD1" = some (.str "completed") :=
  ⟨rfl, rfl, rfl, rfl, rfl, rfl⟩

/-- C7, amended: `updateOrderStatus` does not check the transition. For every
existing order, whatever its current status, and every requested status, a
call whose `additionalData` carries no `status` key and whose store calls
succeed returns success and stores the requested status. -/
theorem updateOrderStatus_stores_requested (cl : Client) (s : Store)
    (orderId status adminMessage : String) (additionalData o : Doc)
    (hfind : s.orders.find? orderId = some o)
    (hnone : additionalData.find? "status" = none) (hrel : s.reliable) :
    (updateOrderStatus cl orderId status adminMessage additionalData s).1 = .ok () ∧
    (updateOrderStatus cl orderId status adminMessage additionalData s).2.orderStatus orderId
      = some (.str status) := by
  have hnd := statusUpdateData_keys_nodup status adminMessage additionalData
  have hst := statusUpdateData_status status adminMessage additionalData hnone
  have hplain : ∀ s1 : Store, s1.orders = s.orders → s1.reliable → ∀ fields : Doc,
      fields.keys.Nodup → fields.get "status" = .str status →
      (writeAndLog orderId status adminMessage fields s1).1 = .ok () ∧
      (writeAndLog orderId status adminMessage fields s1).2.orderStatus orderId
        = some (.str status) := by
    intro s1 ho hr1 fields hfn hfs
    have hfind1 : s1.orders.find? orderId = some o := by rw [ho]; exact hfind
    obtain ⟨h1, h2, _, _⟩ := writeAndLog_effect s1 orderId status adminMessage fields o hfind1 hr1
    refine ⟨h1, ?_⟩
    simp [Store.orderStatus, h2, status_after_write o fields s1.clock status hfn hfs]
  unfold updateOrderStatus
  simp only []
  split
  · rw [getDoc_of_reachable s (s.reachable_of_reliable hrel)]
    simp only [Store.coll_orders, hfind]
    obtain ⟨hso, _, hsf⟩ := createShipmentFromOrder_frame cl
      (shipmentOrderData orderId o additionalData) (shippingDataOf additionalData) s.tick
    cases hcs : createShipmentFromOrder cl (shipmentOrderData orderId o additionalData)
      (shippingDataOf additionalData) s.tick with
    | mk res s2 =>
      rw [hcs] at hso hsf
      have hs2o : s2.orders = s.orders := by simpa using hso
      have hs2r : s2.reliable := by
        have : s2.failing = s.failing := by simpa using hsf
        exact this.trans hrel
      cases res with
      | error e => exact hplain s2 hs2o hs2r _ hnd hst
      | ok shipmentResult =>
        exact hplain s2 hs2o hs2r _ (Doc.keys_set_nodup _ _ _ hnd)
          (by rw [Doc.get_set, if_neg (by decide)]; exact hst)
  · exact hplain s rfl hrel _ hnd hst

/-- Witness of C7, amended: a `completed` order is moved to `cancelled`. -/
theorem updateOrderStatus_stores_requested_witness :
    (updateOrderStatus sampleClient "ORD1" "cancelled" "" []
      (sampleStore "completed")).2.orderStatus "ORD1" = some (.str "cancelled") :=
  (updateOrderStatus_stores_requested sampleClient (sampleStore "completed") "ORD1"
    "cancelled" "" []
    [("orderNumber", .str "ORD123ABC"), ("resellerId", .str "r1"),
      ("status", .str "completed"), ("paymentStatus", .str "paid"), ("totalAmount", .num 100)]
    rfl rfl rfl).2

/-- C8, counterexample: the second confirmation of the same order by its owner
is not rejected; it returns success, stamps `actualDelivery` again (server time
4 after server time 1) and appends a second `completed` log entry. -/
theorem confirmOrderReceived_second_not_rejected :
    (confirmTwice "ORD1" "r1" "" "" (sampleStore "shipped")).1 = .ok () ∧
    ((confirmOrderReceived "ORD1" "r1" "" (sampleStore "shipped")).2.orders.find? "ORD1").map
      (fun o => o.get "actualDelivery") = some (.timestamp 1) ∧
    ((confirmTwice "ORD1" "r1" "" "" (sampleStore "shipped")).2.orders.find? "ORD1").map
      (fun o => o.get "actualDelivery") = some (.timestamp 4) ∧
    (confirmTwice "ORD1" "r1" "" "" (sampleStore "shipped")).2.orderStatusLogs =
      [("auto2", [("orderId", .str "ORD1"), ("status", .str "completed"),
         ("message", .str "Order confirmed as received by reseller"),
         ("actionBy", .str "reseller_r1"), ("timestamp", .timestamp 2)]),
       ("auto5", [("orderId", .str "ORD1"), ("status", .str "completed"),
         ("message", .str "Order confirmed as received by reseller"),
         ("actionBy", .str "reseller_r1"), ("timestamp", .timestamp 5)])] :=
  ⟨rfl, rfl, rfl, rfl⟩

/-- C8, amended: for every order owned by reseller `r`, two calls of
`confirmOrderReceived` by `r` in a row whose store calls succeed both return
success and leave the status `completed` after each call; the second call is
not rejected: it stamps `actualDelivery` anew and appends a second `completed`
log entry, so that two log entries exist for the confirmation. -/
theorem confirmOrderReceived_twice (s : Store) (orderId resellerId first second : String)
    (o : Doc) (hfind : s.orders.find? orderId = some o)
    (howner : o.get "resellerId" = .str resellerId) (hrel : s.reliable) :
    (confirmOrderReceived orderId resellerId first s).1 = .ok () ∧
    (confirmOrderReceived orderId resellerId first s).2.orderStatus orderId
      = some (.str "completed") ∧
    ((confirmOrderReceived orderId resellerId first s).2.orders.find? orderId).map
      (fun d => d.get "actualDelivery") = some (.timestamp (s.clock + 1)) ∧
    (confirmTwice orderId resellerId first second s).1 = .ok () ∧
    (confirmTwice orderId resellerId first second s).2.orderStatus orderId
      = some (.str "completed") ∧
    ((confirmTwice orderId resellerId first second s).2.orders.find? orderId).map
      (fun d => d.get "actualDelivery") = some (.timestamp (s.clock + 4)) ∧
    (confirmTwice orderId resellerId first second s).2.orderStatusLogs =
      s.orderStatusLogs ++
        [("auto" ++ toString (s.clock + 2),
          [("orderId", .str orderId), ("status", .str "completed"),
           ("message", .str "Order confirmed as received by reseller"),
           ("actionBy", .str ("reseller_" ++ resellerId)),
           ("timestamp", .timestamp (s.clock + 2))]),
         ("auto" ++ toString (s.clock + 5),
          [("orderId", .str orderId), ("status", .str "completed"),
           ("message", .str "Order confirmed as received by reseller"),
           ("actionBy", .str ("reseller_" ++ resellerId)),
           ("timestamp", .timestamp (s.clock + 5))])] := by
  obtain ⟨a1, a2, a3, a4, a5⟩ :=
    confirmOrderReceived_state s orderId resellerId first o hfind howner hrel
  have howner1 : (Doc.spread o
      [("status", .str "completed"),
       ("resellerConfirmation", .bool true),
       ("actualDelivery", .timestamp (s.clock + 1)),
       ("adminMessage", Val.or (.str first)
          (.str "Pesanan telah dikonfirmasi diterima oleh reseller")),
       ("updatedAt", .timestamp (s.clock + 1))]).get "resellerId" = .str resellerId := by
    simp [Doc.spread, Doc.get_set, howner]
  obtain ⟨b1, _, _, b4, b5⟩ :=
    confirmOrderReceived_state (confirmOrderReceived orderId resellerId first s).2
      orderId resellerId second _ a4 howner1 a2
  refine ⟨a1, ?_, ?_, b1, ?_, ?_, ?_⟩
  · simp [Store.orderStatus, a4, Doc.spread, Doc.get_set]
  · simp [a4, Doc.spread, Doc.get_set]
  · simp [confirmTwice, Store.orderStatus, b4, Doc.spread, Doc.get_set]
  · simp [confirmTwice, b4, a3, Doc.spread, Doc.get_set]
  · simp [confirmTwice, b5, a5, a3, List.append_assoc]

/-- Witness of C8, amended: the shipped order `ORD1`, confirmed twice by `r1`. -/
theorem confirmOrderReceived_twice_witness :
    (confirmTwice "ORD1" "r1" "" "" (sampleStore "shipped")).1 = .ok () ∧
    (confirmTwice "ORD1" "r1" "" "" (sampleStore "shipped")).2.orderStatus "ORD1"
      = some (.str "completed") :=
  ⟨(confirmOrderReceived_twice (sampleStore "shipped") "ORD1" "r1" "" ""
      [("orderNumber", .str "ORD123ABC"), ("resellerId", .str "r1"),
        ("status", .str "shipped"), ("paymentStatus", .str "paid"), ("totalAmount", .num 100)]
      rfl rfl rfl).2.2.2.1,
   (confirmOrderReceived_twice (sampleStore "shipped") "ORD1" "r1" "" ""
      [("orderNumber", .str "ORD123ABC"), ("resellerId", .str "r1"),
        ("status", .str "shipped"), ("paymentStatus", .str "paid"), ("totalAmount", .num 100)]
      rfl rfl rfl).2.2.2.2.1⟩

/-- C9, counterexample: on a store that rejects the third call, the write of
the log entry, `confirmOrderReceived` by the owner returns success and sets the
status to `completed`, and no log entry is appended. -/
theorem confirmOrderReceived_success_without_log :
    (confirmOrderReceived "ORD1" "r1" "diterima"
      ⟨(sampleStore "shipped").orders, [], [], [], 0, [2]⟩).1 = .ok () ∧
    (confirmOrderReceived "ORD1" "r1" "diterima"
      ⟨(sampleStore "shipped").orders, [], [], [], 0, [2]⟩).2.orderStatus "ORD1"
      = some (.str "completed") ∧
    (confirmOrderReceived "ORD1" "r1" "diterima"
      ⟨(sampleStore "shipped").orders, [], [], [], 0, [2]⟩).2.orderStatusLogs = [] :=
  ⟨rfl, rfl, rfl⟩

/-- C9, amended: for every existing order owned by reseller `r`, a `confirmOrderReceived`
by `r` whose store calls succeed returns success, sets the status of the order
to `completed` and `resellerConfirmation` to `true`, stamps `actualDelivery`
with the server time of the write, leaves every field other than `status`,
`resellerConfirmation`, `actualDelivery`, `adminMessage` and `updatedAt`
unchanged -- in particular `paymentStatus`, `products`, `totalAmount` and
`trackingNumber` -- and appends exactly one log entry, with status `completed`
and actor `reseller_` followed by `r`. -/
theorem confirmOrderReceived_success (s : Store) (orderId resellerId message : String)
    (o : Doc) (hfind : s.orders.find? orderId = some o)
    (howner : o.get "resellerId" = .str resellerId) (hrel : s.reliable) :
    (confirmOrderReceived orderId resellerId message s).1 = .ok () ∧
    (∃ o1, (confirmOrderReceived orderId resellerId message s).2.orders.find? orderId = some o1 ∧
      o1.get "status" = .str "completed" ∧
      o1.get "resellerConfirmation" = .bool true ∧
      o1.get "actualDelivery" = .timestamp (s.clock + 1) ∧
      o1.get "paymentStatus" = o.get "paymentStatus" ∧
      o1.get "products" = o.get "products" ∧
      o1.get "totalAmount" = o.get "totalAmount" ∧
      o1.get "trackingNumber" = o.get "trackingNumber" ∧
      ∀ key, key ∉ ["status", "resellerConfirmation", "actualDelivery", "adminMessage",
        "updatedAt"] → o1.get key = o.get key) ∧
    (confirmOrderReceived orderId resellerId message s).2.orderStatusLogs =
      s.orderStatusLogs ++ [("auto" ++ toString (s.clock + 2),
        [("orderId", .str orderId), ("status", .str "completed"),
         ("message", .str "Order confirmed as received by reseller"),
         ("actionBy", .str ("reseller_" ++ resellerId)),
         ("timestamp", .timestamp (s.clock + 2))])] := by
  rw [confirmOrderReceived_run s orderId resellerId message o hfind howner hrel]
  have hr2 : ((s.tick.setColl .orders (s.orders.modify orderId (fun d => Doc.spread d
      [("status", .str "completed"),
       ("resellerConfirmation", .bool true),
       ("actualDelivery", .timestamp (s.clock + 1)),
       ("adminMessage", Val.or (.str message)
          (.str "Pesanan telah dikonfirmasi diterima oleh reseller")),
       ("updatedAt", .timestamp (s.clock + 1))]))).tick).reachable = true :=
    Store.reachable_of_reliable _
      (Store.tick_reliable _ (Store.setColl_reliable _ _ _ (Store.tick_reliable _ hrel)))
  have hframe : ∀ key, key ∉ ["status", "resellerConfirmation", "actualDelivery",
      "adminMessage", "updatedAt"] →
      (Doc.spread o
        [("status", .str "completed"),
         ("resellerConfirmation", .bool true),
         ("actualDelivery", .timestamp (s.clock + 1)),
         ("adminMessage", Val.or (.str message)
            (.str "Pesanan telah dikonfirmasi diterima oleh reseller")),
         ("updatedAt", .timestamp (s.clock + 1))]).get key = o.get key := by
    intro key hkey
    simp only [List.mem_cons, List.mem_singleton, List.not_mem_nil, or_false, not_or] at hkey
    obtain ⟨h1, h2, h3, h4, h5⟩ := hkey
    simp [Doc.spread, Doc.get_set, h1, h2, h3, h4, h5]
  refine ⟨rfl, ⟨_, ?_, ?_, ?_, ?_, ?_, ?_, ?_, ?_, hframe⟩, ?_⟩
  · rw [(createOrderStatusLog_frame _ _ _ _ _).1]
    simp [Coll.find?_modify_self, hfind]
  · simp [Doc.spread, Doc.get_set]
  · simp [Doc.spread, Doc.get_set]
  · simp [Doc.spread, Doc.get_set]
  · exact hframe _ (by decide)
  · exact hframe _ (by decide)
  · exact hframe _ (by decide)
  · exact hframe _ (by decide)
  · simp [createOrderStatusLog_of_reachable _ _ _ _ _ hr2]

/-- Witness of C9, amended: reseller `r1` confirms the shipped order `o1`. -/
theorem confirmOrderReceived_success_witness :
    (confirmOrderReceived "o1" "r1" ""
      ⟨[("o1", [("resellerId", .str "r1"), ("status", .str "shipped"),
          ("totalAmount", .num 100)])], [], [], [], 0, []⟩).2.orderStatusLogs =
      [("auto2", [("orderId", .str "o1"), ("status", .str "completed"),
         ("message", .str "Order confirmed as received by reseller"),
         ("actionBy", .str "reseller_r1"), ("timestamp", .timestamp 2)])] :=
  (confirmOrderReceived_success
    ⟨[("o1", [("resellerId", .str "r1"), ("status", .str "shipped"),
        ("totalAmount", .num 100)])], [], [], [], 0, []⟩ "o1" "r1" ""
    [("resellerId", .str "r1"), ("status", .str "shipped"), ("totalAmount", .num 100)]
    rfl rfl rfl).2.2

/-- C10: for every `orderData` in which each of `id`, `_id` and `orderId` is
missing or empty, and every `shippingData`, `createShipmentFromOrder` returns
the failure `Order ID is required but not found in orderData` and leaves the
store as it was: no shipment is inserted. -/
theorem createShipmentFromOrder_missing_order_id (cl : Client) (orderData shippingData : Doc)
    (s : Store)
    (hid : orderData.get "id" = .undefined ∨ orderData.get "id" = .str "")
    (huid : orderData.get "_id" = .undefined ∨ orderData.get "_id" = .str "")
    (horderId : orderData.get "orderId" = .undefined ∨ orderData.get "orderId" = .str "") :
    createShipmentFromOrder cl orderData shippingData s =
      (.error "Order ID is required but not found in orderData", s) := by
  have h1 : (orderData.get "id").truthy = false := by
    rcases hid with h | h <;> simp [h, Val.truthy]
  have h2 : (orderData.get "_id").truthy = false := by
    rcases huid with h | h <;> simp [h, Val.truthy]
  have h3 : (orderData.get "orderId").truthy = false := by
    rcases horderId with h | h <;> simp [h, Val.truthy]
  have hget : (shipmentOf cl orderData shippingData).get "orderId" =
      Val.or (Val.or (orderData.get "id") (orderData.get "_id")) (orderData.get "orderId") := by
    simp [shipmentOf, Doc.get, Doc.find?]
  simp [createShipmentFromOrder, hget, Val.or, h1, h2, h3]

/-- Witness of C10: order data that carries only an order number. -/
theorem createShipmentFromOrder_missing_order_id_witness :
    createShipmentFromOrder ⟨1700000123456, 2025, "0.k3j9x2p"⟩
      [("orderNumber", .str "ORD123ABC"), ("orderId", .str "")] [("courier", .str "JNE")]
      ⟨[], [], [], [], 0, []⟩ =
      (.error "Order ID is required but not found in orderData", ⟨[], [], [], [], 0, []⟩) :=
  createShipmentFromOrder_missing_order_id ⟨1700000123456, 2025, "0.k3j9x2p"⟩
    [("orderNumber", .str "ORD123ABC"), ("orderId", .str "")] [("courier", .str "JNE")]
    ⟨[], [], [], [], 0, []⟩ (Or.inl rfl) (Or.inl rfl) (Or.inr rfl)

/-- C11, counterexample: shipping data that supplies a cost of `0` and empty
notes does not win over the order data: the shipment created carries the
order's shipping cost `15000` and the order's notes. -/
theorem createShipmentFromOrder_falsy_not_taken :
    Doc.find? [("cost", .num 0), ("notes", .str "")] "cost" = some (.num 0) ∧
    Doc.find? [("cost", .num 0), ("notes", .str "")] "notes" = some (.str "") ∧
    (createShipmentFromOrder sampleClient
      [("id", .str "ORD1"), ("shippingCost", .num 15000), ("notes", .str "fragile")]
      [("cost", .num 0), ("notes", .str "")] (sampleStore "confirmed")).1.isOk = true ∧
    ((createShipmentFromOrder sampleClient
      [("id", .str "ORD1"), ("shippingCost", .num 15000), ("notes", .str "fragile")]
      [("cost", .num 0), ("notes", .str "")] (sampleStore "confirmed")).2.shipments.find?
        "auto0").map (fun shipment => shipment.get "cost") = some (.num 15000) ∧
    ((createShipmentFromOrder sampleClient
      [("id", .str "ORD1"), ("shippingCost", .num 15000), ("notes", .str "fragile")]
      [("cost", .num 0), ("notes", .str "")] (sampleStore "confirmed")).2.shipments.find?
        "auto0").map (fun shipment => shipment.get "notes") = some (.str "fragile") :=
  ⟨rfl, rfl, rfl, rfl, rfl⟩

/-- C11, amended: for every `orderData` carrying an order id and every
`shippingData`, when the insert reaches the store the shipment created by
`createShipmentFromOrder` is the write of the assembled shipment, whose
`courier`, `service`, `cost` and `notes` are taken from `shippingData` whenever
the value there is truthy; a missing or falsy value there (a cost of `0`, empty
notes) falls back to the truthy value of `orderData` (`courier`,
`shippingCost`, `notes`; none for `service`) and then to the default (`JNE`,
`REG`, `0`, the empty text). -/
theorem createShipmentFromOrder_merge (cl : Client) (orderData shippingData : Doc) (s : Store)
    (hid : (orderData.get "id").truthy = true) (hr : s.reachable = true) :
    (createShipmentFromOrder cl orderData shippingData s).1.isOk = true ∧
    (createShipmentFromOrder cl orderData shippingData s).2.shipments =
      s.shipments ++ [("auto" ++ toString s.clock,
        resolveWrite s.clock (shipmentOf cl orderData shippingData))] ∧
    (shipmentOf cl orderData shippingData).get "courier" =
      (if (shippingData.get "courier").truthy = true then shippingData.get "courier"
       else if (orderData.get "courier").truthy = true then orderData.get "courier"
       else .str "JNE") ∧
    (shipmentOf cl orderData shippingData).get "service" =
      (if (shippingData.get "service").truthy = true then shippingData.get "service"
       else .str "REG") ∧
    (shipmentOf cl orderData shippingData).get "cost" =
      (if (shippingData.get "cost").truthy = true then shippingData.get "cost"
       else if (orderData.get "shippingCost").truthy = true then orderData.get "shippingCost"
       else .num 0) ∧
    (shipmentOf cl orderData shippingData).get "notes" =
      (if (shippingData.get "notes").truthy = true then shippingData.get "notes"
       else if (orderData.get "notes").truthy = true then orderData.get "notes"
       else .str "") := by
  obtain ⟨m1, m2, m3, m4⟩ := shipmentOf_merged cl orderData shippingData
  have htruthy : ((shipmentOf cl orderData shippingData).get "orderId").truthy = true := by
    rw [shipmentOf_orderId]
    simp [Val.or, hid]
  rw [createShipmentFromOrder_run cl orderData shippingData s htruthy hr]
  refine ⟨rfl, by simp, ?_, ?_, ?_, ?_⟩
  · rw [m1, Val.or_eq_ite, Val.or_eq_ite]
    by_cases h1 : (shippingData.get "courier").truthy = true
    · simp [h1]
    · simp [h1]
  · rw [m2, Val.or_eq_ite]
  · rw [m3, Val.or_eq_ite, Val.or_eq_ite]
    by_cases h1 : (shippingData.get "cost").truthy = true
    · simp [h1]
    · simp [h1]
  · rw [m4, Val.or_eq_ite, Val.or_eq_ite]
    by_cases h1 : (shippingData.get "notes").truthy = true
    · simp [h1]
    · simp [h1]

/-- Witness of C11, amended: a supplied courier is taken, a supplied cost of
`0` is not. -/
theorem createShipmentFromOrder_merge_witness :
    (shipmentOf sampleClient
      [("id", .str "ORD1"), ("shippingCost", .num 15000)]
      [("courier", .str "SiCepat"), ("cost", .num 0)]).get "courier" = .str "SiCepat" ∧
    (shipmentOf sampleClient
      [("id", .str "ORD1"), ("shippingCost", .num 15000)]
      [("courier", .str "SiCepat"), ("cost", .num 0)]).get "cost" = .num 15000 :=
  ⟨(createShipmentFromOrder_merge sampleClient
      [("id", .str "ORD1"), ("shippingCost", .num 15000)]
      [("courier", .str "SiCepat"), ("cost", .num 0)] (sampleStore "confirmed")
      rfl rfl).2.2.1,
   (createShipmentFromOrder_merge sampleClient
      [("id", .str "ORD1"), ("shippingCost", .num 15000)]
      [("courier", .str "SiCepat"), ("cost", .num 0)] (sampleStore "confirmed")
      rfl rfl).2.2.2.2.1⟩

/-- C12, counterexample: the store rejects the shipment insert (tick 1) of a
shipped-with-shipment call whose `additionalData` also carries
`status: 'cancelled'`; the call returns success and no shipment exists, but
the status written to the order is `cancelled`, not `shipped`. -/
theorem updateOrderStatus_absorbed_status_overridden :
    (updateOrderStatus sampleClient "ORD1" "shipped" ""
      [("createShipment", .bool true), ("status", .str "cancelled")]
      { sampleStore "confirmed" with failing := [1] }).1 = .ok () ∧
    (updateOrderStatus sampleClient "ORD1" "shipped" ""
      [("createShipment", .bool true), ("status", .str "cancelled")]
      { sampleStore "confirmed" with failing := [1] }).2.shipments = [] ∧
    (updateOrderStatus sampleClient "ORD1" "shipped" ""
      [("createShipment", .bool true), ("status", .str "cancelled")]
      { sampleStore "confirmed" with failing := [1] }).2.orderStatus "ORD1"
        = some (.str "cancelled") ∧
    (updateOrderStatus sampleClient "ORD1" "shipped" ""
      [("createShipment", .bool true), ("status", .str "cancelled")]
      { sampleStore "confirmed" with failing := [1] }).2.orderStatus "ORD1"
        ≠ some (.str "shipped") :=
  ⟨rfl, rfl, rfl, by
    have h : (updateOrderStatus sampleClient "ORD1" "shipped" ""
        [("createShipment", .bool true), ("status", .str "cancelled")]
        { sampleStore "confirmed" with failing := [1] }).2.orderStatus "ORD1"
          = some (.str "cancelled") := rfl
    rw [h]
    simp⟩

/-- C12, amended: for every existing order (with a non-empty id), if
`updateOrderStatus(orderId, 'shipped', msg, additionalData)` is called with
`additionalData.createShipment` set and no `status` key in `additionalData`,
and the store rejects the shipment insert and no other call, then the call
returns success, writes `updateData` without a shipment's tracking number to
the order -- the stored status is `shipped`, and `trackingNumber` is unchanged
unless `additionalData` names it --, appends the status log entry, and leaves
the shipments as they were. -/
theorem updateOrderStatus_absorbs_shipment_failure (cl : Client) (s : Store)
    (orderId adminMessage : String) (additionalData o : Doc)
    (hfind : s.orders.find? orderId = some o) (hid : orderId ≠ "")
    (hflag : (additionalData.get "createShipment").truthy = true)
    (hnone : additionalData.find? "status" = none)
    (hfail : s.failing = [s.clock + 1]) :
    (updateOrderStatus cl orderId "shipped" adminMessage additionalData s).1 = .ok () ∧
    (updateOrderStatus cl orderId "shipped" adminMessage additionalData s).2.shipments
      = s.shipments ∧
    (updateOrderStatus cl orderId "shipped" adminMessage additionalData s).2.orders.find? orderId
      = some (Doc.spread o (resolveWrite (s.clock + 2)
          (statusUpdateData "shipped" adminMessage additionalData))) ∧
    (updateOrderStatus cl orderId "shipped" adminMessage additionalData s).2.orderStatus orderId
      = some (.str "shipped") ∧
    (additionalData.find? "trackingNumber" = none →
      ((updateOrderStatus cl orderId "shipped" adminMessage additionalData s).2.orders.find?
        orderId).map (fun d => d.get "trackingNumber") = some (o.get "trackingNumber")) ∧
    (updateOrderStatus cl orderId "shipped" adminMessage additionalData s).2.orderStatusLogs =
      s.orderStatusLogs ++ [("auto" ++ toString (s.clock + 3),
        [("orderId", .str orderId), ("status", .str "shipped"), ("message", .str adminMessage),
         ("actionBy", .str "system"), ("timestamp", .timestamp (s.clock + 3))])] := by
  obtain ⟨g1, _, _, _⟩ := shipmentOf_order cl orderId o additionalData hid
  have htruthy : ((shipmentOf cl (shipmentOrderData orderId o additionalData)
      (shippingDataOf additionalData)).get "orderId").truthy = true := by
    rw [g1]; simp [Val.truthy, hid]
  have hr0 : s.reachable = true := by simp [Store.reachable, hfail]
  have hr1 : s.tick.reachable = false := by simp [Store.reachable, hfail]
  have hr2 : s.tick.tick.reachable = true := by simp [Store.reachable, hfail]
  have hr3 : s.tick.tick.tick.reachable = true := by
    simp only [Store.reachable, Store.tick_failing, Store.tick_clock, hfail, List.contains_cons,
      List.contains_nil, Bool.or_false, Bool.not_eq_true', beq_eq_false_iff_ne, ne_eq]
    omega
  have hcreate : createShipmentFromOrder cl (shipmentOrderData orderId o additionalData)
      (shippingDataOf additionalData) s.tick = (.error errUnavailable, s.tick.tick) := by
    simp [createShipmentFromOrder, htruthy, addDoc_of_unreachable s.tick hr1]
  have hrun : updateOrderStatus cl orderId "shipped" adminMessage additionalData s =
      writeAndLog orderId "shipped" adminMessage
        (statusUpdateData "shipped" adminMessage additionalData) s.tick.tick := by
    unfold updateOrderStatus
    simp only [hflag, beq_self_eq_true, Bool.and_self, if_true]
    rw [getDoc_of_reachable s hr0]
    simp only [Store.coll_orders, hfind, hcreate]
  have hfind2 : s.tick.tick.orders.find? orderId = some o := by simpa using hfind
  obtain ⟨w1, w2, w3, _, w5⟩ := writeAndLog_of_reachable s.tick.tick orderId "shipped"
    adminMessage (statusUpdateData "shipped" adminMessage additionalData) o hfind2 hr2 hr3
  have hnd := statusUpdateData_keys_nodup "shipped" adminMessage additionalData
  have hst := statusUpdateData_status "shipped" adminMessage additionalData hnone
  rw [hrun]
  refine ⟨w1, by simpa using w3, by simpa using w2, ?_, ?_, by simpa using w5⟩
  · simp [Store.orderStatus, w2, status_after_write o _ _ "shipped" hnd hst]
  · intro htn
    have habsent : (statusUpdateData "shipped" adminMessage additionalData).find?
        "trackingNumber" = none := by
      rw [statusUpdateData_shipped, Doc.find?_spread_of_absent _ _ _ htn]
      simp [Doc.find?]
    simp [w2, Doc.get_spread_resolveWrite_of_absent o _ _ "trackingNumber" habsent]

/-- Witness of C12, amended: the shipment insert of the confirmed order `ORD1`
is rejected at tick 1. -/
theorem updateOrderStatus_absorbs_shipment_failure_witness :
    (updateOrderStatus sampleClient "ORD1" "shipped" "" [("createShipment", .bool true)]
      { sampleStore "confirmed" with failing := [1] }).1 = .ok () ∧
    (updateOrderStatus sampleClient "ORD1" "shipped" "" [("createShipment", .bool true)]
      { sampleStore "confirmed" with failing := [1] }).2.shipments = [] :=
  ⟨(updateOrderStatus_absorbs_shipment_failure sampleClient
      { sampleStore "confirmed" with failing := [1] } "ORD1" ""
      [("createShipment", .bool true)]
      [("orderNumber", .str "ORD123ABC"), ("resellerId", .str "r1"),
        ("status", .str "confirmed"), ("paymentStatus", .str "paid"),
        ("totalAmount", .num 100)]
      rfl (by decide) rfl rfl rfl).1,
   (updateOrderStatus_absorbs_shipment_failure sampleClient
      { sampleStore "confirmed" with failing := [1] } "ORD1" ""
      [("createShipment", .bool true)]
      [("orderNumber", .str "ORD123ABC"), ("resellerId", .str "r1"),
        ("status", .str "confirmed"), ("paymentStatus", .str "paid"),
        ("totalAmount", .num 100)]
      rfl (by decide) rfl rfl rfl).2.1⟩

/-- C13, counterexample: `updatePaymentProof` and `createOrder` succeed and
mutate the orders, yet the status log stays empty: no entry is appended. -/
theorem unlogged_calls_succeed :
    (updatePaymentProof sampleClient "ORD1" "transfer" "REF1" "" (sampleStore "pending")).1
      = .ok () ∧
    (updatePaymentProof sampleClient "ORD1" "transfer" "REF1" ""
      (sampleStore "pending")).2.orders ≠ (sampleStore "pending").orders ∧
    (updatePaymentProof sampleClient "ORD1" "transfer" "REF1" ""
      (sampleStore "pending")).2.orderStatusLogs = [] ∧
    (createOrder sampleClient "r1" [("totalAmount", .num 100)] (sampleStore "pending")).1.isOk
      = true ∧
    (createOrder sampleClient "r1" [("totalAmount", .num 100)]
      (sampleStore "pending")).2.orders.length = 2 ∧
    (createOrder sampleClient "r1" [("totalAmount", .num 100)]
      (sampleStore "pending")).2.orderStatusLogs = [] :=
  ⟨rfl, by
    intro h
    have hlen := congrArg (fun c : Coll => (c.map (fun e => e.2.length))) h
    revert hlen
    decide, rfl, rfl, rfl, rfl⟩

/-- C13, amended: every call of `updateOrderStatus`, `confirmOrderReceived`,
`updateTrackingInfo` or `deleteOrder` that succeeds, its store calls
succeeding, appends exactly one status log entry, for the order it mutates;
`createOrder` and `updatePaymentProof`, which do not change the status of an
existing order, append none; and no call of the order, payment or shipment
modules modifies or removes an existing log entry: the log before a call is a
prefix of the log after it. -/
theorem status_log_discipline (cl : Client) (call : Call) (s : Store) :
    s.orderStatusLogs <+: (call.run cl s).2.orderStatusLogs ∧
    (∀ orderId, call.loggedOrder = some orderId → s.reliable → (call.run cl s).1 = true →
      ∃ logId entry,
        (call.run cl s).2.orderStatusLogs = s.orderStatusLogs ++ [(logId, entry)] ∧
        entry.get "orderId" = .str orderId) ∧
    (call.unlogged = true → (call.run cl s).2.orderStatusLogs = s.orderStatusLogs) := by
  refine ⟨Call.run_logs cl call s, ?_, ?_⟩
  · intro orderId hlogged hrel hok
    cases call with
    | updateOrderStatus id status adminMessage additionalData =>
      have hid : id = orderId := by simpa [Call.loggedOrder] using hlogged
      subst hid
      exact updateOrderStatus_logged cl s id status adminMessage additionalData hrel hok
    | confirmOrderReceived id resellerId confirmationMessage =>
      have hid : id = orderId := by simpa [Call.loggedOrder] using hlogged
      subst hid
      exact confirmOrderReceived_logged s id resellerId confirmationMessage hrel hok
    | updateTrackingInfo id trackingNumber estimatedDelivery =>
      have hid : id = orderId := by simpa [Call.loggedOrder] using hlogged
      subst hid
      exact updateTrackingInfo_logged s id trackingNumber estimatedDelivery hrel hok
    | deleteOrder id =>
      have hid : id = orderId := by simpa [Call.loggedOrder] using hlogged
      subst hid
      exact deleteOrder_logged s id hrel hok
    | _ => simp [Call.loggedOrder] at hlogged
  · intro hun
    cases call with
    | createOrder userId orderData => exact createOrder_logs cl userId orderData s
    | updatePaymentProof orderId paymentMethod paymentProof paymentProofURL =>
      exact updatePaymentProof_logs cl orderId paymentMethod paymentProof paymentProofURL s
    | _ => simp [Call.unlogged] at hun

/-- Witness of C13, amended: deleting the cancelled order `ORD1` appends one
entry for `ORD1`. -/
theorem status_log_discipline_witness :
    ∃ logId entry,
      ((Call.deleteOrder "ORD1").run sampleClient (sampleStore "cancelled")).2.orderStatusLogs
        = (sampleStore "cancelled").orderStatusLogs ++ [(logId, entry)] ∧
      entry.get "orderId" = .str "ORD1" :=
  (status_log_discipline sampleClient (Call.deleteOrder "ORD1") (sampleStore "cancelled")).2.1
    "ORD1" rfl rfl rfl

/-- C14, counterexample: on a store that rejects the second call, the write
of the log entry, `updateOrderStatus` returns success and stores the status,
and no log entry is appended. -/
theorem updateOrderStatus_success_without_log :
    (updateOrderStatus sampleClient "ORD1" "confirmed" "Pesanan dikonfirmasi" []
      ⟨(sampleStore "pending").orders, [], [], [], 0, [1]⟩).1 = .ok () ∧
    (updateOrderStatus sampleClient "ORD1" "confirmed" "Pesanan dikonfirmasi" []
      ⟨(sampleStore "pending").orders, [], [], [], 0, [1]⟩).2.orderStatus "ORD1"
      = some (.str "confirmed") ∧
    (updateOrderStatus sampleClient "ORD1" "confirmed" "Pesanan dikonfirmasi" []
      ⟨(sampleStore "pending").orders, [], [], [], 0, [1]⟩).2.orderStatusLogs = [] :=
  ⟨rfl, rfl, rfl⟩

/-- C14, amended: for every existing order, every status `s`, message `m` and
`additionalData`, an `updateOrderStatus` whose store calls succeed returns
success and appends exactly one status log entry, with that order id, status
`s`, message `m` and actor `system`. -/
theorem updateOrderStatus_logs_once (cl : Client) (s : Store)
    (orderId status adminMessage : String) (additionalData o : Doc)
    (hfind : s.orders.find? orderId = some o) (hrel : s.reliable) :
    (updateOrderStatus cl orderId status adminMessage additionalData s).1 = .ok () ∧
    ∃ t, (updateOrderStatus cl orderId status adminMessage additionalData s).2.orderStatusLogs =
      s.orderStatusLogs ++ [("auto" ++ toString t,
        [("orderId", .str orderId), ("status", .str status), ("message", .str adminMessage),
         ("actionBy", .str "system"), ("timestamp", .timestamp t)])] := by
  have hsome : s.orders.find? orderId ≠ none := by
    rw [hfind]
    exact Option.some_ne_none o
  exact (updateOrderStatus_log cl s orderId status adminMessage additionalData hrel).1 hsome

/-- Witness of C14, amended: confirming the pending order `ORD1`. -/
theorem updateOrderStatus_logs_once_witness :
    (updateOrderStatus sampleClient "ORD1" "confirmed" "Pesanan dikonfirmasi" []
      (sampleStore "pending")).1 = .ok () ∧
    (updateOrderStatus sampleClient "ORD1" "confirmed" "Pesanan dikonfirmasi" []
      (sampleStore "pending")).2.orderStatusLogs =
      [("auto1", [("orderId", .str "ORD1"), ("status", .str "confirmed"),
        ("message", .str "Pesanan dikonfirmasi"), ("actionBy", .str "system"),
        ("timestamp", .timestamp 1)])] :=
  ⟨(updateOrderStatus_logs_once sampleClient (sampleStore "pending") "ORD1" "confirmed"
      "Pesanan dikonfirmasi" []
      [("orderNumber", .str "ORD123ABC"), ("resellerId", .str "r1"),
        ("status", .str "pending"), ("paymentStatus", .str "paid"), ("totalAmount", .num 100)]
      rfl rfl).1, rfl⟩

/-- C15: for every order id that does not resolve to an order in the store,
`updatePaymentStatus` of the orders module returns a failure -- the failure
`Order not found` whenever the read reaches the store --, leaves the orders
as they were and creates no payment transaction. -/
theorem updatePaymentStatus_order_not_found (cl : Client) (s : Store)
    (orderId paymentStatus : String) (orderStatus : Option String) (adminMessage : String)
    (paymentDetails : Option Doc) (hfind : s.orders.find? orderId = none) :
    (∃ e, (updatePaymentStatus cl orderId paymentStatus orderStatus adminMessage
      paymentDetails s).1 = .error e) ∧
    (s.reachable = true →
      (updatePaymentStatus cl orderId paymentStatus orderStatus adminMessage
        paymentDetails s).1 = .error "Order not found") ∧
    (updatePaymentStatus cl orderId paymentStatus orderStatus adminMessage
      paymentDetails s).2.orders = s.orders ∧
    (updatePaymentStatus cl orderId paymentStatus orderStatus adminMessage
      paymentDetails s).2.payments = s.payments := by
  cases hr : s.reachable
  · simp [updatePaymentStatus, getDoc_of_unreachable s hr]
  · simp [updatePaymentStatus, getDoc_of_reachable s hr, hfind]

/-- Witness of C15: a payment update for the unknown order `ORD9`. -/
theorem updatePaymentStatus_order_not_found_witness :
    (updatePaymentStatus sampleClient "ORD9" "paid" (some "confirmed") ""
      (some [("method", .str "BCA")]) (sampleStore "pending")).1 = .error "Order not found" :=
  (updatePaymentStatus_order_not_found sampleClient (sampleStore "pending") "ORD9" "paid"
    (some "confirmed") "" (some [("method", .str "BCA")]) rfl).2.1 rfl

/-- C16, counterexample: on a store that rejects the third call, the insert
of the transaction, `updatePaymentStatus` with `paid` and payment details
returns success and stores the payment status, and no payment transaction is
created. -/
theorem updatePaymentStatus_success_without_transaction :
    (updatePaymentStatus sampleClient "ORD1" "paid" (some "confirmed") ""
      (some [("method", .str "BCA")])
      ⟨(sampleStore "pending").orders, [], [], [], 0, [2]⟩).1 = .ok () ∧
    ((updatePaymentStatus sampleClient "ORD1" "paid" (some "confirmed") ""
      (some [("method", .str "BCA")])
      ⟨(sampleStore "pending").orders, [], [], [], 0, [2]⟩).2.orders.find? "ORD1").map
        (fun o => o.get "paymentStatus") = some (.str "paid") ∧
    (updatePaymentStatus sampleClient "ORD1" "paid" (some "confirmed") ""
      (some [("method", .str "BCA")])
      ⟨(sampleStore "pending").orders, [], [], [], 0, [2]⟩).2.payments = [] :=
  ⟨rfl, rfl, rfl⟩

/-- C16, amended: for every existing order `o`, an `updatePaymentStatus` whose store
calls succeed returns success and creates a payment transaction if and only if
`paymentStatus` is `paid` and `paymentDetails` is supplied; when it does, it
creates exactly one, with status `success`, type `payment`, `orderId` the id of
`o`, and the `orderNumber`, `resellerId` and `totalAmount` (as `amount`) of
`o`. -/
theorem updatePaymentStatus_transaction (cl : Client) (s : Store)
    (orderId paymentStatus : String) (orderStatus : Option String) (adminMessage : String)
    (paymentDetails : Option Doc) (o : Doc)
    (hfind : s.orders.find? orderId = some o) (hstored : o.isStored = true)
    (hrel : s.reliable) :
    (updatePaymentStatus cl orderId paymentStatus orderStatus adminMessage
      paymentDetails s).1 = .ok () ∧
    ((paymentStatus = "paid" ∧ paymentDetails.isSome = true) →
      ∃ payment,
        (updatePaymentStatus cl orderId paymentStatus orderStatus adminMessage
          paymentDetails s).2.payments =
            s.payments ++ [("auto" ++ toString (s.clock + 2), payment)] ∧
        payment.get "status" = .str "success" ∧
        payment.get "type" = .str "payment" ∧
        payment.get "orderId" = .str orderId ∧
        payment.get "orderNumber" = o.get "orderNumber" ∧
        payment.get "resellerId" = o.get "resellerId" ∧
        payment.get "amount" = o.get "totalAmount") ∧
    (¬ (paymentStatus = "paid" ∧ paymentDetails.isSome = true) →
      (updatePaymentStatus cl orderId paymentStatus orderStatus adminMessage
        paymentDetails s).2.payments = s.payments) := by
  rw [updatePaymentStatus_run cl s orderId paymentStatus orderStatus adminMessage
    paymentDetails o hfind hrel]
  have hr2 : ((s.tick.setColl .orders (s.orders.modify orderId (fun d => Doc.spread d
      (resolveWrite (s.clock + 1)
        (paymentUpdateData paymentStatus orderStatus adminMessage))))).tick).reachable = true :=
    Store.reachable_of_reliable _
      (Store.tick_reliable _ (Store.setColl_reliable _ _ _ (Store.tick_reliable _ hrel)))
  refine ⟨rfl, ?_, ?_⟩
  · rintro ⟨hpaid, hdetails⟩
    cases paymentDetails with
    | none => simp at hdetails
    | some details =>
      subst hpaid
      simp only [beq_self_eq_true, if_true]
      rw [createPaymentTransaction_run cl _ _ hr2]
      obtain ⟨p1, p2⟩ := paymentOf_stored_status cl
        (verifiedPaymentData orderId o details) (s.clock + 2)
      refine ⟨resolveWrite (s.clock + 2)
        (paymentOf cl (verifiedPaymentData orderId o details)), by simp, ?_, ?_, ?_, ?_, ?_, ?_⟩
      · rw [p1]; simp [verifiedPaymentData, Doc.get, Doc.find?, Val.or, Val.truthy, Val.resolve]
      · rw [p2]; simp [verifiedPaymentData, Doc.get, Doc.find?, Val.or, Val.truthy, Val.resolve]
      · rw [paymentOf_stored cl _ _ "orderId" (by decide)]
        simp [verifiedPaymentData, Doc.get, Doc.find?, Val.resolve]
      · rw [paymentOf_stored cl _ _ "orderNumber" (by decide)]
        have hv : (verifiedPaymentData orderId o details).get "orderNumber"
            = o.get "orderNumber" := by
          simp [verifiedPaymentData, Doc.get, Doc.find?]
        rw [hv, Doc.resolve_get_of_isStored o hstored]
      · rw [paymentOf_stored cl _ _ "resellerId" (by decide)]
        have hv : (verifiedPaymentData orderId o details).get "resellerId"
            = o.get "resellerId" := by
          simp [verifiedPaymentData, Doc.get, Doc.find?]
        rw [hv, Doc.resolve_get_of_isStored o hstored]
      · rw [paymentOf_stored cl _ _ "amount" (by decide)]
        have hv : (verifiedPaymentData orderId o details).get "amount"
            = o.get "totalAmount" := by
          simp [verifiedPaymentData, Doc.get, Doc.find?]
        rw [hv, Doc.resolve_get_of_isStored o hstored]
  · intro hnot
    cases paymentDetails with
    | none => simp
    | some details =>
      have hp : ¬ paymentStatus = "paid" := fun h => hnot ⟨h, rfl⟩
      simp [hp]

/-- Witness of C16, amended: the admin verifies the payment of `ORD1` with details. -/
theorem updatePaymentStatus_transaction_witness :
    (updatePaymentStatus sampleClient "ORD1" "paid" (some "confirmed") ""
      (some [("method", .str "BCA")]) (sampleStore "pending")).1 = .ok () ∧
    (updatePaymentStatus sampleClient "ORD1" "paid" (some "confirmed") ""
      (some [("method", .str "BCA")]) (sampleStore "pending")).2.payments.length = 1 ∧
    (updatePaymentStatus sampleClient "ORD1" "waiting_verification" none ""
      (some [("method", .str "BCA")]) (sampleStore "pending")).2.payments = [] :=
  ⟨(updatePaymentStatus_transaction sampleClient (sampleStore "pending") "ORD1" "paid"
      (some "confirmed") "" (some [("method", .str "BCA")])
      [("orderNumber", .str "ORD123ABC"), ("resellerId", .str "r1"),
        ("status", .str "pending"), ("paymentStatus", .str "paid"), ("totalAmount", .num 100)]
      rfl rfl rfl).1, rfl,
   (updatePaymentStatus_transaction sampleClient (sampleStore "pending") "ORD1"
      "waiting_verification" none "" (some [("method", .str "BCA")])
      [("orderNumber", .str "ORD123ABC"), ("resellerId", .str "r1"),
        ("status", .str "pending"), ("paymentStatus", .str "paid"), ("totalAmount", .num 100)]
      rfl rfl rfl).2.2 (by decide)⟩

/-- C17, counterexample: on a store that rejects the third call, the insert
of the transaction, `updatePaymentProof` returns success and sets the payment
status to `waiting_verification`, and no payment transaction is created. -/
theorem updatePaymentProof_success_without_transaction :
    (updatePaymentProof sampleClient "ORD1" "bank_transfer" "bukti.jpg"
      "https://example.com/bukti.jpg"
      ⟨(sampleStore "pending").orders, [], [], [], 0, [2]⟩).1 = .ok () ∧
    ((updatePaymentProof sampleClient "ORD1" "bank_transfer" "bukti.jpg"
      "https://example.com/bukti.jpg"
      ⟨(sampleStore "pending").orders, [], [], [], 0, [2]⟩).2.orders.find? "ORD1").map
        (fun o => o.get "paymentStatus") = some (.str "waiting_verification") ∧
    (updatePaymentProof sampleClient "ORD1" "bank_transfer" "bukti.jpg"
      "https://example.com/bukti.jpg"
      ⟨(sampleStore "pending").orders, [], [], [], 0, [2]⟩).2.payments = [] :=
  ⟨rfl, rfl, rfl⟩

/-- C17, amended: for every existing order `o`, an `updatePaymentProof` whose store
calls succeed returns success, sets the order's `paymentStatus` to
`waiting_verification`, records the method, the proof reference and the proof
URL, leaves the order's `status` (and every field it does not write)
unchanged, and creates exactly one payment transaction, with status
`processing`, type `payment`, `orderId` the id of `o`, `amount` the
`totalAmount` of `o`, and the method and proof reference given. -/
theorem updatePaymentProof_success (cl : Client) (s : Store)
    (orderId paymentMethod paymentProof paymentProofURL : String) (o : Doc)
    (hfind : s.orders.find? orderId = some o) (hstored : o.isStored = true)
    (hrel : s.reliable) :
    (updatePaymentProof cl orderId paymentMethod paymentProof paymentProofURL s).1 = .ok () ∧
    (∃ o1,
      (updatePaymentProof cl orderId paymentMethod paymentProof paymentProofURL s).2.orders.find?
        orderId = some o1 ∧
      o1.get "paymentStatus" = .str "waiting_verification" ∧
      o1.get "paymentMethod" = .str paymentMethod ∧
      o1.get "paymentProof" = .str paymentProof ∧
      o1.get "paymentProofURL" = .str paymentProofURL ∧
      o1.get "status" = o.get "status" ∧
      ∀ key, key ∉ ["paymentMethod", "paymentProof", "paymentProofURL", "paymentStatus",
        "adminMessage", "updatedAt"] → o1.get key = o.get key) ∧
    (∃ payment,
      (updatePaymentProof cl orderId paymentMethod paymentProof paymentProofURL s).2.payments =
        s.payments ++ [("auto" ++ toString (s.clock + 2), payment)] ∧
      payment.get "status" = .str "processing" ∧
      payment.get "type" = .str "payment" ∧
      payment.get "orderId" = .str orderId ∧
      payment.get "amount" = o.get "totalAmount" ∧
      payment.get "method" = .str paymentMethod ∧
      payment.get "reference" = .str paymentProof) := by
  rw [updatePaymentProof_run cl s orderId paymentMethod paymentProof paymentProofURL o hfind hrel]
  have hframe : ∀ key, key ∉ ["paymentMethod", "paymentProof", "paymentProofURL",
      "paymentStatus", "adminMessage", "updatedAt"] →
      (Doc.spread o
        [("paymentMethod", .str paymentMethod),
         ("paymentProof", .str paymentProof),
         ("paymentProofURL", .str paymentProofURL),
         ("paymentStatus", .str "waiting_verification"),
         ("adminMessage",
            .str "Bukti pembayaran telah dikirim. Menunggu verifikasi dari admin."),
         ("updatedAt", .timestamp (s.clock + 1))]).get key = o.get key := by
    intro key hkey
    simp only [List.mem_cons, List.mem_singleton, List.not_mem_nil, or_false, not_or] at hkey
    obtain ⟨h1, h2, h3, h4, h5, h6⟩ := hkey
    simp [Doc.spread, Doc.get_set, h1, h2, h3, h4, h5, h6]
  obtain ⟨p1, p2⟩ := paymentOf_stored_status cl
    (proofPaymentData orderId paymentMethod paymentProof o) (s.clock + 2)
  refine ⟨rfl,
    ⟨Doc.spread o
      [("paymentMethod", .str paymentMethod),
       ("paymentProof", .str paymentProof),
       ("paymentProofURL", .str paymentProofURL),
       ("paymentStatus", .str "waiting_verification"),
       ("adminMessage",
          .str "Bukti pembayaran telah dikirim. Menunggu verifikasi dari admin."),
       ("updatedAt", .timestamp (s.clock + 1))], ?_, ?_, ?_, ?_, ?_, ?_, hframe⟩,
    ⟨resolveWrite (s.clock + 2)
      (paymentOf cl (proofPaymentData orderId paymentMethod paymentProof o)),
      ?_, ?_, ?_, ?_, ?_, ?_, ?_⟩⟩
  · simp [Coll.find?_modify_self, hfind]
  · simp [Doc.spread, Doc.get_set]
  · simp [Doc.spread, Doc.get_set]
  · simp [Doc.spread, Doc.get_set]
  · simp [Doc.spread, Doc.get_set]
  · exact hframe _ (by decide)
  · simp
  · rw [p1]; simp [proofPaymentData, Doc.get, Doc.find?, Val.or, Val.truthy, Val.resolve]
  · rw [p2]; simp [proofPaymentData, Doc.get, Doc.find?, Val.or, Val.truthy, Val.resolve]
  · rw [paymentOf_stored cl _ _ "orderId" (by decide)]
    simp [proofPaymentData, Doc.get, Doc.find?, Val.resolve]
  · rw [paymentOf_stored cl _ _ "amount" (by decide)]
    have hv : (proofPaymentData orderId paymentMethod paymentProof o).get "amount"
        = o.get "totalAmount" := by
      simp [proofPaymentData, Doc.get, Doc.find?]
    rw [hv, Doc.resolve_get_of_isStored o hstored]
  · rw [paymentOf_stored cl _ _ "method" (by decide)]
    simp [proofPaymentData, Doc.get, Doc.find?, Val.resolve]
  · rw [paymentOf_stored cl _ _ "reference" (by decide)]
    simp [proofPaymentData, Doc.get, Doc.find?, Val.resolve]

/-- Witness of C17, amended: reseller `r1` submits a transfer proof for `ORD1`. -/
theorem updatePaymentProof_success_witness :
    (updatePaymentProof sampleClient "ORD1" "transfer" "REF1" "" (sampleStore "pending")).1
      = .ok () ∧
    (updatePaymentProof sampleClient "ORD1" "transfer" "REF1" ""
      (sampleStore "pending")).2.orderStatus "ORD1" = some (.str "pending") ∧
    (updatePaymentProof sampleClient "ORD1" "transfer" "REF1" ""
      (sampleStore "pending")).2.payments.length = 1 :=
  ⟨(updatePaymentProof_success sampleClient (sampleStore "pending") "ORD1" "transfer" "REF1" ""
      [("orderNumber", .str "ORD123ABC"), ("resellerId", .str "r1"),
        ("status", .str "pending"), ("paymentStatus", .str "paid"), ("totalAmount", .num 100)]
      rfl rfl rfl).1, rfl, rfl⟩

/-- C18, counterexample: a single successful payment whose amount is the
non-negative integer `10 ^ 21`: its string form is `1e+21`, whose digits read
`121`, and `getPaymentStats` returns a `totalRevenue` of 121; and two
successful payments of 9007199254740992 and 1 give a `totalRevenue` of
9007199254740992, one less than their sum. -/
theorem getPaymentStats_revenue_exponent :
    (∃ stats, (getPaymentStats
        ⟨[], [("p1", [("status", .str "success"), ("type", .str "payment"),
            ("amount", .num 1000000000000000000000)])], [], [], 0, []⟩).1 = .ok stats ∧
      stats.totalRevenue = .fin 121 ∧
      successSum [[("status", .str "success"), ("type", .str "payment"),
        ("amount", .num 1000000000000000000000)]] = 1000000000000000000000) ∧
    (∃ stats, (getPaymentStats
        ⟨[], [("p1", [("status", .str "success"), ("type", .str "payment"),
            ("amount", .num 9007199254740992)]),
          ("p2", [("status", .str "success"), ("type", .str "payment"),
            ("amount", .num 1)])], [], [], 0, []⟩).1 = .ok stats ∧
      stats.totalRevenue = .fin 9007199254740992 ∧
      successSum [[("status", .str "success"), ("type", .str "payment"),
          ("amount", .num 9007199254740992)],
        [("status", .str "success"), ("type", .str "payment"), ("amount", .num 1)]]
        = 9007199254740993) :=
  ⟨⟨_, rfl, by decide, by decide⟩, ⟨_, rfl, by decide, by decide⟩⟩

/-- C18, amended: for every store whose scan succeeds and whose successful payments
(status `success`, type `payment`) have non-negative integer amounts with a sum
of at most `2 ^ 53`, `getPaymentStats` returns `totalRevenue` equal to the sum
of `amount` over exactly the transactions with status `success` and type
`payment` -- a transaction that is failed, processing, or of another type
contributes nothing, whatever its amount -- and `totalTransactions` equal to
the number of transactions. -/
theorem getPaymentStats_revenue (s : Store) (hreach : s.reachable = true)
    (hamount : ∀ e ∈ s.payments, successfulPayment e.2 = true →
      ∃ n : Nat, e.2.get "amount" = .num (n : Int))
    (hbound : successSum (s.payments.map (fun e => e.2)) ≤ 2 ^ 53) :
    ∃ stats, (getPaymentStats s).1 = .ok stats ∧
      stats.totalRevenue = .fin ((successSum (s.payments.map (fun e => e.2)) : Nat) : ℚ) ∧
      stats.totalTransactions = s.payments.length :=
  getPaymentStats_sum s hreach hamount hbound

/-- Witness of C18, amended: one successful payment of 500, one failed transaction, one
successful refund and one processing payment give a revenue of 500 over 4
transactions. -/
theorem getPaymentStats_revenue_witness :
    ∃ stats, (getPaymentStats
        ⟨[], [("p1", [("status", .str "success"), ("type", .str "payment"),
            ("amount", .num 500)]),
          ("p2", [("status", .str "failed"), ("type", .str "payment"), ("amount", .num 200)]),
          ("p3", [("status", .str "success"), ("type", .str "refund"), ("amount", .num 50)]),
          ("p4", [("status", .str "processing"), ("type", .str "payment"),
            ("amount", .str "Rp 7.000")])], [], [], 0, []⟩).1 = .ok stats ∧
      stats.totalRevenue = .fin 500 ∧ stats.totalTransactions = 4 := by
  obtain ⟨stats, h1, h2, h3⟩ := getPaymentStats_revenue
    ⟨[], [("p1", [("status", .str "success"), ("type", .str "payment"),
        ("amount", .num 500)]),
      ("p2", [("status", .str "failed"), ("type", .str "payment"), ("amount", .num 200)]),
      ("p3", [("status", .str "success"), ("type", .str "refund"), ("amount", .num 50)]),
      ("p4", [("status", .str "processing"), ("type", .str "payment"),
        ("amount", .str "Rp 7.000")])], [], [], 0, []⟩
    rfl
    (by
      intro e he hs
      simp only [List.mem_cons, List.mem_singleton, List.not_mem_nil, or_false] at he
      rcases he with h | h | h | h
      · exact ⟨500, by rw [h]; rfl⟩
      · rw [h] at hs; exact absurd hs (by decide)
      · rw [h] at hs; exact absurd hs (by decide)
      · rw [h] at hs; exact absurd hs (by decide))
    (by decide)
  exact ⟨stats, h1, h2.trans (by decide), h3⟩

/-- C19: for every search term, every `resellerId` and every store whose
query succeeds, with the fetched orders those of the reseller when a non-empty
`resellerId` is given (the orders whose `resellerId` field is that text) and
all orders otherwise, latest first, and with the `orderNumber`,
`resellerName` and `resellerEmail` of the fetched orders texts or missing:
`searchOrders` returns, in fetch order, exactly those fetched orders for which
the lower-cased term is a substring of the lower-cased `orderNumber`,
`resellerName` or `resellerEmail`, each as `{ id, ...orderData }`; an order
whose three fields are all missing is never returned. -/
theorem searchOrders_exact (toLowerCase : String → String) (searchTerm : String)
    (resellerId : Option String) (s : Store) (hreach : s.reachable = true)
    (htyped : ∀ e ∈ s.orders, ofReseller resellerId e.2 = true →
      textOrMissing (e.2.get "orderNumber") ∧ textOrMissing (e.2.get "resellerName") ∧
        textOrMissing (e.2.get "resellerEmail")) :
    (searchOrders toLowerCase searchTerm resellerId s).1 =
      .ok (((fetchedOrders resellerId s.orders).filter
          (fun e => searchHit toLowerCase searchTerm e.2)).map
        (fun e => Doc.spread [("id", .str e.1)] e.2)) ∧
    (∀ e, e ∈ fetchedOrders resellerId s.orders ↔
      e ∈ s.orders ∧ ofReseller resellerId e.2 = true) ∧
    (∀ o : Doc, ofReseller resellerId o = true ↔
      (resellerId = none ∨ resellerId = some "" ∨
        ∃ r, resellerId = some r ∧ o.get "resellerId" = .str r)) ∧
    (∀ o : Doc, o.get "orderNumber" = .undefined → o.get "resellerName" = .undefined →
      o.get "resellerEmail" = .undefined → searchHit toLowerCase searchTerm o = false) := by
  refine ⟨?_, mem_fetchedOrders resellerId s.orders, ?_, ?_⟩
  · rw [searchOrders_run _ _ _ _ hreach]
    exact searchLoop_of_text toLowerCase searchTerm _
      (fun e he => htyped e ((mem_fetchedOrders _ _ e).1 he).1
        ((mem_fetchedOrders _ _ e).1 he).2)
  · intro o
    cases resellerId with
    | none => simp [ofReseller]
    | some r =>
      by_cases hr : r = ""
      · subst hr
        simp [ofReseller]
      · cases hv : o.get "resellerId" <;> simp [ofReseller, hr, hv]
  · intro o h1 h2 h3
    simp [searchHit, fieldHit, h1, h2, h3]

/-- Witness of C19: the term `BOB`, searched among the orders of reseller
`r1`, finds the two orders of `r1` that carry it, the later one first, and
neither the order of `r1` without any of the three fields nor the matching
order of reseller `r2`. -/
theorem searchOrders_exact_witness :
    (searchOrders lowerAscii "BOB" (some "r1")
      ⟨[("a", [("resellerId", .str "r1"), ("orderNumber", .str "ORD1"),
          ("resellerName", .str "Bob"), ("createdAt", .timestamp 1)]),
        ("b", [("resellerId", .str "r1"), ("totalAmount", .num 5),
          ("createdAt", .timestamp 2)]),
        ("c", [("resellerId", .str "r2"), ("resellerName", .str "Bob"),
          ("createdAt", .timestamp 3)]),
        ("d", [("resellerId", .str "r1"), ("resellerEmail", .str "bobby@example.com"),
          ("createdAt", .timestamp 4)])], [], [], [], 0, []⟩).1 =
      .ok [[("id", .str "d"), ("resellerId", .str "r1"),
              ("resellerEmail", .str "bobby@example.com"), ("createdAt", .timestamp 4)],
           [("id", .str "a"), ("resellerId", .str "r1"), ("orderNumber", .str "ORD1"),
              ("resellerName", .str "Bob"), ("createdAt", .timestamp 1)]] :=
  ((searchOrders_exact lowerAscii "BOB" (some "r1")
    ⟨[("a", [("resellerId", .str "r1"), ("orderNumber", .str "ORD1"),
        ("resellerName", .str "Bob"), ("createdAt", .timestamp 1)]),
      ("b", [("resellerId", .str "r1"), ("totalAmount", .num 5),
        ("createdAt", .timestamp 2)]),
      ("c", [("resellerId", .str "r2"), ("resellerName", .str "Bob"),
        ("createdAt", .timestamp 3)]),
      ("d", [("resellerId", .str "r1"), ("resellerEmail", .str "bobby@example.com"),
        ("createdAt", .timestamp 4)])], [], [], [], 0, []⟩
    rfl
    (by
      intro e he _
      simp only [List.mem_cons, List.mem_singleton, List.not_mem_nil, or_false] at he
      rcases he with h | h | h | h <;> subst h <;>
        simp [textOrMissing, Doc.get, Doc.find?])).1).trans rfl

/-- C20: for every existing shipment and every status `s`, an
`updateShipmentStatus(shipmentId, s, notes)` whose store call succeeds returns
success, sets `status` to `s` and `adminNotes` to `notes`, stamps
`actualDelivery` with the server time when `s` is `delivered` and leaves it
unchanged otherwise, and leaves every field other than `status`,
`adminNotes`, `actualDelivery` and the bookkeeping stamp `updatedAt`
unchanged -- in particular `orderId`, `trackingNumber`, `cost` and `items`. -/
theorem updateShipmentStatus_success (s : Store) (shipmentId status notes : String)
    (shipment : Doc) (hfind : s.shipments.find? shipmentId = some shipment)
    (hr : s.reachable = true) :
    (updateShipmentStatus shipmentId status notes s).1 = .ok () ∧
    ∃ after, (updateShipmentStatus shipmentId status notes s).2.shipments.find? shipmentId
        = some after ∧
      after.get "status" = .str status ∧
      after.get "adminNotes" = .str notes ∧
      (status = "delivered" → after.get "actualDelivery" = .timestamp s.clock) ∧
      (status ≠ "delivered" → after.get "actualDelivery" = shipment.get "actualDelivery") ∧
      after.get "orderId" = shipment.get "orderId" ∧
      after.get "trackingNumber" = shipment.get "trackingNumber" ∧
      after.get "cost" = shipment.get "cost" ∧
      after.get "items" = shipment.get "items" ∧
      (∀ key, key ∉ ["status", "adminNotes", "updatedAt", "actualDelivery"] →
        after.get key = shipment.get key) := by
  have hfind1 : (s.coll .shipments).find? shipmentId = some shipment := by simpa using hfind
  have hrun : updateShipmentStatus shipmentId status notes s =
      (.ok (), (s.setColl .shipments (s.shipments.modify shipmentId
        (fun d => Doc.spread d (resolveWrite s.clock (shipmentUpdateData status notes))))).tick)
      := by
    simp [updateShipmentStatus, updateDoc_of_reachable s hr .shipments shipmentId _ shipment
      hfind1]
  have hframe : ∀ key, key ∉ ["status", "adminNotes", "updatedAt", "actualDelivery"] →
      (Doc.spread shipment (resolveWrite s.clock (shipmentUpdateData status notes))).get key
        = shipment.get key := by
    intro key hkey
    simp only [List.mem_cons, List.mem_singleton, List.not_mem_nil, or_false, not_or] at hkey
    obtain ⟨h1, h2, h3, h4⟩ := hkey
    rw [shipmentUpdate_resolveWrite]
    split <;> simp [Doc.spread, Doc.get_set, h1, h2, h3, h4]
  rw [hrun]
  refine ⟨rfl, Doc.spread shipment (resolveWrite s.clock (shipmentUpdateData status notes)),
    ?_, ?_, ?_, ?_, ?_, hframe _ (by decide), hframe _ (by decide), hframe _ (by decide),
    hframe _ (by decide), hframe⟩
  · simp [Coll.find?_modify_self, hfind]
  · rw [shipmentUpdate_resolveWrite]
    split <;> simp [Doc.spread, Doc.get_set]
  · rw [shipmentUpdate_resolveWrite]
    split <;> simp [Doc.spread, Doc.get_set]
  · intro hd
    rw [shipmentUpdate_resolveWrite, if_pos hd]
    simp [Doc.spread, Doc.get_set]
  · intro hd
    rw [shipmentUpdate_resolveWrite, if_neg hd]
    simp [Doc.spread, Doc.get_set]

/-- Witness of C20: a shipment in transit is marked delivered at server time 3. -/
theorem updateShipmentStatus_success_witness :
    (updateShipmentStatus "s1" "delivered" "diterima"
      ⟨[], [], [("s1", [("orderId", .str "ORD1"), ("status", .str "in_transit"),
          ("actualDelivery", .null), ("cost", .num 15000)])], [], 3, []⟩).1 = .ok () ∧
    (updateShipmentStatus "s1" "delivered" "diterima"
      ⟨[], [], [("s1", [("orderId", .str "ORD1"), ("status", .str "in_transit"),
          ("actualDelivery", .null), ("cost", .num 15000)])], [], 3, []⟩).2.shipments =
      [("s1", [("orderId", .str "ORD1"), ("status", .str "delivered"),
          ("actualDelivery", .timestamp 3), ("cost", .num 15000),
          ("adminNotes", .str "diterima"), ("updatedAt", .timestamp 3)])] :=
  ⟨(updateShipmentStatus_success
      ⟨[], [], [("s1", [("orderId", .str "ORD1"), ("status", .str "in_transit"),
          ("actualDelivery", .null), ("cost", .num 15000)])], [], 3, []⟩
      "s1" "delivered" "diterima"
      [("orderId", .str "ORD1"), ("status", .str "in_transit"),
        ("actualDelivery", .null), ("cost", .num 15000)] rfl rfl).1, rfl⟩

/-- C21, counterexample: a shipment whose cost is the text `12abc`, which is
no number, counts 12 toward `totalCost`, not 0; and the costs 9007199254740992
and 1 give a `totalCost` of 9007199254740992, one less than their sum. -/
theorem getShipmentStats_cost_not_sum :
    (∃ stats, (getShipmentStats
        ⟨[], [], [("s1", [("status", .str "preparing"), ("cost", .str "12abc")])],
          [], 0, []⟩).1 = .ok stats ∧
      stats.totalCost = .fin 12 ∧ stats.totalCost ≠ .fin 0) ∧
    (∃ stats, (getShipmentStats
        ⟨[], [], [("s1", [("status", .str "preparing"), ("cost", .num 9007199254740992)]),
          ("s2", [("status", .str "delivered"), ("cost", .num 1)])],
          [], 0, []⟩).1 = .ok stats ∧
      stats.totalCost = .fin 9007199254740992 ∧
      stats.totalCost ≠ .fin 9007199254740993) :=
  ⟨⟨_, rfl, by decide, by decide⟩, ⟨_, rfl, by decide, by decide⟩⟩

/-- C21, amended: for every store whose scan succeeds and whose shipments have costs
that are non-negative integers, texts of decimal digits, or values that are
no numbers (missing, `null`, a boolean, `NaN`, an object, a text that does not
begin like a number), with a sum of at most `2 ^ 53`: `getShipmentStats`
returns `total` equal to the number of shipments, each of `preparing`,
`inTransit`, `delivered`, `returned` and `cancelled` equal to the number of
shipments with that status, and `totalCost` equal to the sum of the cost over
all shipments whatever their status, a cost that is no number counting as
`0`. -/
theorem getShipmentStats_counts (s : Store) (hreach : s.reachable = true)
    (hcost : ∀ e ∈ s.shipments, plainCost (e.2.get "cost") = true)
    (hbound : costSum (s.shipments.map (fun e => e.2)) ≤ 2 ^ 53) :
    ∃ stats, (getShipmentStats s).1 = .ok stats ∧
      stats.total = s.shipments.length ∧
      stats.preparing
        = (s.shipments.filter (fun e => (e.2.get "status").isStr "preparing")).length ∧
      stats.inTransit
        = (s.shipments.filter (fun e => (e.2.get "status").isStr "in_transit")).length ∧
      stats.delivered
        = (s.shipments.filter (fun e => (e.2.get "status").isStr "delivered")).length ∧
      stats.returned
        = (s.shipments.filter (fun e => (e.2.get "status").isStr "returned")).length ∧
      stats.cancelled
        = (s.shipments.filter (fun e => (e.2.get "status").isStr "cancelled")).length ∧
      stats.totalCost = .fin ((costSum (s.shipments.map (fun e => e.2)) : Nat) : ℚ) := by
  have hrun : (getShipmentStats s).1
      = .ok (shipmentStatistics (s.shipments.map (fun e => e.2))) := by
    simp [getShipmentStats, getDocs_of_reachable _ _ _ hreach, Store.coll]
  have hcount : ∀ status : String,
      countWhere (s.shipments.map (fun e => e.2)) "status" status
        = (s.shipments.filter (fun e => (e.2.get "status").isStr status)).length := by
    intro status
    unfold countWhere
    rw [List.filter_map, List.length_map]
    rfl
  have hfold := foldl_costTerm (s.shipments.map (fun e => e.2))
    (by
      intro d hd
      obtain ⟨e, he, rfl⟩ := List.mem_map.1 hd
      exact hcost e he) 0 (by omega)
  rw [Nat.zero_add] at hfold
  refine ⟨_, hrun, by simp [shipmentStatistics], hcount _, hcount _, hcount _, hcount _,
    hcount _, ?_⟩
  have h0 : (JSNum.fin ((0 : Nat) : ℚ)) = JSNum.fin 0 := by simp
  rw [h0] at hfold
  exact hfold

/-- Witness of C21, amended: a preparing shipment costing 15000, a delivered one whose
cost is the text `gratis`, a cancelled one whose cost is the text `2500` and a
delivered one without a cost give a total cost of 17500 and two delivered. -/
theorem getShipmentStats_counts_witness :
    ∃ stats, (getShipmentStats
        ⟨[], [], [("s1", [("status", .str "preparing"), ("cost", .num 15000)]),
          ("s2", [("status", .str "delivered"), ("cost", .str "gratis")]),
          ("s3", [("status", .str "cancelled"), ("cost", .str "2500")]),
          ("s4", [("status", .str "delivered")])], [], 0, []⟩).1 = .ok stats ∧
      stats.total = 4 ∧ stats.delivered = 2 ∧ stats.totalCost = .fin 17500 := by
  obtain ⟨stats, h1, h2, _, _, h5, _, _, h8⟩ := getShipmentStats_counts
    ⟨[], [], [("s1", [("status", .str "preparing"), ("cost", .num 15000)]),
      ("s2", [("status", .str "delivered"), ("cost", .str "gratis")]),
      ("s3", [("status", .str "cancelled"), ("cost", .str "2500")]),
      ("s4", [("status", .str "delivered")])], [], 0, []⟩
    rfl
    (by
      intro e he
      simp only [List.mem_cons, List.mem_singleton, List.not_mem_nil, or_false] at he
      rcases he with h | h | h | h <;> subst h <;> rfl)
    (by decide)
  exact ⟨stats, h1, h2, h5.trans (by decide), h8.trans (by decide)⟩

/-- C22, counterexample: a batch update whose `updateData` supplies the empty
text as status, on a store whose calls all succeed: the order stores the empty
status, and the log entry records `batch_updated`, not the supplied status. -/
theorem batchUpdateOrders_empty_status :
    (batchUpdateOrders ["ORD1"] [("status", .str "")] (sampleStore "pending")).1 = .ok () ∧
    (batchUpdateOrders ["ORD1"] [("status", .str "")]
      (sampleStore "pending")).2.orderStatus "ORD1" = some (.str "") ∧
    (batchUpdateOrders ["ORD1"] [("status", .str "")]
      (sampleStore "pending")).2.orderStatusLogs.map (fun e => e.2.get "status")
      = [.str "batch_updated"] :=
  ⟨rfl, rfl, rfl⟩

/-- C22, amended: for every list of existing order ids and every updateData, a
batchUpdateOrders whose store calls all succeed applies updateData to each
listed order and appends exactly one log entry per listed id, as many entries
as ids, duplicates included, each with actionBy admin and with the status of
updateData when that is a non-empty text, and batch_updated when updateData
has no status or the empty text as status; and the call returns success
whenever the bulk write succeeds, whatever becomes of the log writes. -/
theorem batchUpdateOrders_success (orderIds : List String) (updateData : Doc) (s : Store)
    (hexist : ∀ id ∈ orderIds, s.orders.find? id ≠ none)
    (hkeys : updateData.keys.Nodup) :
    (s.reachable = true → (batchUpdateOrders orderIds updateData s).1 = .ok ()) ∧
    (s.reliable →
      (∀ id ∈ orderIds, ∀ o, s.orders.find? id = some o →
        ∃ o1, (batchUpdateOrders orderIds updateData s).2.orders.find? id = some o1 ∧
          (∀ k, k ≠ "updatedAt" → (updateData.get k).isUndefined = false →
            o1.get k = (updateData.get k).resolve s.clock) ∧
          o1.get "updatedAt" = .timestamp s.clock ∧
          (∀ k, k ≠ "updatedAt" → updateData.find? k = none → o1.get k = o.get k)) ∧
      (∀ status : Val,
        ((updateData.find? "status" = none ∧ status = .str "batch_updated") ∨
          (updateData.find? "status" = some (.str "") ∧ status = .str "batch_updated") ∨
          (∃ st, st ≠ "" ∧ updateData.find? "status" = some (.str st) ∧ status = .str st)) →
        (batchUpdateOrders orderIds updateData s).2.orderStatusLogs
          = s.orderStatusLogs ++ batchLogEntries status (s.clock + 1) orderIds ∧
        (batchLogEntries status (s.clock + 1) orderIds).length = orderIds.length ∧
        (batchLogEntries status (s.clock + 1) orderIds).map
            (fun e => (e.2.get "orderId", e.2.get "status", e.2.get "actionBy"))
          = orderIds.map (fun id => (Val.str id, status, Val.str "admin")))) := by
  constructor
  · intro hr
    rw [batchUpdateOrders_run orderIds updateData s hr hexist]
  · intro hrel
    have hr := Store.reachable_of_reliable s hrel
    rw [batchUpdateOrders_run orderIds updateData s hr hexist]
    have hfields : Doc.spread updateData [("updatedAt", .serverTimestamp)]
        = updateData.set "updatedAt" .serverTimestamp := rfl
    have hnd : (Doc.spread updateData [("updatedAt", .serverTimestamp)]).keys.Nodup :=
      Doc.keys_spread_nodup _ _ hkeys
    constructor
    · intro id hid o ho
      have hcount : 0 < orderIds.count id := List.count_pos_iff.2 hid
      refine ⟨((fun d => Doc.spread d (resolveWrite s.clock
        (Doc.spread updateData [("updatedAt", .serverTimestamp)])))^[orderIds.count id]) o,
        ?_, ?_, ?_, ?_⟩
      · simp only [batchLogs_orders, Store.tick_orders, Store.setColl_orders_orders]
        rw [Coll.find?_foldl_modify, ho]
        rfl
      · intro k hk hdef
        exact iterate_write_present o _ s.clock k _ hnd
          (by rw [hfields, Doc.get_set, if_neg hk])
          (Val.resolve_ne_undefined _ _ hdef) _ hcount
      · exact iterate_write_present o _ s.clock "updatedAt" .serverTimestamp hnd
          (by rw [hfields, Doc.get_set, if_pos rfl]) (by simp [Val.resolve]) _ hcount
      · intro k hk hnone
        exact iterate_write_absent o _ s.clock k
          (by rw [hfields, Doc.find?_set, if_neg hk]; exact hnone) _
    · intro status hstatus
      have hor : Val.or (updateData.get "status") (.str "batch_updated") = status := by
        rcases hstatus with ⟨hnone, rfl⟩ | ⟨hempty, rfl⟩ | ⟨st, hst, hsome, rfl⟩
        · simp [Val.or, Doc.get, hnone, Val.truthy]
        · simp [Val.or, Doc.get, hempty, Val.truthy]
        · simp [Val.or, Doc.get, hsome, Val.truthy, hst]
      have hsent : status.isSentinel = false := by
        rcases hstatus with ⟨_, rfl⟩ | ⟨_, rfl⟩ | ⟨st, _, _, rfl⟩ <;> rfl
      have hdef : status.isUndefined = false := by
        rcases hstatus with ⟨_, rfl⟩ | ⟨_, rfl⟩ | ⟨st, _, _, rfl⟩ <;> rfl
      rw [hor]
      refine ⟨?_, batchLogEntries_length _ _ _, batchLogEntries_fields _ _ _⟩
      rw [(batchLogs_reliable status hsent hdef orderIds _
        (Store.tick_reliable _ (Store.setColl_reliable _ _ _ hrel))).1]
      simp

/-- Witness of C22, amended: a batch that lists the order twice, with a status, on a
store that fails at the first log write: the call returns success; and on a
store that does not fail, two log entries are written. -/
theorem batchUpdateOrders_success_witness :
    (batchUpdateOrders ["ORD1", "ORD1"] [("status", .str "confirmed")]
      (⟨(sampleStore "pending").orders, [], [], [], 0, [1]⟩)).1 = .ok () ∧
    (batchUpdateOrders ["ORD1", "ORD1"] [("status", .str "confirmed")]
      (sampleStore "pending")).2.orderStatusLogs.length = 2 :=
  ⟨(batchUpdateOrders_success ["ORD1", "ORD1"] [("status", .str "confirmed")]
      (⟨(sampleStore "pending").orders, [], [], [], 0, [1]⟩)
      (by
        intro id hid
        simp only [List.mem_cons, List.mem_singleton, List.not_mem_nil, or_false, or_self] at hid
        subst hid
        simp [sampleStore, Coll.find?])
      (by simp [Doc.keys])).1 rfl,
    rfl⟩

/-- C23, counterexample: with limit 2 and a window of 10, the calls for one ip
at the clock values 0, 0, 10 and 10 are all accepted, the time 0 no longer
being later than `10 - 10`: four accepted calls lie in the interval from 0 to
10, of length 10; and with the limit 5 and the window of 300000 of the login
posts, five calls at 0 and five at 300000 are all accepted. -/
theorem rateLimit_closed_interval :
    acceptedTimes "a" (rateLimitRun 2 10 [("a", 0), ("a", 0), ("a", 10), ("a", 10)] [])
      = [0, 0, 10, 10] ∧
    ((acceptedTimes "a"
        (rateLimitRun 2 10 [("a", 0), ("a", 0), ("a", 10), ("a", 10)] [])).filter
      (fun t => decide (0 ≤ t ∧ t ≤ 0 + 10))).length = 4 ∧
    (acceptedTimes "a:login" (rateLimitRun 5 300000
      [("a:login", 0), ("a:login", 0), ("a:login", 0), ("a:login", 0), ("a:login", 0),
       ("a:login", 300000), ("a:login", 300000), ("a:login", 300000), ("a:login", 300000),
       ("a:login", 300000)] [])).length = 10 := by
  decide

/-- C23, amended: for every sequence of rateLimit calls with a fixed limit and a fixed
window of windowMs > 0 milliseconds, made at non-decreasing clock values on
the initially empty store, the calls for one ip that return true within any
window of windowMs milliseconds (the clock values from start up to, not
including, start + windowMs) number at most limit; and the calls for one ip
get the same results whatever calls are made for other ips. -/
theorem rateLimit_window (limit windowMs : Nat) (hwindow : 0 < windowMs)
    (calls : List (String × Nat))
    (hclock : (calls.map (fun c => c.2)).Pairwise (fun a b => a ≤ b)) (ip : String) :
    (∀ start, windowCount (acceptedTimes ip (rateLimitRun limit windowMs calls []))
      start windowMs ≤ limit) ∧
    (∀ store other : RateLimitStore, store.times ip = other.times ip →
      (rateLimitRun limit windowMs calls store).filter (fun r => decide (r.1.1 = ip))
        = rateLimitRun limit windowMs (calls.filter (fun c => decide (c.1 = ip))) other) := by
  constructor
  · intro start
    have h := windowCount_run limit windowMs hwindow ip calls [] [] (-(windowMs : Int))
      hclock rfl (fun c _ => by omega) (fun b => by simp [windowCount]) start
    simpa using h
  · intro store other h
    exact rateLimitRun_filter limit windowMs ip calls store other h

/-- Witness of C23, amended: with limit 2 and a window of 10, of the calls for `a` at
0, 1, 2, 10, 11 and 11, with a call for `b` in between, those at 0, 1, 10 and
11 are accepted, two of them in the window that starts at 1. -/
theorem rateLimit_window_witness :
    acceptedTimes "a" (rateLimitRun 2 10
      [("a", 0), ("a", 1), ("a", 2), ("b", 2), ("a", 10), ("a", 11), ("a", 11)] [])
      = [0, 1, 10, 11] ∧
    windowCount (acceptedTimes "a" (rateLimitRun 2 10
      [("a", 0), ("a", 1), ("a", 2), ("b", 2), ("a", 10), ("a", 11), ("a", 11)] [])) 1 10
      ≤ 2 :=
  ⟨by decide,
    (rateLimit_window 2 10 (by decide)
      [("a", 0), ("a", 1), ("a", 2), ("b", 2), ("a", 10), ("a", 11), ("a", 11)]
      (by simp) "a").1 1⟩

/-- C24: for every existing order, requested status and additionalData, after
an updateOrderStatus whose store calls succeed the stored status is the value
of the status key of additionalData when additionalData has one, and the
requested status otherwise, while the appended log entry records the
requested status; so the stored and the logged status agree when
additionalData has no status key, and differ whenever its status key holds
another value. -/
theorem updateOrderStatus_status_rule (cl : Client) (s : Store)
    (orderId status adminMessage : String) (additionalData o : Doc)
    (hfind : s.orders.find? orderId = some o) (hrel : s.reliable)
    (hkeys : additionalData.keys.Nodup) :
    (∀ v, additionalData.find? "status" = some v → v.isUndefined = false →
      v.isSentinel = false →
      (updateOrderStatus cl orderId status adminMessage additionalData s).1 = .ok () ∧
      (updateOrderStatus cl orderId status adminMessage additionalData s).2.orderStatus orderId
        = some v) ∧
    (additionalData.find? "status" = none →
      (updateOrderStatus cl orderId status adminMessage additionalData s).1 = .ok () ∧
      (updateOrderStatus cl orderId status adminMessage additionalData s).2.orderStatus orderId
        = some (.str status)) ∧
    (∃ t, (updateOrderStatus cl orderId status adminMessage additionalData s).2.orderStatusLogs =
      s.orderStatusLogs ++ [("auto" ++ toString t,
        [("orderId", .str orderId), ("status", .str status), ("message", .str adminMessage),
         ("actionBy", .str "system"), ("timestamp", .timestamp t)])]) ∧
    (∀ v, additionalData.find? "status" = some v → v.isUndefined = false →
      v.isSentinel = false → v ≠ .str status →
      (updateOrderStatus cl orderId status adminMessage additionalData s).2.orderStatus orderId
        ≠ some (.str status)) := by
  have hpresent : ∀ v, additionalData.find? "status" = some v → v.isUndefined = false →
      v.isSentinel = false →
      (updateOrderStatus cl orderId status adminMessage additionalData s).1 = .ok () ∧
      (updateOrderStatus cl orderId status adminMessage additionalData s).2.orderStatus orderId
        = some v := by
    intro v hv hdef hsent
    exact updateOrderStatus_stored cl s orderId status adminMessage additionalData o v hfind hrel
      (statusUpdateData_status_of_present status adminMessage additionalData v hkeys hv)
      hsent hdef
  refine ⟨hpresent, ?_, ?_, ?_⟩
  · intro hnone
    exact updateOrderStatus_stored cl s orderId status adminMessage additionalData o
      (.str status) hfind hrel
      (statusUpdateData_status status adminMessage additionalData hnone) rfl rfl
  · have hsome : s.orders.find? orderId ≠ none := by rw [hfind]; simp
    exact ((updateOrderStatus_log cl s orderId status adminMessage additionalData hrel).1
      hsome).2
  · intro v hv hdef hsent hne
    rw [(hpresent v hv hdef hsent).2]
    intro h
    exact hne (Option.some.inj h)

/-- Witness of C24: a request for `shipped` whose additionalData carries the
status `cancelled` stores `cancelled` and logs `shipped`. -/
theorem updateOrderStatus_status_rule_witness :
    (updateOrderStatus sampleClient "ORD1" "shipped" "" [("status", .str "cancelled")]
      (sampleStore "pending")).2.orderStatus "ORD1" = some (.str "cancelled") ∧
    (updateOrderStatus sampleClient "ORD1" "shipped" "" [("status", .str "cancelled")]
      (sampleStore "pending")).2.orderStatusLogs =
      [("auto1", [("orderId", .str "ORD1"), ("status", .str "shipped"), ("message", .str ""),
         ("actionBy", .str "system"), ("timestamp", .timestamp 1)])] :=
  ⟨((updateOrderStatus_status_rule sampleClient (sampleStore "pending") "ORD1" "shipped" ""
      [("status", .str "cancelled")]
      [("orderNumber", .str "ORD123ABC"), ("resellerId", .str "r1"),
        ("status", .str "pending"), ("paymentStatus", .str "paid"), ("totalAmount", .num 100)]
      rfl rfl (by simp [Doc.keys])).1 (.str "cancelled") rfl rfl rfl).2, rfl⟩

/-- C25: for orders whose statuses all lie in pending, confirmed, shipped,
delivered, completed and cancelled, the six status counts of the order
statistics add up to the total less the number of delivered orders (stated
as: the six counts and the delivered orders together make the total), and
the processing count is 0. -/
theorem orderStatistics_buckets (orders : List Doc)
    (hstatus : ∀ o ∈ orders, ∃ st, o.get "status" = .str st ∧
      st ∈ ["pending", "confirmed", "shipped", "delivered", "completed", "cancelled"]) :
    (orderStatistics orders).pending + (orderStatistics orders).confirmed
        + (orderStatistics orders).processing + (orderStatistics orders).shipped
        + (orderStatistics orders).completed + (orderStatistics orders).cancelled
        + countWhere orders "status" "delivered" = (orderStatistics orders).total ∧
      (orderStatistics orders).pending + (orderStatistics orders).confirmed
        + (orderStatistics orders).processing + (orderStatistics orders).shipped
        + (orderStatistics orders).completed + (orderStatistics orders).cancelled
        = (orderStatistics orders).total - countWhere orders "status" "delivered" ∧
      (orderStatistics orders).processing = 0 := by
  have key : countWhere orders "status" "pending" + countWhere orders "status" "confirmed"
        + countWhere orders "status" "processing" + countWhere orders "status" "shipped"
        + countWhere orders "status" "completed" + countWhere orders "status" "cancelled"
        + countWhere orders "status" "delivered" = orders.length ∧
      countWhere orders "status" "processing" = 0 := by
    induction orders with
    | nil => simp [countWhere]
    | cons o rest ih =>
      have hrest := ih (fun o ho => hstatus o (List.mem_cons_of_mem _ ho))
      obtain ⟨st, hst, hmem⟩ := hstatus o (List.mem_cons_self _ _)
      simp only [List.mem_cons, List.mem_singleton, List.not_mem_nil, or_false] at hmem
      rcases hmem with h | h | h | h | h | h <;> subst h <;>
        simp [countWhere_cons, hst, Val.isStr_eq_true_iff] <;> omega
  simp only [orderStatistics]
  omega

theorem orderStatistics_buckets_witness :
    (orderStatistics [[("status", .str "pending")], [("status", .str "delivered")],
        [("status", .str "delivered")], [("status", .str "completed")]]).pending
      + (orderStatistics [[("status", .str "pending")], [("status", .str "delivered")],
        [("status", .str "delivered")], [("status", .str "completed")]]).completed = 2 ∧
    (orderStatistics [[("status", .str "pending")], [("status", .str "delivered")],
        [("status", .str "delivered")], [("status", .str "completed")]]).total = 4 ∧
    (orderStatistics [[("status", .str "pending")], [("status", .str "delivered")],
        [("status", .str "delivered")], [("status", .str "completed")]]).processing = 0 :=
  ⟨by decide, by decide,
    (orderStatistics_buckets
      [[("status", .str "pending")], [("status", .str "delivered")],
        [("status", .str "delivered")], [("status", .str "completed")]]
      (by
        intro o ho
        simp only [List.mem_cons, List.mem_singleton, List.not_mem_nil, or_false] at ho
        rcases ho with h | h | h | h <;> subst h
        · exact ⟨"pending", rfl, by decide⟩
        · exact ⟨"delivered", rfl, by decide⟩
        · exact ⟨"delivered", rfl, by decide⟩
        · exact ⟨"completed", rfl, by decide⟩)).2.2⟩

/-- C26, counterexample: the non-negative integer amount `10 ^ 21` has the
string form `1e+21`, whose digits read `121`: a successful payment of that
amount adds 121 to the revenue, not the amount. -/
theorem tallyStep_revenue_exponent :
    ∃ acc1, tallyStep ⟨.fin 0, 0, 0, 0, 0⟩
        [("status", .str "success"), ("type", .str "payment"),
          ("amount", .num 1000000000000000000000)] = .ok acc1 ∧
      Val.toJSString (.num 1000000000000000000000) = "1e+21" ∧
      acc1.totalRevenue = .fin 121 ∧
      acc1.totalRevenue ≠ .fin 1000000000000000000000 :=
  ⟨_, rfl, by decide, by decide, by decide⟩

/-- C26, amended: in `getPaymentStats` a successful payment transaction adds to
`totalRevenue`, in doubles, the number formed by the decimal digits of the
string form of its amount, every other character being dropped (`0` when no
digit is left): that is the amount itself for a non-negative integer amount
up to `2 ^ 53`, 105 for the amount 10.5, whose string form is `10.5`, and 500
for the amount -500. -/
theorem tallyStep_revenue_digits (acc : PaymentTally) (p : Doc)
    (hs : successfulPayment p = true)
    (hu : p.get "amount" ≠ .undefined) (hn : p.get "amount" ≠ .null) :
    ∃ acc1, tallyStep acc p = .ok acc1 ∧
      acc1.totalRevenue
        = acc.totalRevenue.add
          (JSNum.ofRatio false (digitsValue (keepDigits (p.get "amount").toJSString)) 1).orZero ∧
      keepDigits (p.get "amount").toJSString
        = String.mk ((p.get "amount").toJSString.data.filter Char.isDigit) ∧
      (∀ n : Nat, n ≤ 2 ^ 53 → p.get "amount" = .num (n : Int) →
        acc1.totalRevenue = acc.totalRevenue.add (.fin (n : ℚ))) ∧
      (p.get "amount" = .dec 105 1 →
        (p.get "amount").toJSString = "10.5" ∧
        acc1.totalRevenue = acc.totalRevenue.add (.fin 105)) ∧
      (p.get "amount" = .num (-500) →
        (p.get "amount").toJSString = "-500" ∧
        acc1.totalRevenue = acc.totalRevenue.add (.fin 500)) := by
  have hrev := revenueOf_defined (p.get "amount") hu hn
  refine ⟨_, tallyStep_success acc p _ hs hrev, rfl, rfl, ?_, ?_, ?_⟩
  · intro n hle h
    have h1 := revenueOf_nat n hle
    rw [← h, hrev] at h1
    have h2 := Except.ok.inj h1
    show acc.totalRevenue.add _ = _
    rw [h2]
  · intro h
    have hstr : (p.get "amount").toJSString = "10.5" := by
      rw [h]
      decide
    refine ⟨hstr, ?_⟩
    show acc.totalRevenue.add _ = _
    rw [hstr]
    have hd : (JSNum.ofRatio false (digitsValue (keepDigits "10.5")) 1).orZero = .fin 105 := by
      decide
    rw [hd]
  · intro h
    have hstr : (p.get "amount").toJSString = "-500" := by
      rw [h]
      decide
    refine ⟨hstr, ?_⟩
    show acc.totalRevenue.add _ = _
    rw [hstr]
    have hd : (JSNum.ofRatio false (digitsValue (keepDigits "-500")) 1).orZero = .fin 500 := by
      decide
    rw [hd]

/-- Witness of C26, amended: a successful payment of 10.5 adds 105 to the revenue. -/
theorem tallyStep_revenue_digits_witness :
    ∃ acc1, tallyStep ⟨.fin 0, 0, 0, 0, 0⟩
        [("status", .str "success"), ("type", .str "payment"), ("amount", .dec 105 1)]
        = .ok acc1 ∧ acc1.totalRevenue = .fin 105 := by
  obtain ⟨acc1, h1, _, _, _, h5, _⟩ := tallyStep_revenue_digits ⟨.fin 0, 0, 0, 0, 0⟩
    [("status", .str "success"), ("type", .str "payment"), ("amount", .dec 105 1)]
    rfl (by simp [Doc.get, Doc.find?]) (by simp [Doc.get, Doc.find?])
  exact ⟨acc1, h1, (h5 rfl).2.trans (by decide)⟩

/-- C27, counterexample: one verification of an order whose integer
`totalAmount` is `10 ^ 21` makes the `totalRevenue` of `getPaymentStats` grow
from 0 to 121, not by the amount; and two verifications of the sample order on
a store that rejects the second insert of a transaction both return success
and leave one transaction, not two. -/
theorem updatePaymentStatus_repeated_not_sum :
    (∃ stats, (getPaymentStats (paidTimes sampleClient "ORD1" none "" [] 1
        ⟨[("ORD1", [("orderNumber", .str "ORD123ABC"), ("resellerId", .str "r1"),
            ("status", .str "pending"), ("paymentStatus", .str "waiting_verification"),
            ("totalAmount", .num 1000000000000000000000)])], [], [], [], 0, []⟩).2).1
        = .ok stats ∧ stats.totalRevenue = .fin 121) ∧
    (paidTimes sampleClient "ORD1" none "" [] 2
      ⟨(sampleStore "pending").orders, [], [], [], 0, [5]⟩).1 = true ∧
    (paidTimes sampleClient "ORD1" none "" [] 2
      ⟨(sampleStore "pending").orders, [], [], [], 0, [5]⟩).2.payments.length = 1 :=
  ⟨⟨_, rfl, by decide⟩, rfl, rfl⟩

/-- C27, amended: `n` calls `updatePaymentStatus(orderId, 'paid', orderStatus, msg,
paymentDetails)` in a row on the same existing order with integer
`totalAmount` `a >= 0`, with store calls that all succeed, all return success
and append `n` transactions with distinct ids, each a `success` payment of
amount `a` for that order, after the transactions the store already holds,
which stay as they are; so, with the amounts of the successful payments
non-negative integers and all sums at most `2 ^ 53`, the `totalRevenue` of
`getPaymentStats` grows by `n * a`, while the `totalRevenue` of
`getOrderStatistics` counts the amount of the order once. -/
theorem updatePaymentStatus_repeated (cl : Client) (s : Store) (orderId : String)
    (orderStatus : Option String) (adminMessage : String) (details : Doc)
    (pre post : Coll) (o : Doc) (a n : Nat)
    (horders : s.orders = pre ++ (orderId, o) :: post)
    (hfirst : ∀ e ∈ pre, e.1 ≠ orderId)
    (hamount : o.get "totalAmount" = .num (a : Int))
    (hothers : ∀ e ∈ pre ++ post, (e.2.get "paymentStatus").isStr "paid" = true →
      naturalOrMissing (e.2.get "totalAmount"))
    (hpayments : ∀ e ∈ s.payments, successfulPayment e.2 = true →
      ∃ m : Nat, e.2.get "amount" = .num (m : Int))
    (hrevenue : successSum (s.payments.map (fun e => e.2)) + n * a ≤ 2 ^ 53)
    (hordersum : paidSum (pre.map (fun e => e.2)) "totalAmount" + (a : Int)
      + paidSum (post.map (fun e => e.2)) "totalAmount" ≤ 2 ^ 53)
    (hrel : s.reliable) :
    (paidTimes cl orderId orderStatus adminMessage details n s).1 = true ∧
    ∃ fresh : List (String × Doc),
      (paidTimes cl orderId orderStatus adminMessage details n s).2.payments
        = s.payments ++ fresh ∧
      fresh.length = n ∧
      (fresh.map (fun e => e.1)).Nodup ∧
      (∀ e ∈ fresh, e.2.get "status" = .str "success" ∧ e.2.get "type" = .str "payment" ∧
        e.2.get "orderId" = .str orderId ∧ e.2.get "amount" = .num (a : Int)) ∧
      (∃ stats0 stats1,
        (getPaymentStats s).1 = .ok stats0 ∧
        (getPaymentStats (paidTimes cl orderId orderStatus adminMessage details n s).2).1
          = .ok stats1 ∧
        stats0.totalRevenue = .fin ((successSum (s.payments.map (fun e => e.2)) : Nat) : ℚ) ∧
        stats1.totalRevenue
          = .fin ((successSum (s.payments.map (fun e => e.2)) + n * a : Nat) : ℚ)) ∧
      (0 < n →
        ∃ stats,
          (getOrderStatistics none
            (paidTimes cl orderId orderStatus adminMessage details n s).2).1 = .ok stats ∧
          stats.totalRevenue
            = .num (paidSum (pre.map (fun e => e.2)) "totalAmount" + (a : Int)
                + paidSum (post.map (fun e => e.2)) "totalAmount")) := by
  obtain ⟨o1, fresh, h1, h2, h3, h4, h5, h6, h7, h8⟩ :=
    paidTimes_effect cl orderId orderStatus adminMessage details pre post a hfirst n s o
      horders hamount hrel
  have hlen : fresh.length = n := by
    have := congrArg List.length h6
    simpa using this
  have hreach1 := Store.reachable_of_reliable _ h8
  refine ⟨h1, fresh, h5, hlen, ?_, ?_, ?_, ?_⟩
  · rw [h6]
    apply List.Nodup.map_on _ (List.nodup_range n)
    intro i _ j _ hij
    have := autoId_injective _ _ hij
    omega
  · intro e he
    obtain ⟨g1, g2, g3⟩ := h7 e he
    have g4 : ((e.2.get "status").isStr "success" && (e.2.get "type").isStr "payment") = true :=
      g1
    rw [Bool.and_eq_true] at g4
    exact ⟨(Val.isStr_eq_true_iff _ _).1 g4.1, (Val.isStr_eq_true_iff _ _).1 g4.2, g3, g2⟩
  · have hfresh : successSum (fresh.map (fun e => e.2)) = n * a := by
      rw [successSum_const (fresh.map (fun e => e.2)) a
        (by
          intro p hp
          obtain ⟨e, he, rfl⟩ := List.mem_map.1 hp
          exact ⟨(h7 e he).1, (h7 e he).2.1⟩), List.length_map, hlen]
    have hsum : successSum ((paidTimes cl orderId orderStatus adminMessage details n
        s).2.payments.map (fun e => e.2))
        = successSum (s.payments.map (fun e => e.2)) + n * a := by
      rw [h5, List.map_append, successSum_append, hfresh]
    obtain ⟨stats0, k1, k2, _⟩ := getPaymentStats_sum s (Store.reachable_of_reliable s hrel)
      hpayments (by omega)
    obtain ⟨stats1, m1, m2, _⟩ := getPaymentStats_sum _ hreach1
      (by
        intro e he hs
        rw [h5] at he
        rcases List.mem_append.1 he with h | h
        · exact hpayments e h hs
        · exact ⟨a, (h7 e h).2.1⟩)
      (by rw [hsum]; exact hrevenue)
    exact ⟨stats0, stats1, k1, m1, k2, by rw [m2, hsum]⟩
  · intro hn
    rw [getOrderStatistics_run none _ hreach1, scannedOrders_none, h2, List.map_append,
      List.map_cons]
    have hnum : ∀ d ∈ pre.map (fun e => e.2) ++ o1 :: post.map (fun e => e.2),
        (d.get "paymentStatus").isStr "paid" = true →
          naturalOrMissing (d.get "totalAmount") := by
      intro d hd hpaid
      rcases List.mem_append.1 hd with h | h
      · obtain ⟨e, he, rfl⟩ := List.mem_map.1 h
        exact hothers e (List.mem_append_left _ he) hpaid
      · rcases List.mem_cons.1 h with h | h
        · subst h
          exact Or.inl ⟨_, h3⟩
        · obtain ⟨e, he, rfl⟩ := List.mem_map.1 h
          exact hothers e (List.mem_append_right _ he) hpaid
    have hsplit := paidSum_split (pre.map (fun e => e.2)) (post.map (fun e => e.2)) o1 a
      (h4 hn) h3
    have hsum := sumPaid_eq_paidSum "totalAmount" _ hnum (by rw [hsplit]; exact hordersum)
    rw [hsplit] at hsum
    exact ⟨_, rfl, hsum⟩

/-- Witness of C27, amended: two verifications of the sample order of amount 100 give
two transactions and a payment revenue of 200, while the order statistics
count 100. -/
theorem updatePaymentStatus_repeated_witness :
    (paidTimes sampleClient "ORD1" none "" [] 2 (sampleStore "pending")).1 = true ∧
    ∃ fresh : List (String × Doc),
      (paidTimes sampleClient "ORD1" none "" [] 2 (sampleStore "pending")).2.payments
        = (sampleStore "pending").payments ++ fresh ∧ fresh.length = 2 ∧
      (∃ stats1, (getPaymentStats
          (paidTimes sampleClient "ORD1" none "" [] 2 (sampleStore "pending")).2).1
          = .ok stats1 ∧ stats1.totalRevenue = .fin 200) ∧
      (∃ stats, (getOrderStatistics none
          (paidTimes sampleClient "ORD1" none "" [] 2 (sampleStore "pending")).2).1
          = .ok stats ∧ stats.totalRevenue = .num 100) := by
  obtain ⟨h0, fresh, h1, h2, _, _, ⟨_, stats1, _, k2, _, k4⟩, h7⟩ :=
    updatePaymentStatus_repeated sampleClient
      (sampleStore "pending") "ORD1" none "" [] [] []
      [("orderNumber", .str "ORD123ABC"), ("resellerId", .str "r1"),
        ("status", .str "pending"), ("paymentStatus", .str "paid"), ("totalAmount", .num 100)]
      100 2 rfl (by simp) rfl (by simp) (by simp [sampleStore]) (by decide) (by decide) rfl
  obtain ⟨stats, m1, m2⟩ := h7 (by decide)
  exact ⟨h0, fresh, h1, h2, ⟨stats1, k2, k4.trans (by decide)⟩, ⟨stats, m1, m2.trans rfl⟩⟩

/-- C28: with d the ceiling of (e - t) / 86400000, getExpiryStatus returns
expired exactly when d < 0, which is exactly when e lies at least 24 hours
before t; expiring-soon exactly when 0 <= d <= 30, which covers every expiry
that passed less than 24 hours ago; fresh exactly when d > 30; and no-expiry
when no expiry date is given. -/
theorem getExpiryStatus_cases (e t : Int) :
    ceilDays (e - t) = ⌈((e - t : Int) : ℚ) / 86400000⌉ ∧
    ((getExpiryStatus (.instant e) t).status = "expired" ↔ ceilDays (e - t) < 0) ∧
    (ceilDays (e - t) < 0 ↔ e + 86400000 ≤ t) ∧
    ((getExpiryStatus (.instant e) t).status = "expiring-soon" ↔
      0 ≤ ceilDays (e - t) ∧ ceilDays (e - t) ≤ 30) ∧
    ((e < t ∧ t - e < 86400000) → (getExpiryStatus (.instant e) t).status = "expiring-soon") ∧
    ((getExpiryStatus (.instant e) t).status = "fresh" ↔ 30 < ceilDays (e - t)) ∧
    (getExpiryStatus .none t).status = "no-expiry" := by
  have hsoon : (e < t ∧ t - e < 86400000) → 0 ≤ ceilDays (e - t) ∧ ceilDays (e - t) ≤ 30 := by
    intro h
    unfold ceilDays
    omega
  refine ⟨ceilDays_eq_ceil _, ?_, ?_, ?_, ?_, ?_, rfl⟩
  · unfold getExpiryStatus
    simp only []
    split_ifs <;> simp_all
  · unfold ceilDays
    omega
  · unfold getExpiryStatus
    simp only []
    split_ifs with h1 h2 <;> simp_all
  · intro h
    have h3 := hsoon h
    unfold getExpiryStatus
    simp only []
    rw [if_neg (by omega), if_pos h3.2]
  · unfold getExpiryStatus
    simp only []
    split_ifs with h1 h2 <;> simp_all
    omega

/-- Witness of C28: an expiry exactly 24 hours before now is expired, one a
millisecond later is expiring soon. -/
theorem getExpiryStatus_cases_witness :
    (getExpiryStatus (.instant 0) 86400000).status = "expired" ∧
    (getExpiryStatus (.instant 1) 86400000).status = "expiring-soon" :=
  ⟨(getExpiryStatus_cases 0 86400000).2.1.2 (by decide),
    (getExpiryStatus_cases 1 86400000).2.2.2.2.1 ⟨by decide, by decide⟩⟩

/-- C29: the status the admin product form stores for a stock and the status
the reseller catalog derives from it are the same function: out_of_stock for
0, low_stock below 50 and not 0, available from 50 on (and both give
available for a stock that is not a number). -/
theorem savedStatus_eq_catalogStatus (n : Int) :
    savedStatus (some n) = stockStatusOf n ∧ catalogStatus (some n) = stockStatusOf n ∧
    savedStatus (some n) = catalogStatus (some n) ∧ savedStatus none = catalogStatus none ∧
    (n = 0 → savedStatus (some n) = "out_of_stock") ∧
    (n < 50 → n ≠ 0 → savedStatus (some n) = "low_stock") ∧
    (50 ≤ n → savedStatus (some n) = "available") := by
  have h1 : savedStatus (some n) = stockStatusOf n := by
    by_cases h0 : n = 0
    · simp [savedStatus, stockStatusOf, h0]
    · by_cases h50 : n < 50 <;> simp [savedStatus, stockStatusOf, h0, h50]
  have h2 : catalogStatus (some n) = stockStatusOf n := by
    unfold catalogStatus stockStatusOf
    by_cases h0 : n = 0
    · simp [h0]
    · by_cases h50 : n < 50 <;> simp [h0, h50]
  refine ⟨h1, h2, h1.trans h2.symm, rfl, ?_, ?_, ?_⟩
  · intro h
    rw [h1]; unfold stockStatusOf; rw [if_pos h]
  · intro h h0
    rw [h1]; unfold stockStatusOf; rw [if_neg h0, if_pos ⟨h, h0⟩]
  · intro h
    rw [h1]; unfold stockStatusOf; rw [if_neg (by omega), if_neg (by omega)]

/-- Witness of C29: a stock of 10 is `low_stock` on both pages. -/
theorem savedStatus_eq_catalogStatus_witness :
    savedStatus (some 10) = catalogStatus (some 10) ∧ savedStatus (some 10) = "low_stock" :=
  ⟨(savedStatus_eq_catalogStatus 10).2.2.1,
    (savedStatus_eq_catalogStatus 10).2.2.2.2.2.1 (by decide) (by decide)⟩

/-- C30: in exact arithmetic, for every integer wholesale price p above 80 the
catalog's commission percentage is exactly 40, and the price 79 gives 41. -/
theorem commissionPercentage_forty (p : Int) (hp : 80 < p) :
    commissionPercentage p = 40 ∧ commissionPercentage 79 = 41 := by
  constructor
  · have h1 : 79 * p ≤ 200 * commission p := by rw [commission_eq]; omega
    have h2 : 200 * commission p < 81 * p := by rw [commission_eq]; omega
    have hpq : (0 : ℚ) < (p : ℚ) := by exact_mod_cast (by omega : (0 : Int) < p)
    have h1q : 79 * (p : ℚ) ≤ 200 * (commission p : ℚ) := by exact_mod_cast h1
    have h2q : 200 * (commission p : ℚ) < 81 * (p : ℚ) := by exact_mod_cast h2
    unfold commissionPercentage jsRound
    rw [Int.floor_eq_iff]
    have hdiv : (commission p : ℚ) / (p : ℚ) * 100 = (100 * (commission p : ℚ)) / (p : ℚ) := by
      ring
    rw [hdiv]
    push_cast
    constructor
    · have : (79 / 2 : ℚ) ≤ (100 * (commission p : ℚ)) / (p : ℚ) := by
        rw [le_div_iff₀ hpq]; linarith
      linarith
    · have : (100 * (commission p : ℚ)) / (p : ℚ) < (81 / 2 : ℚ) := by
        rw [div_lt_iff₀ hpq]; linarith
      linarith
  · have hc : commission 79 = 32 := by rw [commission_eq]; decide
    unfold commissionPercentage jsRound
    rw [hc, Int.floor_eq_iff]
    norm_num

theorem commissionPercentage_forty_witness :
    (80 : Int) < 100 ∧ commissionPercentage 100 = 40 :=
  ⟨by decide, (commissionPercentage_forty 100 (by decide)).1⟩

end Projekuas
